import Mathlib

/-!
Response receiver and service router of cocaine-dealer.

A shallow embedding of `src/src/response_impl.cpp` (the blocking consumer
endpoint `response_impl_t`) and of `src/src/service.cpp` (the router
`service_t`), followed by theorems about them.

Conventions of the embedding

* Every C++ object is a record; a member function takes the record and
  returns the new record next to its result.
* `boost::mutex` sections are atomic steps.  The only place where a lock is
  given up inside a member function is the condition-variable wait of
  `response_impl_t::get`; the deliveries (`add_chunk` calls of other threads)
  that happen during that wait are an explicit argument of `get`.
* A call that never leaves `m_cond_var.wait` is the result `get_result.blocked`.
* `double` time-outs are integers (milliseconds); only their order with
  respect to zero is used by the code.
* `boost::shared_ptr` is a record of the object and its use count.
* `std::map<std::string, T>` is an association list kept in key order.
-/

namespace Dealer

/-! ## Declarations from headers outside the tree -/

/-- Payload of one response chunk (`chunk_data`), an opaque byte string. -/
abbrev chunk_data := String

/-- The two `response_code` constants that `add_chunk` compares `info.code`
with.  Their header is not part of the tree, so their values are a parameter. -/
structure response_code where
  message_chunk : Int
  message_choke : Int
deriving DecidableEq, Repr

/-- Chunk descriptor (`chunk_info`): `code` discriminates chunk / choke /
error and is the error code in the last case. -/
structure chunk_info where
  code : Int
  error_msg : String
deriving DecidableEq, Repr, Inhabited

/-- Address of a message: service alias and handle name (`message_path_t`). -/
structure message_path_t where
  service_alias : String
  handle_name : String
deriving DecidableEq, Repr, Inhabited

/-! ## The type `double` of the time-outs -/

/-- A C++ `double`: a finite value `mantissa * 2 ^ exponent`, an infinity, or
a NaN. -/
inductive double where
  | finite (mantissa : Int) (exponent : Int)
  | pos_inf
  | neg_inf
  | nan
deriving DecidableEq, Repr

/-- The comparison `x < 0.0`; it is false for a NaN. -/
def double.lt_zero : double → Bool
  | double.finite mantissa _ => decide (mantissa < 0)
  | double.pos_inf => false
  | double.neg_inf => true
  | double.nan => false

/-- The comparison `x >= 0.0`; it is false for a NaN. -/
def double.ge_zero : double → Bool
  | double.finite mantissa _ => decide (0 ≤ mantissa)
  | double.pos_inf => true
  | double.neg_inf => false
  | double.nan => false

/-- The comparison `0.0 < x`; it is false for a NaN.  An elapsed time is
finite and not negative, so `pt.elapsed().as_double() < x` needs it. -/
def double.gt_zero : double → Bool
  | double.finite mantissa _ => decide (0 < mantissa)
  | double.pos_inf => true
  | double.neg_inf => false
  | double.nan => false

/-! ## `response_impl_t` (src/src/response_impl.cpp) -/

/-- Fields of `response_impl_t`. -/
structure response_impl_t where
  m_uuid : String
  m_path : message_path_t
  m_chunks : List chunk_data
  m_response_finished : Bool
  m_message_finished : Bool
  m_caught_error : Bool
  m_resp_info : chunk_info
deriving DecidableEq, Repr

/-- Outcome of one `response_impl_t::get` call. -/
inductive get_result where
  /-- `return true`, with `data` set to the chunk -/
  | returned_true (data : chunk_data)
  /-- `return false` -/
  | returned_false
  /-- `throw dealer_error(code, error_msg)` -/
  | threw (code : Int) (error_msg : String)
  /-- the call stays in its wait loop (lines 65-67, or 75-77 with a time-out
  of `+infinity`) -/
  | blocked
deriving DecidableEq, Repr

/-- Constructor `response_impl_t::response_impl_t(uuid, path)`
(response_impl.cpp:36-42). -/
def response_impl_t.new (uuid : String) (path : message_path_t) : response_impl_t :=
  { m_uuid := uuid
    m_path := path
    m_chunks := []
    m_response_finished := false
    m_message_finished := false
    m_caught_error := false
    m_resp_info := default }

/-- Member `response_impl_t::add_chunk(data, info)` (response_impl.cpp:122-146). -/
def response_impl_t.add_chunk (rc : response_code) (r : response_impl_t)
    (data : chunk_data) (info : chunk_info) : response_impl_t :=
  if r.m_message_finished then r
  else
    let r1 :=
      if info.code = rc.message_choke then
        { r with m_message_finished := true }
      else if info.code = rc.message_chunk then
        { r with m_chunks := r.m_chunks ++ [data] }
      else
        { r with m_caught_error := true, m_resp_info := info, m_message_finished := true }
    { r1 with m_response_finished := true }

/-- Deliveries made by other threads, in the order they took the mutex. -/
def response_impl_t.deliver (rc : response_code) (r : response_impl_t)
    (arrivals : List (chunk_data × chunk_info)) : response_impl_t :=
  arrivals.foldl (fun acc a => acc.add_chunk rc a.1 a.2) r

/-- Lines 102-119 of `response_impl_t::get`: the part after the wait. -/
def response_impl_t.get_tail (r : response_impl_t) (timeout : double) :
    get_result × response_impl_t :=
  if timeout.ge_zero = true ∧ r.m_chunks = [] ∧ r.m_caught_error = false then
    (get_result.returned_false, r)
  else
    match r.m_chunks with
    | d :: rest => (get_result.returned_true d, { r with m_chunks := rest })
    | [] =>
      if r.m_caught_error then
        (get_result.threw r.m_resp_info.code r.m_resp_info.error_msg,
          { r with m_caught_error := false })
      else
        (get_result.returned_false, { r with m_message_finished := true })

/-- Lines 64-78 of `response_impl_t::get`: the two wait loops.  With a
negative time-out the loop runs while `m_response_finished` is unset; with
another time-out it runs while the flag is unset and
`pt.elapsed().as_double() < timeout`, which is never the case for a NaN or
for a time-out that is not positive.
`arrivals` are the `add_chunk` calls other threads make during the wait, so
they are consumed only if the loop is entered.  The result is the state in
which the loop condition is tested after them. -/
def response_impl_t.wait (rc : response_code) (r : response_impl_t) (timeout : double)
    (arrivals : List (chunk_data × chunk_info)) : response_impl_t :=
  if timeout.lt_zero = true then
    if r.m_response_finished = false then r.deliver rc arrivals else r
  else
    if r.m_response_finished = false ∧ timeout.gt_zero = true then r.deliver rc arrivals else r

/-- Lines 84-100 of `response_impl_t::get`: the branch taken when
`m_message_finished` is set. -/
def response_impl_t.get_finished (r : response_impl_t) : get_result × response_impl_t :=
  match r.m_chunks with
  | d :: rest => (get_result.returned_true d, { r with m_chunks := rest })
  | [] =>
    if r.m_caught_error then
      (get_result.threw r.m_resp_info.code r.m_resp_info.error_msg,
        { r with m_message_finished := true, m_caught_error := false })
    else
      (get_result.returned_false, { r with m_message_finished := true })

/-- Member `response_impl_t::get(data, timeout)` (response_impl.cpp:51-120).
A call whose wait loop still finds `m_response_finished` unset after the last
delivery never returns when the time-out is negative (line 65) or is
`+infinity`, below which every elapsed time stays (line 75). -/
def response_impl_t.get (rc : response_code) (r : response_impl_t) (timeout : double)
    (arrivals : List (chunk_data × chunk_info)) : get_result × response_impl_t :=
  if r.m_message_finished = true ∧ r.m_chunks.length = 0 ∧ r.m_caught_error = false then
    (get_result.returned_false, r)
  else if r.m_message_finished = false then
    let w := r.wait rc timeout arrivals
    if (timeout.lt_zero = true ∨ timeout = double.pos_inf) ∧ w.m_response_finished = false then
      (get_result.blocked, w)
    else
      response_impl_t.get_tail
        (if w.m_response_finished then { w with m_response_finished := false } else w) timeout
  else
    r.get_finished

/-- A sequence of `get` calls on one receiver; each call comes with its
time-out and with the deliveries made during its wait. -/
def response_impl_t.get_seq (rc : response_code) (r : response_impl_t) :
    List (double × List (chunk_data × chunk_info)) → List get_result × response_impl_t
  | [] => ([], r)
  | c :: cs =>
    let step := r.get rc c.1 c.2
    let more := response_impl_t.get_seq rc step.2 cs
    (step.1 :: more.1, more.2)

/-- Receiver states the program can be in: a constructed receiver, then
`add_chunk` and `get` calls in any order. -/
inductive response_impl_t.Reachable (rc : response_code) : response_impl_t → Prop where
  | init (uuid : String) (path : message_path_t) :
      response_impl_t.Reachable rc (response_impl_t.new uuid path)
  | add_chunk {r : response_impl_t} (data : chunk_data) (info : chunk_info) :
      response_impl_t.Reachable rc r → response_impl_t.Reachable rc (r.add_chunk rc data info)
  | get {r : response_impl_t} (timeout : double) (arrivals : List (chunk_data × chunk_info)) :
      response_impl_t.Reachable rc r → response_impl_t.Reachable rc (r.get rc timeout arrivals).2

/-- Order of `std::string::operator<` on the characters of two strings:
lexicographic by character code, a proper prefix first. -/
def chars_less : List Char → List Char → Bool
  | [], [] => false
  | [], _ :: _ => true
  | _ :: _, [] => false
  | a :: as, b :: bs =>
    if a.toNat < b.toNat then true
    else if b.toNat < a.toNat then false
    else chars_less as bs

/-- Key order of the maps: `std::less<std::string>`. -/
def string_less (a b : String) : Bool := chars_less a.toList b.toList

/-- Lookup `m.find(k)`: the mapped value, or none for `m.end()`. -/
def map_find {V : Type} : List (String × V) → String → Option V
  | [], _ => none
  | (k', v) :: t, k => if k = k' then some v else map_find t k

/-- Assignment `m[k] = v`: replaces the value of an existing key, else
inserts the pair at its place in key order. -/
def map_assign {V : Type} : List (String × V) → String → V → List (String × V)
  | [], k, v => [(k, v)]
  | (k', v') :: t, k, v =>
    if k = k' then (k, v) :: t
    else if string_less k k' then (k, v) :: (k', v') :: t
    else (k', v') :: map_assign t k v

/-- Removal `m.erase(it)` of the entry with key `k`. -/
def map_erase {V : Type} (m : List (String × V)) (k : String) : List (String × V) :=
  m.filter (fun e => !(e.1 == k))

/-- Mutation of the mapped object through the pointer `it->second`. -/
def map_modify {V : Type} : List (String × V) → String → (V → V) → List (String × V)
  | [], _, _ => []
  | (k', v) :: t, k, f => if k = k' then (k', f v) :: t else (k', v) :: map_modify t k f

/-! ## Messages, handles and chunks (headers outside the tree) -/

/-- Modelled from the spec: the message interface `message_iface`
(cached_message.hpp is not in the tree).  "Header carries: service name,
handle name, client-generated UUID, ..., a deadline (absolute time or none),
and mutable flags sent and ack_received"; the payload is opaque. -/
structure message_iface where
  m_uuid : String
  m_path : message_path_t
  m_data : String
  m_is_sent : Bool
  m_ack_received : Bool
  m_deadline : Option Nat
deriving DecidableEq, Repr

/-- Accessor `message_iface::uuid().as_string()`. -/
def message_iface.uuid (m : message_iface) : String := m.m_uuid

/-- Accessor `message_iface::path()`. -/
def message_iface.path (m : message_iface) : message_path_t := m.m_path

/-- Setter `message_iface::mark_as_sent(value)`. -/
def message_iface.mark_as_sent (m : message_iface) (value : Bool) : message_iface :=
  { m with m_is_sent := value }

/-- Setter `message_iface::set_ack_received(value)`. -/
def message_iface.set_ack_received (m : message_iface) (value : Bool) : message_iface :=
  { m with m_ack_received := value }

/-- Modelled from the spec: `message_iface::is_deadlined()`, "the deadline
flag is set in its policy". -/
def message_iface.is_deadlined (m : message_iface) : Bool := m.m_deadline.isSome

/-- Modelled from the spec: `message_iface::is_expired()` at time `now`, "its
policy's deadline has passed". -/
def message_iface.is_expired (m : message_iface) (now : Nat) : Bool :=
  match m.m_deadline with
  | some d => decide (d < now)
  | none => false

/-- A deque of messages (`cached_messages_deque_t`), front first. -/
abbrev cached_messages_deque_t := List message_iface

/-- Name and owner of a handle, `handle_info_t(name, app, service)`. -/
structure handle_info_t where
  name : String
  app_name : String
  service_name : String
deriving DecidableEq, Repr

/-- Identity of a service (`service_info_t`). -/
structure service_info_t where
  name : String
  app : String
deriving DecidableEq, Repr

/-- An endpoint (`cocaine_endpoint_t`); the router treats it opaquely. -/
abbrev cocaine_endpoint_t := String

/-- Modelled from the spec: the message cache of a handle (`message_cache_t`,
not in the tree), "a private message cache whose contents are the messages
currently in-flight or awaiting acknowledgement", in submission order. -/
structure message_cache_t where
  m_messages : cached_messages_deque_t
deriving DecidableEq, Repr

/-- Modelled from the spec: `message_cache_t::make_all_messages_new()`,
"reset all to new (mark none as sent/ack'd)". -/
def message_cache_t.make_all_messages_new (c : message_cache_t) : message_cache_t :=
  { m_messages := c.m_messages.map (fun m => (m.mark_as_sent false).set_ack_received false) }

/-- Modelled from the spec: `message_cache_t::new_messages()`, "drain new
(return the ordered deque of not-yet-sent messages)". -/
def message_cache_t.new_messages (c : message_cache_t) : cached_messages_deque_t :=
  c.m_messages.filter (fun m => !m.m_is_sent)

/-- Modelled from the spec: the handle proxy `handle_t` (handle.hpp is not in
the tree): its info, its endpoint set, whether it is still active, and its
message cache. -/
structure handle_t where
  m_info : handle_info_t
  m_endpoints : List cocaine_endpoint_t
  m_is_running : Bool
  m_message_cache : message_cache_t
deriving DecidableEq, Repr

/-- Modelled from the spec: constructor `handle_t(info, endpoints, context)`,
an active proxy with an empty cache. -/
def handle_t.new (info : handle_info_t) (endpoints : List cocaine_endpoint_t) : handle_t :=
  { m_info := info, m_endpoints := endpoints, m_is_running := true,
    m_message_cache := { m_messages := [] } }

/-- Accessor `handle_t::info()`. -/
def handle_t.info (h : handle_t) : handle_info_t := h.m_info

/-- Accessor `handle_t::messages_cache()`. -/
def handle_t.messages_cache (h : handle_t) : message_cache_t := h.m_message_cache

/-- Modelled from the spec: `handle_t::enqueue_message(message)`, "accepted
synchronously; the proxy takes ownership of onward delivery". -/
def handle_t.enqueue_message (h : handle_t) (message : message_iface) : handle_t :=
  { h with m_message_cache := { m_messages := h.m_message_cache.m_messages ++ [message] } }

/-- Modelled from the spec: `handle_t::assign_message_queue(queue)`, "hand it
to the proxy as its initial message cache". -/
def handle_t.assign_message_queue (h : handle_t) (queue : cached_messages_deque_t) : handle_t :=
  { h with m_message_cache := { m_messages := queue } }

/-- Modelled from the spec: `handle_t::kill()`, "terminate all proxy
activity; must be idempotent". -/
def handle_t.kill (h : handle_t) : handle_t := { h with m_is_running := false }

/-- Modelled from the spec: `handle_t::update_endpoints(set)`, "replace the
endpoint pool". -/
def handle_t.update_endpoints (h : handle_t) (endpoints : List cocaine_endpoint_t) : handle_t :=
  { h with m_endpoints := endpoints }

/-- A response chunk as the transport hands it to the router
(`response_chunk_t`): the fields service.cpp:442-446 sets, and the payload. -/
structure response_chunk_t where
  uuid : String
  rpc_code : Int
  error_code : Int
  error_message : String
  data : chunk_data
deriving DecidableEq, Repr

/-- What service.cpp takes from headers outside the tree: the
`response_code` constants, the constants `SERVER_RPC_MESSAGE_ERROR` and
`deadline_error`, and the conversion by which `response_t::add_chunk(chunk)`
(response.cpp) calls `response_impl_t::add_chunk(data, info)`. -/
structure externals where
  codes : response_code
  SERVER_RPC_MESSAGE_ERROR : Int
  deadline_error : Int
  to_impl : response_chunk_t → chunk_data × chunk_info

/-- The consumer-visible `response_t`; it forwards to the `response_impl_t`
it owns. -/
abbrev response_t := response_impl_t

/-- Forwarding `response_t::add_chunk(chunk)`. -/
def response_t.add_chunk (ext : externals) (r : response_t) (chunk : response_chunk_t) :
    response_t :=
  response_impl_t.add_chunk ext.codes r (ext.to_impl chunk).1 (ext.to_impl chunk).2

/-- A `boost::shared_ptr<response_t>` held by the registry: the object and
the number of `shared_ptr` copies in existence, the registry's own included. -/
structure response_ptr where
  obj : response_t
  use_count : Nat
deriving DecidableEq, Repr

/-- Test `shared_ptr::unique()`: `use_count() == 1`. -/
def response_ptr.unique (p : response_ptr) : Bool := p.use_count == 1

/-! ## `service_t` (src/src/service.cpp) -/

/-- Fields of `service_t`.  The cleanup timer is the time of its last
`reset()`, in milliseconds. -/
structure service_t where
  m_info : service_info_t
  m_handles : List (String × handle_t)
  m_unhandled_messages : List (String × cached_messages_deque_t)
  m_responses : List (String × response_ptr)
  m_responces_cleanup_timer : Nat
  m_is_running : Bool
  m_is_dead : Bool
deriving DecidableEq, Repr

/-- Constructor `service_t::service_t(info, ctx, logging_enabled)` at time
`now` (service.cpp:26-42). -/
def service_t.new (info : service_info_t) (now : Nat) : service_t :=
  { m_info := info
    m_handles := []
    m_unhandled_messages := []
    m_responses := []
    m_responces_cleanup_timer := now
    m_is_running := true
    m_is_dead := false }

/-- Member `service_t::enque_to_handle(message)` (service.cpp:162-188). -/
def service_t.enque_to_handle (s : service_t) (message : message_iface) : Bool × service_t :=
  match map_find s.m_handles message.path.handle_name with
  | none => (false, s)
  | some _ =>
    let handles := map_modify s.m_handles message.path.handle_name
      (fun handle => handle.enqueue_message message)
    (true, { s with m_handles := handles })

/-- Member `service_t::enque_to_unhandled(message)` (service.cpp:190-220). -/
def service_t.enque_to_unhandled (s : service_t) (message : message_iface) : service_t :=
  let handle_name := message.path.handle_name
  match map_find s.m_unhandled_messages handle_name with
  | none =>
    { s with m_unhandled_messages := map_assign s.m_unhandled_messages handle_name [message] }
  | some _ =>
    let queues := map_modify s.m_unhandled_messages handle_name (fun queue => queue ++ [message])
    { s with m_unhandled_messages := queues }

/-- Member `service_t::get_and_remove_unhandled_queue(handle_name)`
(service.cpp:222-237). -/
def service_t.get_and_remove_unhandled_queue (s : service_t) (handle_name : String) :
    cached_messages_deque_t × service_t :=
  match map_find s.m_unhandled_messages handle_name with
  | none => ([], s)
  | some queue =>
    (queue, { s with m_unhandled_messages := map_erase s.m_unhandled_messages handle_name })

/-- The loop of service.cpp:274-277 on one message. -/
def clear_metadata (m : message_iface) : message_iface :=
  (m.mark_as_sent false).set_ack_received false

/-- Member `service_t::append_to_unhandled(handle_name, handle_queue)`
(service.cpp:239-280). -/
def service_t.append_to_unhandled (s : service_t) (handle_name : String)
    (handle_queue : cached_messages_deque_t) : service_t :=
  if handle_queue.isEmpty then s
  else
    let m1 :=
      match map_find s.m_unhandled_messages handle_name with
      | none => map_assign s.m_unhandled_messages handle_name []
      | some _ => s.m_unhandled_messages
    let m2 := map_modify m1 handle_name (fun queue => (queue ++ handle_queue).map clear_metadata)
    { s with m_unhandled_messages := m2 }

/-- Member `service_t::send_message(message)` (service.cpp:93-113).  The
result is the new `response_t` and the service; the registry entry counts two
owners, the registry and the returned pointer. -/
def service_t.send_message (s : service_t) (message : message_iface) : response_t × service_t :=
  let resp : response_t := response_impl_t.new message.uuid message.path
  let responses := map_assign s.m_responses message.uuid { obj := resp, use_count := 2 }
  let s1 := { s with m_responses := responses }
  let enqued := s1.enque_to_handle message
  if enqued.1 then (resp, enqued.2) else (resp, enqued.2.enque_to_unhandled message)

/-- The cleanup of service.cpp:130-137: entries held by the registry alone
are erased. -/
def remove_unique (m : List (String × response_ptr)) : List (String × response_ptr) :=
  m.filter (fun e => !e.2.unique)

/-- Member `service_t::enqueue_responce(response)` at time `now`
(service.cpp:115-160); `elapsed() > 1.0f` seconds is 1000 milliseconds. -/
def service_t.enqueue_responce (ext : externals) (s : service_t) (response : response_chunk_t)
    (now : Nat) : service_t :=
  let s1 :=
    if now - s.m_responces_cleanup_timer > 1000 then
      { s with m_responses := remove_unique s.m_responses, m_responces_cleanup_timer := now }
    else s
  match map_find s1.m_responses response.uuid with
  | none => s1
  | some p =>
    if p.unique then s1
    else
      let responses := map_modify s1.m_responses response.uuid
        (fun q => { q with obj := response_t.add_chunk ext q.obj response })
      { s1 with m_responses := responses }

/-- Member `service_t::get_outstanding_handles(handles_endpoints,
outstanding_handles)` (service.cpp:282-296); the result is the output list. -/
def service_t.get_outstanding_handles (s : service_t)
    (handles_endpoints : List (String × List cocaine_endpoint_t))
    (outstanding_handles : List handle_info_t) : List handle_info_t :=
  s.m_handles.foldl
    (fun out e =>
      match map_find handles_endpoints e.1 with
      | none => out ++ [e.2.info]
      | some _ => out)
    outstanding_handles

/-- Member `service_t::get_new_handles(handles_endpoints, new_handles)`
(service.cpp:298-314); the result is the output list. -/
def service_t.get_new_handles (s : service_t)
    (handles_endpoints : List (String × List cocaine_endpoint_t))
    (new_handles : List handle_info_t) : List handle_info_t :=
  handles_endpoints.foldl
    (fun out e =>
      match map_find s.m_handles e.1 with
      | none => out ++ [{ name := e.1, app_name := s.m_info.app, service_name := s.m_info.name }]
      | some _ => out)
    new_handles

/-- Member `service_t::create_handle(handle_info, endpoints)`
(service.cpp:316-343). -/
def service_t.create_handle (s : service_t) (handle_info : handle_info_t)
    (endpoints : List cocaine_endpoint_t) : service_t :=
  let handle := handle_t.new handle_info endpoints
  let taken := s.get_and_remove_unhandled_queue handle_info.name
  let handle1 := if !taken.1.isEmpty then handle.assign_message_queue taken.1 else handle
  { taken.2 with m_handles := map_assign taken.2.m_handles handle_info.name handle1 }

/-- Member `service_t::update_handle(handle_info, endpoints)`
(service.cpp:345-361). -/
def service_t.update_handle (s : service_t) (handle_info : handle_info_t)
    (endpoints : List cocaine_endpoint_t) : service_t :=
  match map_find s.m_handles handle_info.name with
  | none => s
  | some _ =>
    let handles := map_modify s.m_handles handle_info.name
      (fun handle => handle.update_endpoints endpoints)
    { s with m_handles := handles }

/-- Member `service_t::destroy_handle(info)` (service.cpp:363-402). -/
def service_t.destroy_handle (s : service_t) (info : handle_info_t) : service_t :=
  match map_find s.m_handles info.name with
  | none => s
  | some handle =>
    let handle1 := handle.kill
    let mcache := handle1.messages_cache.make_all_messages_new
    let handle_queue := mcache.new_messages
    let s1 := s.append_to_unhandled info.name handle_queue
    { s1 with m_handles := map_erase s1.m_handles info.name }

/-- The error chunk of service.cpp:442-446 for an expired message. -/
def deadline_chunk (ext : externals) (m : message_iface) : response_chunk_t :=
  { uuid := m.uuid
    rpc_code := ext.SERVER_RPC_MESSAGE_ERROR
    error_code := ext.deadline_error
    error_message := "unhandled message expired"
    data := "" }

/-- The loop of service.cpp:410-464 over the entries of the unhandled map, at
time `now`.  The first component is the map as the loop leaves it, the second
the service after the `enqueue_responce` calls. -/
def sweep_queues (ext : externals) (now : Nat) :
    List (String × cached_messages_deque_t) → service_t →
      List (String × cached_messages_deque_t) × service_t
  | [], s => ([], s)
  | (name, queue) :: rest, s =>
    let not_expired_queue := queue.filter (fun m => !(m.is_expired now && m.is_deadlined))
    let expired_queue := queue.filter (fun m => m.is_expired now && m.is_deadlined)
    if expired_queue.isEmpty then
      let more := sweep_queues ext now rest s
      ((name, queue) :: more.1, more.2)
    else
      let s1 := expired_queue.foldl
        (fun acc m => acc.enqueue_responce ext (deadline_chunk ext m) now) s
      let more := sweep_queues ext now rest s1
      ((name, not_expired_queue) :: more.1, more.2)

/-- Member `service_t::check_for_deadlined_messages()` at time `now`
(service.cpp:404-465). -/
def service_t.check_for_deadlined_messages (ext : externals) (s : service_t) (now : Nat) :
    service_t :=
  let swept := sweep_queues ext now s.m_unhandled_messages s
  { swept.2 with m_unhandled_messages := swept.1 }

/-- The consumer calls `get` on the receiver it holds for `uuid`. -/
def service_t.consumer_get (ext : externals) (s : service_t) (uuid : String) (timeout : double)
    (arrivals : List (chunk_data × chunk_info)) : service_t :=
  let responses := map_modify s.m_responses uuid
    (fun p => { p with obj := (response_impl_t.get ext.codes p.obj timeout arrivals).2 })
  { s with m_responses := responses }

/-- The consumer drops one of its pointers to the receiver of `uuid`. -/
def service_t.consumer_release (s : service_t) (uuid : String) : service_t :=
  let responses := map_modify s.m_responses uuid
    (fun p => if p.use_count > 1 then { p with use_count := p.use_count - 1 } else p)
  { s with m_responses := responses }

/-- The transport works on the cache of a live handle: messages are marked
sent or acknowledged, or leave the cache when their response is complete. -/
def service_t.transport_step (s : service_t) (handle_name : String)
    (messages : cached_messages_deque_t) : service_t :=
  let handles := map_modify s.m_handles handle_name
    (fun handle => { handle with m_message_cache := { m_messages := messages } })
  { s with m_handles := handles }

/-- Service states the program can be in: a constructed service, then the
router operations, the consumer's and the transport's activity in any order. -/
inductive service_t.Reachable (ext : externals) : service_t → Prop where
  | init (info : service_info_t) (now : Nat) : service_t.Reachable ext (service_t.new info now)
  | send_message {s : service_t} (message : message_iface) :
      service_t.Reachable ext s → service_t.Reachable ext (s.send_message message).2
  | enqueue_responce {s : service_t} (response : response_chunk_t) (now : Nat) :
      service_t.Reachable ext s → service_t.Reachable ext (s.enqueue_responce ext response now)
  | create_handle {s : service_t} (handle_info : handle_info_t)
      (endpoints : List cocaine_endpoint_t) :
      service_t.Reachable ext s → service_t.Reachable ext (s.create_handle handle_info endpoints)
  | update_handle {s : service_t} (handle_info : handle_info_t)
      (endpoints : List cocaine_endpoint_t) :
      service_t.Reachable ext s → service_t.Reachable ext (s.update_handle handle_info endpoints)
  | destroy_handle {s : service_t} (info : handle_info_t) :
      service_t.Reachable ext s → service_t.Reachable ext (s.destroy_handle info)
  | check_for_deadlined_messages {s : service_t} (now : Nat) :
      service_t.Reachable ext s →
        service_t.Reachable ext (s.check_for_deadlined_messages ext now)
  | consumer_get {s : service_t} (uuid : String) (timeout : double)
      (arrivals : List (chunk_data × chunk_info)) :
      service_t.Reachable ext s →
        service_t.Reachable ext (s.consumer_get ext uuid timeout arrivals)
  | consumer_release {s : service_t} (uuid : String) :
      service_t.Reachable ext s → service_t.Reachable ext (s.consumer_release uuid)
  | transport_step {s : service_t} (handle_name : String) (messages : cached_messages_deque_t) :
      service_t.Reachable ext s →
        service_t.Reachable ext (s.transport_step handle_name messages)

/-- The queue the unhandled store holds for a name; empty when it holds none. -/
def service_t.unhandled_queue (s : service_t) (handle_name : String) :
    cached_messages_deque_t :=
  (map_find s.m_unhandled_messages handle_name).getD []

/-- Submissions `send_message(M1)`, ..., `send_message(Mn)` in this order. -/
def service_t.send_messages (s : service_t) (messages : List message_iface) : service_t :=
  messages.foldl (fun acc m => (acc.send_message m).2) s

/-- The registry after the cleanup test of service.cpp:127-140 at time `now`. -/
def service_t.pruned_responses (s : service_t) (now : Nat) : List (String × response_ptr) :=
  if now - s.m_responces_cleanup_timer > 1000 then remove_unique s.m_responses else s.m_responses

/-- The messages a sweep at time `now` takes out of the queues, in the order
the loop of service.cpp:410-464 meets them. -/
def expired_messages (now : Nat) (queues : List (String × cached_messages_deque_t)) :
    cached_messages_deque_t :=
  queues.flatMap (fun e => e.2.filter (fun m => m.is_expired now && m.is_deadlined))

/-- Calls `enqueue_responce(c)` for the chunks of a list, in order, all at
time `now`. -/
def service_t.dispatch (ext : externals) (s : service_t) (now : Nat)
    (chunks : List response_chunk_t) : service_t :=
  chunks.foldl (fun acc c => acc.enqueue_responce ext c now) s

/-- Modelled from the spec: what `response_t::add_chunk` (response.cpp, not in
the tree) hands to `response_impl_t::add_chunk` for a chunk of kind error:
"rpc_code discriminates chunk / choke / error", and the error is captured
with the chunk's code and message; `deadline_error` is an error code, not one
of the two `response_code` constants. -/
def externals.forwards_errors (ext : externals) : Prop :=
  (∀ c : response_chunk_t, c.rpc_code = ext.SERVER_RPC_MESSAGE_ERROR →
    (ext.to_impl c).2 = { code := c.error_code, error_msg := c.error_message }) ∧
  ext.deadline_error ≠ ext.codes.message_choke ∧
  ext.deadline_error ≠ ext.codes.message_chunk

/-- The keys of a map are in strictly increasing order, as `std::map` keeps
them. -/
def keys_sorted {V : Type} (m : List (String × V)) : Prop :=
  List.Pairwise (fun a b => string_less a b = true) (m.map Prod.fst)

/-- The three maps of a service keep their keys in order. -/
def service_t.maps_sorted (s : service_t) : Prop :=
  keys_sorted s.m_handles ∧ keys_sorted s.m_unhandled_messages ∧ keys_sorted s.m_responses

/-- No handle name is a key of the handle map and of the unhandled store. -/
def service_t.no_overlap (s : service_t) : Prop :=
  ∀ name : String, (map_find s.m_handles name).isSome = true →
    map_find s.m_unhandled_messages name = none

/-- Every handle of the handle map is stored under the name of its own info,
as `create_handle` stores it (service.cpp:342). -/
def service_t.handles_named (s : service_t) : Prop :=
  ∀ e ∈ s.m_handles, e.2.m_info.name = e.1

/-- Calls `destroy_handle` for the handles of a list, in order. -/
def service_t.destroy_handles (s : service_t) (infos : List handle_info_t) : service_t :=
  infos.foldl (fun acc info => acc.destroy_handle info) s

/-- Calls `create_handle` for the handles of a list, in order, each with the
endpoints the snapshot has for its name. -/
def service_t.create_handles (s : service_t)
    (handles_endpoints : List (String × List cocaine_endpoint_t)) (infos : List handle_info_t) :
    service_t :=
  infos.foldl
    (fun acc info => acc.create_handle info ((map_find handles_endpoints info.name).getD [])) s

/-- The three mutexes of `service_t`: `m_handles_mutex`, `m_unhandled_mutex`
and `m_responces_mutex`. -/
inductive router_lock where
  | handles
  | unhandled
  | responses
deriving DecidableEq, Repr

/-- What a router operation does with the mutexes, in program order: a
`scoped_lock` construction, the end of its scope (or `unlock()`), and the call
`response_object->add_chunk(response)` of service.cpp:159. -/
inductive lock_event where
  | acquire (l : router_lock)
  | release (l : router_lock)
  | add_chunk (uuid : String)
deriving DecidableEq, Repr

/-- Lock operations of `service_t::enqueue_responce` (service.cpp:115-160):
the registry lock is taken for the block of lines 121-156, which every
`return` leaves, and `add_chunk` is called after the block. -/
def service_t.enqueue_responce_events (s : service_t) (response : response_chunk_t)
    (now : Nat) : List lock_event :=
  match map_find (s.pruned_responses now) response.uuid with
  | none => [lock_event.acquire router_lock.responses, lock_event.release router_lock.responses]
  | some p =>
    if p.unique then
      [lock_event.acquire router_lock.responses, lock_event.release router_lock.responses]
    else
      [lock_event.acquire router_lock.responses, lock_event.release router_lock.responses,
        lock_event.add_chunk response.uuid]

/-- Lock operations of `service_t::enque_to_unhandled` (service.cpp:190-220). -/
def enque_to_unhandled_events : List lock_event :=
  [lock_event.acquire router_lock.unhandled, lock_event.release router_lock.unhandled]

/-- Lock operations of `service_t::get_and_remove_unhandled_queue`
(service.cpp:222-237). -/
def get_and_remove_unhandled_queue_events : List lock_event :=
  [lock_event.acquire router_lock.unhandled, lock_event.release router_lock.unhandled]

/-- Lock operations of `service_t::append_to_unhandled` (service.cpp:239-280):
none when the deque is empty, as the function returns before line 256. -/
def append_to_unhandled_events (handle_queue : cached_messages_deque_t) : List lock_event :=
  if handle_queue.isEmpty then []
  else [lock_event.acquire router_lock.unhandled, lock_event.release router_lock.unhandled]

/-- Lock operations of `service_t::send_message` (service.cpp:93-113): the
registry lock for the block of lines 99-102, then the handle-map lock until
the function returns; `enque_to_handle` takes no lock (line 164). -/
def service_t.send_message_events (s : service_t) (message : message_iface) :
    List lock_event :=
  [lock_event.acquire router_lock.responses, lock_event.release router_lock.responses,
    lock_event.acquire router_lock.handles] ++
  (match map_find s.m_handles message.path.handle_name with
    | some _ => []
    | none => enque_to_unhandled_events) ++
  [lock_event.release router_lock.handles]

/-- Lock operations of `service_t::create_handle` (service.cpp:316-343). -/
def create_handle_events : List lock_event :=
  [lock_event.acquire router_lock.handles] ++ get_and_remove_unhandled_queue_events ++
    [lock_event.release router_lock.handles]

/-- Lock operations of `service_t::update_handle` (service.cpp:345-361). -/
def update_handle_events : List lock_event :=
  [lock_event.acquire router_lock.handles, lock_event.release router_lock.handles]

/-- Lock operations of `service_t::destroy_handle` (service.cpp:363-402). -/
def service_t.destroy_handle_events (s : service_t) (info : handle_info_t) : List lock_event :=
  [lock_event.acquire router_lock.handles] ++
  (match map_find s.m_handles info.name with
    | none => []
    | some handle =>
      append_to_unhandled_events handle.kill.messages_cache.make_all_messages_new.new_messages) ++
  [lock_event.release router_lock.handles]

/-- Lock operations of a series of `enqueue_responce` calls, each on the
service the previous call left. -/
def dispatch_events (ext : externals) (now : Nat) :
    List response_chunk_t → service_t → List lock_event
  | [], _ => []
  | c :: cs, s =>
    s.enqueue_responce_events c now ++ dispatch_events ext now cs (s.enqueue_responce ext c now)

/-- Lock operations of `service_t::check_for_deadlined_messages`
(service.cpp:404-465): the unhandled-store lock for the whole function, and
inside it one `enqueue_responce` per expired message. -/
def service_t.check_for_deadlined_messages_events (ext : externals) (s : service_t)
    (now : Nat) : List lock_event :=
  [lock_event.acquire router_lock.unhandled] ++
  dispatch_events ext now
    ((expired_messages now s.m_unhandled_messages).map (deadline_chunk ext)) s ++
  [lock_event.release router_lock.unhandled]

/-- The lock order of the claim, checked along a sequence of lock operations
that starts with the locks `held`: the handle-map lock is not taken while the
unhandled-store or the registry lock is held, the unhandled-store lock is not
taken while the registry lock is held, and `add_chunk` is not called while the
registry lock is held. -/
def lock_order_ok : List router_lock → List lock_event → Bool
  | _, [] => true
  | held, lock_event.acquire router_lock.handles :: rest =>
    !held.contains router_lock.unhandled && !held.contains router_lock.responses &&
      lock_order_ok (router_lock.handles :: held) rest
  | held, lock_event.acquire router_lock.unhandled :: rest =>
    !held.contains router_lock.responses && lock_order_ok (router_lock.unhandled :: held) rest
  | held, lock_event.acquire router_lock.responses :: rest =>
    lock_order_ok (router_lock.responses :: held) rest
  | held, lock_event.release l :: rest => lock_order_ok (held.erase l) rest
  | held, lock_event.add_chunk _ :: rest =>
    !held.contains router_lock.responses && lock_order_ok held rest

/-! ## `inetv4_endpoint_t` (src/include/cocaine/dealer/core/inetv4_endpoint.hpp) -/

/-- The enumeration `transport_type` (inetv4_endpoint.hpp:34-41). -/
inductive transport_type where
  | TRANSPORT_UNDEFINED
  | TRANSPORT_INPROC
  | TRANSPORT_IPC
  | TRANSPORT_TCP
  | TRANSPORT_PGM
  | TRANSPORT_EPGM
deriving DecidableEq, Repr

/-- Value of an enumerator, which is the key order of `transport_literals`. -/
def transport_type.value : transport_type → Nat
  | transport_type.TRANSPORT_UNDEFINED => 0
  | transport_type.TRANSPORT_INPROC => 1
  | transport_type.TRANSPORT_IPC => 2
  | transport_type.TRANSPORT_TCP => 3
  | transport_type.TRANSPORT_PGM => 4
  | transport_type.TRANSPORT_EPGM => 5

/-- Lookup `m.find(k)` in a `std::map<enum transport_type, T>`. -/
def enum_map_find {V : Type} : List (transport_type × V) → transport_type → Option V
  | [], _ => none
  | (k', v) :: t, k => if k = k' then some v else enum_map_find t k

/-- Assignment `m[k] = v` in a `std::map<enum transport_type, T>`. -/
def enum_map_assign {V : Type} :
    List (transport_type × V) → transport_type → V → List (transport_type × V)
  | [], k, v => [(k, v)]
  | (k', v') :: t, k, v =>
    if k = k' then (k, v) :: t
    else if k.value < k'.value then (k, v) :: (k', v') :: t
    else (k', v') :: enum_map_assign t k v

/-- The static data of `inetv4_endpoint_t`: the two tables and the flag
`initialized` local to `init_transport_literals`. -/
structure transport_tables where
  initialized : Bool
  transport_literals : List (transport_type × String)
  transport_back_literals : List (String × transport_type)
deriving DecidableEq, Repr

/-- The static data at program start: empty maps, `initialized = false`. -/
def transport_tables.start : transport_tables :=
  { initialized := false, transport_literals := [], transport_back_literals := [] }

/-- The function `inetv4_endpoint_t::init_transport_literals`
(inetv4_endpoint.hpp:162-184). -/
def init_transport_literals (st : transport_tables) : transport_tables :=
  if st.initialized then st
  else
    let l0 := enum_map_assign st.transport_literals transport_type.TRANSPORT_UNDEFINED ""
    let l1 := enum_map_assign l0 transport_type.TRANSPORT_INPROC "inproc"
    let l2 := enum_map_assign l1 transport_type.TRANSPORT_IPC "ipc"
    let l3 := enum_map_assign l2 transport_type.TRANSPORT_TCP "tcp"
    let l4 := enum_map_assign l3 transport_type.TRANSPORT_PGM "pgm"
    let l5 := enum_map_assign l4 transport_type.TRANSPORT_EPGM "epgm"
    let b0 := map_assign st.transport_back_literals "" transport_type.TRANSPORT_UNDEFINED
    let b1 := map_assign b0 "inproc" transport_type.TRANSPORT_INPROC
    let b2 := map_assign b1 "ipc" transport_type.TRANSPORT_IPC
    let b3 := map_assign b2 "tcp" transport_type.TRANSPORT_TCP
    let b4 := map_assign b3 "pgm" transport_type.TRANSPORT_PGM
    let b5 := map_assign b4 "epgm" transport_type.TRANSPORT_EPGM
    { initialized := true, transport_literals := l5, transport_back_literals := b5 }

/-- The function `inetv4_endpoint_t::transport_from_string`
(inetv4_endpoint.hpp:128-139): the result and the static data it leaves. -/
def transport_from_string (st : transport_tables) (transport_string : String) :
    transport_type × transport_tables :=
  let st1 := init_transport_literals st
  match map_find st1.transport_back_literals transport_string with
  | some t => (t, st1)
  | none => (transport_type.TRANSPORT_UNDEFINED, st1)

/-- The function `inetv4_endpoint_t::string_from_transport`
(inetv4_endpoint.hpp:141-152): the result and the static data it leaves. -/
def string_from_transport (st : transport_tables) (type : transport_type) :
    String × transport_tables :=
  let st1 := init_transport_literals st
  match enum_map_find st1.transport_literals type with
  | some s => (s, st1)
  | none => ("", st1)

/-- The static data any series of calls can leave: every member that touches
the tables changes them through `init_transport_literals` only. -/
inductive transport_tables.Reachable : transport_tables → Prop where
  | start : transport_tables.Reachable transport_tables.start
  | init {st : transport_tables} :
      transport_tables.Reachable st → transport_tables.Reachable (init_transport_literals st)

/-- The tables once `init_transport_literals` has run, in key order. -/
def transport_tables.filled : transport_tables :=
  { initialized := true,
    transport_literals :=
      [(transport_type.TRANSPORT_UNDEFINED, ""), (transport_type.TRANSPORT_INPROC, "inproc"),
        (transport_type.TRANSPORT_IPC, "ipc"), (transport_type.TRANSPORT_TCP, "tcp"),
        (transport_type.TRANSPORT_PGM, "pgm"), (transport_type.TRANSPORT_EPGM, "epgm")],
    transport_back_literals :=
      [("", transport_type.TRANSPORT_UNDEFINED), ("epgm", transport_type.TRANSPORT_EPGM),
        ("inproc", transport_type.TRANSPORT_INPROC), ("ipc", transport_type.TRANSPORT_IPC),
        ("pgm", transport_type.TRANSPORT_PGM), ("tcp", transport_type.TRANSPORT_TCP)] }

/-! ## `hosts_fetcher_iface::parse_hosts_data`
(src/include/cocaine/dealer/heartbeats/hosts_fetcher_iface.hpp) -/

/-- The class `inetv4_host_t` of inetv4_host.hpp, a header outside the tree:
the two members that inetv4_endpoint.hpp reads (lines 117 and 122). -/
structure inetv4_host_t where
  ip : Nat
  hostname : String
deriving DecidableEq, Repr

/-- The data members of `inetv4_endpoint_t` (inetv4_endpoint.hpp:154-156). -/
structure inetv4_endpoint_t where
  transport : transport_type
  host : inetv4_host_t
  port : Nat
deriving DecidableEq, Repr

/-- What `parse_hosts_data` calls from outside the tree; `none` stands for a
thrown exception. `ipv4_from_hint` is `nutils::ipv4_from_hint` as stored in
`int ip`, `inetv4_host_t_new` the constructor `inetv4_host_t(unsigned int)`,
`lexical_cast_unsigned_short` is `boost::lexical_cast<unsigned short>` on a
string. -/
structure host_externals where
  ipv4_from_hint : String → Option Int
  inetv4_host_t_new : Nat → Option inetv4_host_t
  lexical_cast_unsigned_short : String → Option Nat

/-- Conversion of an `int` argument to the `unsigned int` parameter `ip_`. -/
def to_unsigned_int (ip : Int) : Nat := (ip % 4294967296).toNat

/-- Constructor `inetv4_endpoint_t(unsigned int ip_, unsigned short port_,
enum transport_type transport_)` (inetv4_endpoint.hpp:73-80), the overload
that the call of hosts_fetcher_iface.hpp:93 with the literal `0` selects: the
object, or `none` when the host constructor throws, and the static tables. -/
def inetv4_endpoint_t.new_ip_port (env : host_externals) (st : transport_tables)
    (ip_ : Nat) (port_ : Nat) (transport_ : transport_type) :
    Option inetv4_endpoint_t × transport_tables :=
  match env.inetv4_host_t_new ip_ with
  | none => (none, st)
  | some host =>
    (some { transport := transport_, host := host, port := port_ }, init_transport_literals st)

/-- Constructor `inetv4_endpoint_t(unsigned int ip_, const std::string& port_,
enum transport_type transport_)` (inetv4_endpoint.hpp:92-100): the host is
built first, then the tables are set up, then the port text is converted. -/
def inetv4_endpoint_t.new_ip_port_string (env : host_externals) (st : transport_tables)
    (ip_ : Nat) (port_ : String) (transport_ : transport_type) :
    Option inetv4_endpoint_t × transport_tables :=
  match env.inetv4_host_t_new ip_ with
  | none => (none, st)
  | some host =>
    match env.lexical_cast_unsigned_short port_ with
    | none => (none, init_transport_literals st)
    | some port =>
      (some { transport := transport_, host := host, port := port }, init_transport_literals st)

/-- The classification `boost::is_space()` in the classic locale. -/
def is_space (c : Char) : Bool :=
  c = ' ' || c = '\t' || c = '\n' || c = '\x0b' || c = '\x0c' || c = '\r'

/-- The function `boost::trim`: leading and trailing spaces removed. -/
def trim (line : List Char) : List Char :=
  ((line.dropWhile is_space).reverse.dropWhile is_space).reverse

/-- The call `line.find(pattern)`: index of the first occurrence, `none` for
`std::string::npos`. -/
def string_find (pattern : List Char) : List Char → Option Nat
  | [] => if pattern.isEmpty then some 0 else none
  | c :: cs =>
    if pattern.isPrefixOf (c :: cs) then some 0
    else (string_find pattern cs).map (fun i => i + 1)

/-- The call `line.find_last_of(":")`: index of the last `c`, `none` for
`std::string::npos`. -/
def find_last_of (c : Char) : List Char → Option Nat
  | [] => none
  | a :: as =>
    match find_last_of c as with
    | some i => some (i + 1)
    | none => if a = c then some 0 else none

/-- The `boost::tokenizer` with `char_separator<char>("\n")`: the non-empty
runs between line feeds; `cur` is the run being read. -/
def tokenizer_from : List Char → List Char → List (List Char)
  | cur, [] => if cur.isEmpty then [] else [cur]
  | cur, c :: cs =>
    if c = '\n' then
      (if cur.isEmpty then tokenizer_from [] cs else cur :: tokenizer_from [] cs)
    else tokenizer_from (cur ++ [c]) cs

/-- The tokens of `data` (hosts_fetcher_iface.hpp:49-51). -/
def tokenizer (data : String) : List (List Char) := tokenizer_from [] data.toList

/-- How the body of the loop ends for one token: at `push_back`, at a
`continue`, or in the handler `catch (...)`. -/
inductive line_result where
  | pushed (e : inetv4_endpoint_t)
  | skipped
  | caught
deriving DecidableEq, Repr

/-- The endpoint a token adds, if any. -/
def line_result.endpoint : line_result → Option inetv4_endpoint_t
  | line_result.pushed e => some e
  | line_result.skipped => none
  | line_result.caught => none

/-- Lines 64-79 of hosts_fetcher_iface.hpp on the trimmed line: the transport,
the line without its prefix, and the static tables. -/
def line_transport (st : transport_tables) (line : List Char) :
    transport_type × List Char × transport_tables :=
  match string_find "://".toList line with
  | some pos =>
    let r := transport_from_string st (String.mk (line.take pos))
    (if r.1 = transport_type.TRANSPORT_UNDEFINED then transport_type.TRANSPORT_TCP else r.1,
      line.drop (pos + 3), r.2)
  | none => (transport_type.TRANSPORT_TCP, line, st)

/-- End of the loop body after a constructor call: `push_back` copies the
object, and the copy constructor sets up the tables again. -/
def push_back_result (r : Option inetv4_endpoint_t × transport_tables) :
    line_result × transport_tables :=
  match r.1 with
  | none => (line_result.caught, r.2)
  | some e => (line_result.pushed e, init_transport_literals r.2)

/-- The body of the loop of `parse_hosts_data` for one token
(hosts_fetcher_iface.hpp:54-109). -/
def parse_line (env : host_externals) (st : transport_tables) (tok : List Char) :
    line_result × transport_tables :=
  let line := trim tok
  if line.isEmpty || line.head? == some '#' then (line_result.skipped, st)
  else
    let t := line_transport st line
    match find_last_of ':' t.2.1 with
    | none =>
      match env.ipv4_from_hint (String.mk t.2.1) with
      | none => (line_result.caught, t.2.2)
      | some ip =>
        if ip = 0 then (line_result.skipped, t.2.2)
        else push_back_result
          (inetv4_endpoint_t.new_ip_port env t.2.2 (to_unsigned_int ip) 0 t.1)
    | some pos =>
      match env.ipv4_from_hint (String.mk (t.2.1.take pos)) with
      | none => (line_result.caught, t.2.2)
      | some ip =>
        if ip = 0 then (line_result.skipped, t.2.2)
        else push_back_result
          (inetv4_endpoint_t.new_ip_port_string env t.2.2 (to_unsigned_int ip)
            (String.mk (t.2.1.drop (pos + 1))) t.1)

/-- The loop of `parse_hosts_data` over the tokens. -/
def parse_lines (env : host_externals) :
    transport_tables → List (List Char) → List inetv4_endpoint_t →
      List inetv4_endpoint_t × transport_tables
  | st, [], endpoints => (endpoints, st)
  | st, tok :: toks, endpoints =>
    match (parse_line env st tok).1 with
    | line_result.pushed e => parse_lines env (parse_line env st tok).2 toks (endpoints ++ [e])
    | line_result.skipped => parse_lines env (parse_line env st tok).2 toks endpoints
    | line_result.caught => parse_lines env (parse_line env st tok).2 toks endpoints

/-- The function `hosts_fetcher_iface::parse_hosts_data`
(hosts_fetcher_iface.hpp:47-111): the vector `endpoints` after the call, and
the static tables. -/
def parse_hosts_data (env : host_externals) (st : transport_tables) (data : String)
    (endpoints : List inetv4_endpoint_t) : List inetv4_endpoint_t × transport_tables :=
  parse_lines env st (tokenizer data) endpoints

/-- The line after its transport prefix (hosts_fetcher_iface.hpp:73-74). -/
def line_rest (line : List Char) : List Char :=
  match string_find "://".toList line with
  | some pos => line.drop (pos + 3)
  | none => line

/-- The transport text before "://" (hosts_fetcher_iface.hpp:70), if the
line has that separator. -/
def line_transport_str (line : List Char) : Option (List Char) :=
  (string_find "://".toList line).map (fun pos => line.take pos)

/-- The text handed to `ipv4_from_hint` (hosts_fetcher_iface.hpp:87 and 96-97). -/
def host_text (rest : List Char) : List Char :=
  match find_last_of ':' rest with
  | none => rest
  | some pos => rest.take pos

/-- The port text after the last ':' (hosts_fetcher_iface.hpp:98-99), if the
line has one. -/
def port_text (rest : List Char) : Option (List Char) :=
  (find_last_of ':' rest).map (fun pos => rest.drop (pos + 1))

/-- Sample externals: one known address, one name whose resolution throws,
every other text resolves to 0; only "80" is a port. -/
def sample_host_externals : host_externals :=
  { ipv4_from_hint := fun s =>
      if s = "10.0.0.1" then some 167772161 else if s = "nohost" then none else some 0,
    inetv4_host_t_new := fun ip => some { ip := ip, hostname := "" },
    lexical_cast_unsigned_short := fun s => if s = "80" then some 80 else none }

/-- Sample hosts text: a comment, an empty line, a bare address with spaces,
an unrecognised prefix, a bad port, an unknown host, a throwing host, and a
recognised prefix. -/
def sample_hosts_data : String :=
  "# hosts\n\n  10.0.0.1 \nudp://10.0.0.1:80\n10.0.0.1:http\nzero:80\nnohost\nepgm://10.0.0.1:80"

/-! ## Lemmas on the maps -/

theorem map_find_assign_same {V : Type} (m : List (String × V)) (k : String) (v : V) :
    map_find (map_assign m k v) k = some v := by
  induction m with
  | nil => simp [map_assign, map_find]
  | cons e t ih =>
    obtain ⟨k', v'⟩ := e
    unfold map_assign
    split_ifs with h1 h2
    · simp [map_find]
    · simp [map_find]
    · simp [map_find, h1, ih]

theorem map_find_assign_other {V : Type} (m : List (String × V)) (k k' : String) (v : V)
    (h : k' ≠ k) : map_find (map_assign m k v) k' = map_find m k' := by
  induction m with
  | nil => simp [map_assign, map_find, h]
  | cons e t ih =>
    obtain ⟨k0, v0⟩ := e
    unfold map_assign
    split_ifs with h1 h2
    · subst h1; simp [map_find, h]
    · simp [map_find, h]
    · simp [map_find, ih]

theorem map_find_erase_same {V : Type} (m : List (String × V)) (k : String) :
    map_find (map_erase m k) k = none := by
  induction m with
  | nil => simp [map_erase, map_find]
  | cons e t ih =>
    obtain ⟨k0, v0⟩ := e
    unfold map_erase at *
    by_cases h : k0 = k
    · simp [List.filter_cons, h, ih]
    · have h' : ¬ k = k0 := fun hh => h hh.symm
      simp [List.filter_cons, h, map_find, h', ih]

theorem map_find_erase_other {V : Type} (m : List (String × V)) (k k' : String)
    (h : k' ≠ k) : map_find (map_erase m k) k' = map_find m k' := by
  induction m with
  | nil => simp [map_erase, map_find]
  | cons e t ih =>
    obtain ⟨k0, v0⟩ := e
    unfold map_erase at *
    by_cases h0 : k0 = k
    · subst h0
      simp [List.filter_cons, map_find, h, ih]
    · simp [List.filter_cons, h0, map_find, ih]

theorem map_find_modify_same {V : Type} (m : List (String × V)) (k : String) (f : V → V) :
    map_find (map_modify m k f) k = (map_find m k).map f := by
  induction m with
  | nil => simp [map_modify, map_find]
  | cons e t ih =>
    obtain ⟨k0, v0⟩ := e
    unfold map_modify
    split_ifs with h1
    · simp [map_find, h1]
    · simp [map_find, h1, ih]

theorem map_find_modify_other {V : Type} (m : List (String × V)) (k k' : String) (f : V → V)
    (h : k' ≠ k) : map_find (map_modify m k f) k' = map_find m k' := by
  induction m with
  | nil => simp [map_modify, map_find]
  | cons e t ih =>
    obtain ⟨k0, v0⟩ := e
    unfold map_modify
    split_ifs with h1
    · have h' : ¬ k' = k0 := by rw [← h1]; exact h
      simp [map_find, h']
    · simp [map_find, ih]

theorem map_find_modify_isSome {V : Type} (m : List (String × V)) (k k' : String) (f : V → V) :
    (map_find (map_modify m k f) k').isSome = (map_find m k').isSome := by
  by_cases h : k' = k
  · subst h; rw [map_find_modify_same]; cases map_find m k' <;> rfl
  · rw [map_find_modify_other m k k' f h]

theorem map_modify_absent {V : Type} (m : List (String × V)) (k : String) (f : V → V)
    (h : map_find m k = none) : map_modify m k f = m := by
  induction m with
  | nil => rfl
  | cons e t ih =>
    obtain ⟨k0, v0⟩ := e
    unfold map_find at h
    unfold map_modify
    split_ifs at h with h1
    · simp [h1, ih h]

/-! ## The key order -/

theorem chars_less_irrefl (a : List Char) : chars_less a a = false := by
  induction a with
  | nil => rfl
  | cons c t ih => simp [chars_less, ih]

theorem chars_less_trans :
    ∀ a b c : List Char, chars_less a b = true → chars_less b c = true →
      chars_less a c = true := by
  intro a
  induction a with
  | nil =>
    intro b c hab hbc
    cases b with
    | nil => simp [chars_less] at hab
    | cons y ys =>
      cases c with
      | nil => simp [chars_less] at hbc
      | cons z zs => simp [chars_less]
  | cons x xs ih =>
    intro b c hab hbc
    cases b with
    | nil => simp [chars_less] at hab
    | cons y ys =>
      cases c with
      | nil => simp [chars_less] at hbc
      | cons z zs =>
        unfold chars_less at hab hbc ⊢
        by_cases h1 : x.toNat < y.toNat
        · by_cases h2 : y.toNat < z.toNat
          · have : x.toNat < z.toNat := lt_trans h1 h2
            simp [this]
          · simp only [h2, if_false] at hbc
            by_cases h3 : z.toNat < y.toNat
            · simp [h3] at hbc
            · have : y.toNat = z.toNat := by omega
              have : x.toNat < z.toNat := by omega
              simp [this]
        · simp only [h1, if_false] at hab
          by_cases h1' : y.toNat < x.toNat
          · simp [h1'] at hab
          · simp only [h1', if_false] at hab
            have hxy : x.toNat = y.toNat := by omega
            by_cases h2 : y.toNat < z.toNat
            · have : x.toNat < z.toNat := by omega
              simp [this]
            · simp only [h2, if_false] at hbc
              by_cases h3 : z.toNat < y.toNat
              · simp [h3] at hbc
              · simp only [h3, if_false] at hbc
                have h4 : ¬ x.toNat < z.toNat := by omega
                have h5 : ¬ z.toNat < x.toNat := by omega
                simp only [h4, h5, if_false]
                exact ih ys zs hab hbc

theorem char_eq_of_toNat_eq (x y : Char) (h : x.toNat = y.toNat) : x = y := by
  apply Char.ext
  apply UInt32.ext
  exact h

theorem chars_less_total :
    ∀ a b : List Char, chars_less a b = false → a ≠ b → chars_less b a = true := by
  intro a
  induction a with
  | nil =>
    intro b hab hne
    cases b with
    | nil => exact absurd rfl hne
    | cons y ys => simp [chars_less] at hab
  | cons x xs ih =>
    intro b hab hne
    cases b with
    | nil => simp [chars_less]
    | cons y ys =>
      unfold chars_less at hab ⊢
      by_cases h1 : x.toNat < y.toNat
      · simp [h1] at hab
      · simp only [h1, if_false] at hab
        by_cases h2 : y.toNat < x.toNat
        · simp [h2]
        · simp only [h2, if_false] at hab ⊢
          have hxy : x = y := char_eq_of_toNat_eq x y (by omega)
          subst hxy
          have hne2 : xs ≠ ys := fun h => hne (by rw [h])
          simp only [lt_irrefl, if_false]
          exact ih ys hab hne2

theorem string_less_irrefl (a : String) : string_less a a = false :=
  chars_less_irrefl a.toList

theorem string_less_trans (a b c : String) (hab : string_less a b = true)
    (hbc : string_less b c = true) : string_less a c = true :=
  chars_less_trans a.toList b.toList c.toList hab hbc

theorem string_less_total (a b : String) (hab : string_less a b = false) (hne : a ≠ b) :
    string_less b a = true := by
  apply chars_less_total a.toList b.toList hab
  intro h
  apply hne
  cases a
  cases b
  simp only [String.toList] at h
  rw [h]

theorem string_less_ne (a b : String) (h : string_less a b = true) : a ≠ b := by
  intro hab
  subst hab
  rw [string_less_irrefl] at h
  cases h

theorem keys_sorted_nodup {V : Type} (m : List (String × V)) (h : keys_sorted m) :
    (m.map Prod.fst).Nodup :=
  List.Pairwise.imp (fun hab => string_less_ne _ _ hab) h

theorem map_assign_keys {V : Type} (m : List (String × V)) (k : String) (v : V) :
    ∀ x ∈ (map_assign m k v).map Prod.fst, x = k ∨ x ∈ m.map Prod.fst := by
  induction m with
  | nil => intro x hx; simp [map_assign] at hx; exact Or.inl hx
  | cons e t ih =>
    obtain ⟨k0, v0⟩ := e
    intro x hx
    unfold map_assign at hx
    split_ifs at hx with h1 h2
    · simp only [List.map_cons, List.mem_cons] at hx ⊢
      rcases hx with hx | hx
      · exact Or.inl hx
      · exact Or.inr (Or.inr hx)
    · simp only [List.map_cons, List.mem_cons] at hx ⊢
      exact hx
    · simp only [List.map_cons, List.mem_cons] at hx ⊢
      rcases hx with hx | hx
      · exact Or.inr (Or.inl hx)
      · rcases ih x hx with h | h
        · exact Or.inl h
        · exact Or.inr (Or.inr h)

theorem keys_sorted_map_assign {V : Type} (m : List (String × V)) (k : String) (v : V)
    (h : keys_sorted m) : keys_sorted (map_assign m k v) := by
  induction m with
  | nil => simp [map_assign, keys_sorted]
  | cons e t ih =>
    obtain ⟨k0, v0⟩ := e
    unfold keys_sorted at h ih ⊢
    simp only [List.map_cons, List.pairwise_cons] at h
    unfold map_assign
    split_ifs with h1 h2
    · subst h1
      simp only [List.map_cons, List.pairwise_cons]
      exact h
    · simp only [List.map_cons, List.pairwise_cons, List.mem_cons]
      refine ⟨?_, h⟩
      intro x hx
      rcases hx with hx | hx
      · rw [hx]; exact h2
      · exact string_less_trans k k0 x h2 (h.1 x hx)
    · simp only [List.map_cons, List.pairwise_cons]
      refine ⟨?_, ih h.2⟩
      intro x hx
      rcases map_assign_keys t k v x hx with hx | hx
      · rw [hx]
        exact string_less_total k k0 (by simpa using h2) h1
      · exact h.1 x hx

theorem map_modify_keys {V : Type} (m : List (String × V)) (k : String) (f : V → V) :
    (map_modify m k f).map Prod.fst = m.map Prod.fst := by
  induction m with
  | nil => rfl
  | cons e t ih =>
    obtain ⟨k0, v0⟩ := e
    unfold map_modify
    split_ifs
    · rfl
    · simp [ih]

theorem keys_sorted_map_modify {V : Type} (m : List (String × V)) (k : String) (f : V → V)
    (h : keys_sorted m) : keys_sorted (map_modify m k f) := by
  unfold keys_sorted at *
  rw [map_modify_keys]
  exact h

theorem keys_sorted_filter {V : Type} (m : List (String × V)) (p : String × V → Bool)
    (h : keys_sorted m) : keys_sorted (m.filter p) := by
  unfold keys_sorted at *
  exact List.Pairwise.sublist (List.Sublist.map Prod.fst (List.filter_sublist m)) h

/-! ## Lemmas on the service -/

theorem enque_to_handle_absent (s : service_t) (message : message_iface)
    (h : map_find s.m_handles message.path.handle_name = none) :
    s.enque_to_handle message = (false, s) := by
  simp [service_t.enque_to_handle, h]

theorem enque_to_handle_present (s : service_t) (message : message_iface) (handle : handle_t)
    (h : map_find s.m_handles message.path.handle_name = some handle) :
    s.enque_to_handle message =
      (true, { s with m_handles := (map_modify s.m_handles message.path.handle_name
        (fun handle => handle.enqueue_message message)) }) := by
  simp [service_t.enque_to_handle, h]

theorem enque_to_unhandled_handles (s : service_t) (message : message_iface) :
    (s.enque_to_unhandled message).m_handles = s.m_handles := by
  unfold service_t.enque_to_unhandled
  simp only []
  split <;> rfl

theorem enque_to_unhandled_responses (s : service_t) (message : message_iface) :
    (s.enque_to_unhandled message).m_responses = s.m_responses := by
  unfold service_t.enque_to_unhandled
  simp only []
  split <;> rfl

theorem enque_to_unhandled_find_same (s : service_t) (message : message_iface) :
    map_find (s.enque_to_unhandled message).m_unhandled_messages message.path.handle_name =
      some (s.unhandled_queue message.path.handle_name ++ [message]) := by
  unfold service_t.enque_to_unhandled service_t.unhandled_queue
  simp only []
  split
  · next h => simp [map_find_assign_same, h]
  · next q h => simp [map_find_modify_same, h]

theorem enque_to_unhandled_find_other (s : service_t) (message : message_iface) (name : String)
    (hn : name ≠ message.path.handle_name) :
    map_find (s.enque_to_unhandled message).m_unhandled_messages name =
      map_find s.m_unhandled_messages name := by
  unfold service_t.enque_to_unhandled
  simp only []
  split
  · simp [map_find_assign_other _ _ _ _ hn]
  · simp [map_find_modify_other _ _ _ _ hn]

theorem send_message_absent (s : service_t) (message : message_iface)
    (h : map_find s.m_handles message.path.handle_name = none) :
    s.send_message message =
      (response_impl_t.new message.uuid message.path,
        service_t.enque_to_unhandled
          { s with m_responses := (map_assign s.m_responses message.uuid
            { obj := response_impl_t.new message.uuid message.path, use_count := 2 }) }
          message) := by
  unfold service_t.send_message
  simp only []
  rw [enque_to_handle_absent _ message (by simpa using h)]
  simp

theorem send_message_present (s : service_t) (message : message_iface) (handle : handle_t)
    (h : map_find s.m_handles message.path.handle_name = some handle) :
    s.send_message message =
      (response_impl_t.new message.uuid message.path,
        { s with
          m_responses := (map_assign s.m_responses message.uuid
            { obj := response_impl_t.new message.uuid message.path, use_count := 2 })
          m_handles := (map_modify s.m_handles message.path.handle_name
            (fun handle => handle.enqueue_message message)) }) := by
  unfold service_t.send_message
  simp only []
  rw [enque_to_handle_present _ message handle (by simpa using h)]
  simp

theorem send_message_responses (s : service_t) (message : message_iface) :
    (s.send_message message).2.m_responses =
      map_assign s.m_responses message.uuid
        { obj := response_impl_t.new message.uuid message.path, use_count := 2 } := by
  cases h : map_find s.m_handles message.path.handle_name with
  | none => rw [send_message_absent s message h, enque_to_unhandled_responses]
  | some handle => rw [send_message_present s message handle h]

theorem get_and_remove_unhandled_queue_fst (s : service_t) (name : String) :
    (s.get_and_remove_unhandled_queue name).1 = s.unhandled_queue name := by
  unfold service_t.get_and_remove_unhandled_queue service_t.unhandled_queue
  cases map_find s.m_unhandled_messages name <;> rfl

theorem get_and_remove_unhandled_queue_handles (s : service_t) (name : String) :
    (s.get_and_remove_unhandled_queue name).2.m_handles = s.m_handles := by
  unfold service_t.get_and_remove_unhandled_queue
  cases map_find s.m_unhandled_messages name <;> rfl

theorem get_and_remove_unhandled_queue_find_same (s : service_t) (name : String) :
    map_find (s.get_and_remove_unhandled_queue name).2.m_unhandled_messages name = none := by
  unfold service_t.get_and_remove_unhandled_queue
  cases h : map_find s.m_unhandled_messages name with
  | none => exact h
  | some q => exact map_find_erase_same _ _

theorem get_and_remove_unhandled_queue_find_other (s : service_t) (name other : String)
    (hn : other ≠ name) :
    map_find (s.get_and_remove_unhandled_queue name).2.m_unhandled_messages other =
      map_find s.m_unhandled_messages other := by
  unfold service_t.get_and_remove_unhandled_queue
  cases h : map_find s.m_unhandled_messages name with
  | none => rfl
  | some q => exact map_find_erase_other _ _ _ hn

theorem create_handle_find_same (s : service_t) (info : handle_info_t)
    (endpoints : List cocaine_endpoint_t) :
    map_find (s.create_handle info endpoints).m_handles info.name =
      some { m_info := info, m_endpoints := endpoints, m_is_running := true,
             m_message_cache := { m_messages := s.unhandled_queue info.name } } := by
  unfold service_t.create_handle
  simp only []
  rw [map_find_assign_same, get_and_remove_unhandled_queue_fst]
  cases h : s.unhandled_queue info.name <;>
    simp [handle_t.new, handle_t.assign_message_queue]

theorem create_handle_find_other (s : service_t) (info : handle_info_t)
    (endpoints : List cocaine_endpoint_t) (other : String) (hn : other ≠ info.name) :
    map_find (s.create_handle info endpoints).m_handles other = map_find s.m_handles other := by
  unfold service_t.create_handle
  simp only []
  rw [map_find_assign_other _ _ _ _ hn, get_and_remove_unhandled_queue_handles]

theorem create_handle_unhandled (s : service_t) (info : handle_info_t)
    (endpoints : List cocaine_endpoint_t) :
    (s.create_handle info endpoints).m_unhandled_messages =
      (s.get_and_remove_unhandled_queue info.name).2.m_unhandled_messages := rfl

theorem clear_metadata_idem (m : message_iface) :
    clear_metadata (clear_metadata m) = clear_metadata m := rfl

theorem clear_metadata_flags (m : message_iface) :
    (clear_metadata m).m_is_sent = false ∧ (clear_metadata m).m_ack_received = false :=
  ⟨rfl, rfl⟩

theorem clear_metadata_of_clear (m : message_iface) (h1 : m.m_is_sent = false)
    (h2 : m.m_ack_received = false) : clear_metadata m = m := by
  cases m
  simp_all [clear_metadata, message_iface.mark_as_sent, message_iface.set_ack_received]

theorem map_clear_metadata_of_clear (q : cached_messages_deque_t)
    (h : ∀ m ∈ q, m.m_is_sent = false ∧ m.m_ack_received = false) :
    q.map clear_metadata = q := by
  induction q with
  | nil => rfl
  | cons m t ih =>
    have hm := h m (List.mem_cons_self _ _)
    rw [List.map_cons, clear_metadata_of_clear m hm.1 hm.2,
      ih (fun x hx => h x (List.mem_cons_of_mem _ hx))]

/-- After `make_all_messages_new`, `new_messages` is the whole cache with
both flags cleared. -/
theorem new_messages_make_all_messages_new (c : message_cache_t) :
    c.make_all_messages_new.new_messages = c.m_messages.map clear_metadata := by
  unfold message_cache_t.new_messages message_cache_t.make_all_messages_new
  simp only []
  have hf : ∀ q : cached_messages_deque_t,
      (q.map clear_metadata).filter (fun m => !m.m_is_sent) = q.map clear_metadata := by
    intro q
    rw [List.filter_eq_self]
    intro m hm
    obtain ⟨m0, _, rfl⟩ := List.mem_map.mp hm
    rfl
  exact hf c.m_messages

theorem append_to_unhandled_handles (s : service_t) (name : String)
    (handle_queue : cached_messages_deque_t) :
    (s.append_to_unhandled name handle_queue).m_handles = s.m_handles := by
  unfold service_t.append_to_unhandled
  split_ifs <;> rfl

theorem append_to_unhandled_responses (s : service_t) (name : String)
    (handle_queue : cached_messages_deque_t) :
    (s.append_to_unhandled name handle_queue).m_responses = s.m_responses := by
  unfold service_t.append_to_unhandled
  split_ifs <;> rfl

theorem append_to_unhandled_empty (s : service_t) (name : String) :
    s.append_to_unhandled name [] = s := by
  simp [service_t.append_to_unhandled]

theorem append_to_unhandled_find_same (s : service_t) (name : String)
    (handle_queue : cached_messages_deque_t) (hq : handle_queue ≠ []) :
    map_find (s.append_to_unhandled name handle_queue).m_unhandled_messages name =
      some ((s.unhandled_queue name ++ handle_queue).map clear_metadata) := by
  have he : handle_queue.isEmpty = false := by
    cases handle_queue with
    | nil => exact absurd rfl hq
    | cons a t => rfl
  unfold service_t.append_to_unhandled service_t.unhandled_queue
  simp only [he, Bool.false_eq_true, if_false]
  rw [map_find_modify_same]
  cases h : map_find s.m_unhandled_messages name with
  | none => simp [map_find_assign_same]
  | some q => simp [h]

theorem append_to_unhandled_find_other (s : service_t) (name other : String)
    (handle_queue : cached_messages_deque_t) (hn : other ≠ name) :
    map_find (s.append_to_unhandled name handle_queue).m_unhandled_messages other =
      map_find s.m_unhandled_messages other := by
  unfold service_t.append_to_unhandled
  split_ifs
  · rfl
  · simp only []
    rw [map_find_modify_other _ _ _ _ hn]
    cases h : map_find s.m_unhandled_messages name with
    | none => simp [map_find_assign_other _ _ _ _ hn]
    | some q => simp

theorem destroy_handle_absent (s : service_t) (info : handle_info_t)
    (h : map_find s.m_handles info.name = none) : s.destroy_handle info = s := by
  simp [service_t.destroy_handle, h]

theorem destroy_handle_present (s : service_t) (info : handle_info_t) (handle : handle_t)
    (h : map_find s.m_handles info.name = some handle) :
    s.destroy_handle info =
      { s.append_to_unhandled info.name (handle.m_message_cache.m_messages.map clear_metadata) with
        m_handles := map_erase s.m_handles info.name } := by
  unfold service_t.destroy_handle
  simp only [h]
  rw [append_to_unhandled_handles]
  have : (handle.kill.messages_cache.make_all_messages_new).new_messages =
      handle.m_message_cache.m_messages.map clear_metadata :=
    new_messages_make_all_messages_new _
  rw [this]

theorem enqueue_responce_handles (ext : externals) (s : service_t)
    (response : response_chunk_t) (now : Nat) :
    (s.enqueue_responce ext response now).m_handles = s.m_handles := by
  unfold service_t.enqueue_responce
  simp only []
  split <;> split_ifs <;> rfl

theorem enqueue_responce_unhandled (ext : externals) (s : service_t)
    (response : response_chunk_t) (now : Nat) :
    (s.enqueue_responce ext response now).m_unhandled_messages = s.m_unhandled_messages := by
  unfold service_t.enqueue_responce
  simp only []
  split <;> split_ifs <;> rfl

theorem foldl_enqueue_responce_handles (ext : externals) (now : Nat)
    (expired : cached_messages_deque_t) :
    ∀ s : service_t,
      (expired.foldl (fun acc m => acc.enqueue_responce ext (deadline_chunk ext m) now)
        s).m_handles = s.m_handles := by
  induction expired with
  | nil => intro s; rfl
  | cons m t ih => intro s; rw [List.foldl_cons, ih, enqueue_responce_handles]

theorem sweep_queues_handles (ext : externals) (now : Nat)
    (queues : List (String × cached_messages_deque_t)) :
    ∀ s : service_t, (sweep_queues ext now queues s).2.m_handles = s.m_handles := by
  induction queues with
  | nil => intro s; rfl
  | cons e t ih =>
    intro s
    obtain ⟨name, queue⟩ := e
    unfold sweep_queues
    simp only []
    split_ifs
    · exact ih s
    · rw [ih, foldl_enqueue_responce_handles]

theorem sweep_queues_find_isSome (ext : externals) (now : Nat)
    (queues : List (String × cached_messages_deque_t)) (name : String) :
    ∀ s : service_t, (map_find (sweep_queues ext now queues s).1 name).isSome =
      (map_find queues name).isSome := by
  induction queues with
  | nil => intro s; rfl
  | cons e t ih =>
    intro s
    obtain ⟨k, queue⟩ := e
    unfold sweep_queues
    simp only []
    split_ifs with h1
    · unfold map_find
      split_ifs
      · rfl
      · exact ih s
    · unfold map_find
      split_ifs
      · rfl
      · exact ih _

theorem no_overlap_send_message (s : service_t) (message : message_iface)
    (h : s.no_overlap) : (s.send_message message).2.no_overlap := by
  intro name hs
  cases hf : map_find s.m_handles message.path.handle_name with
  | none =>
    rw [send_message_absent s message hf] at hs ⊢
    rw [enque_to_unhandled_handles] at hs
    have hne : name ≠ message.path.handle_name := by
      intro heq
      rw [heq] at hs
      simp only [] at hs
      rw [hf] at hs
      cases hs
    rw [enque_to_unhandled_find_other _ _ _ hne]
    exact h name hs
  | some handle =>
    rw [send_message_present s message handle hf] at hs ⊢
    simp only [] at hs ⊢
    rw [map_find_modify_isSome] at hs
    exact h name hs

theorem no_overlap_create_handle (s : service_t) (info : handle_info_t)
    (endpoints : List cocaine_endpoint_t) (h : s.no_overlap) :
    (s.create_handle info endpoints).no_overlap := by
  intro name hs
  rw [create_handle_unhandled]
  by_cases hn : name = info.name
  · rw [hn]; exact get_and_remove_unhandled_queue_find_same s info.name
  · rw [get_and_remove_unhandled_queue_find_other _ _ _ hn]
    rw [create_handle_find_other _ _ _ _ hn] at hs
    exact h name hs

theorem no_overlap_update_handle (s : service_t) (info : handle_info_t)
    (endpoints : List cocaine_endpoint_t) (h : s.no_overlap) :
    (s.update_handle info endpoints).no_overlap := by
  intro name hs
  unfold service_t.update_handle at hs ⊢
  cases hf : map_find s.m_handles info.name with
  | none => rw [hf] at hs; exact h name hs
  | some handle =>
    rw [hf] at hs
    simp only [] at hs ⊢
    rw [map_find_modify_isSome] at hs
    exact h name hs

theorem no_overlap_destroy_handle (s : service_t) (info : handle_info_t) (h : s.no_overlap) :
    (s.destroy_handle info).no_overlap := by
  intro name hs
  cases hf : map_find s.m_handles info.name with
  | none => rw [destroy_handle_absent s info hf] at hs ⊢; exact h name hs
  | some handle =>
    rw [destroy_handle_present s info handle hf] at hs ⊢
    simp only [] at hs ⊢
    have hne : name ≠ info.name := by
      intro heq
      rw [heq, map_find_erase_same] at hs
      cases hs
    rw [map_find_erase_other _ _ _ hne] at hs
    rw [append_to_unhandled_find_other _ _ _ _ hne]
    exact h name hs

theorem no_overlap_check_for_deadlined_messages (ext : externals) (s : service_t) (now : Nat)
    (h : s.no_overlap) : (s.check_for_deadlined_messages ext now).no_overlap := by
  intro name hs
  unfold service_t.check_for_deadlined_messages at hs ⊢
  simp only [] at hs ⊢
  rw [sweep_queues_handles] at hs
  have h1 := h name hs
  have h2 := sweep_queues_find_isSome ext now s.m_unhandled_messages name s
  rw [h1] at h2
  cases h3 : map_find (sweep_queues ext now s.m_unhandled_messages s).1 name with
  | none => rfl
  | some q => rw [h3] at h2; cases h2

/-- In every reachable state no handle name is a key of both the handle map
and the unhandled store. -/
theorem reachable_no_overlap (ext : externals) (s : service_t)
    (h : service_t.Reachable ext s) : s.no_overlap := by
  induction h with
  | init info now => intro name hs; cases hs
  | send_message message _ ih => exact no_overlap_send_message _ message ih
  | enqueue_responce response now _ ih =>
    intro name hs
    rw [enqueue_responce_handles] at hs
    rw [enqueue_responce_unhandled]
    exact ih name hs
  | create_handle info endpoints _ ih => exact no_overlap_create_handle _ info endpoints ih
  | update_handle info endpoints _ ih => exact no_overlap_update_handle _ info endpoints ih
  | destroy_handle info _ ih => exact no_overlap_destroy_handle _ info ih
  | check_for_deadlined_messages now _ ih =>
    exact no_overlap_check_for_deadlined_messages ext _ now ih
  | consumer_get uuid timeout arrivals _ ih => exact ih
  | consumer_release uuid _ ih => exact ih
  | transport_step handle_name messages _ ih =>
    intro name hs
    unfold service_t.transport_step at hs ⊢
    simp only [] at hs ⊢
    rw [map_find_modify_isSome] at hs
    exact ih name hs

theorem map_find_none_of_not_mem {V : Type} (m : List (String × V)) (k : String)
    (h : k ∉ m.map Prod.fst) : map_find m k = none := by
  induction m with
  | nil => rfl
  | cons e t ih =>
    obtain ⟨k0, v0⟩ := e
    simp only [List.map_cons, List.mem_cons, not_or] at h
    unfold map_find
    rw [if_neg h.1]
    exact ih h.2

theorem map_find_remove_unique_none (m : List (String × response_ptr)) (k : String)
    (h : map_find m k = none) : map_find (remove_unique m) k = none := by
  induction m with
  | nil => rfl
  | cons e t ih =>
    obtain ⟨k0, v0⟩ := e
    unfold map_find at h
    split_ifs at h with h1
    unfold remove_unique at *
    rw [List.filter_cons]
    split_ifs
    · unfold map_find
      rw [if_neg h1]
      exact ih h
    · exact ih h

theorem map_find_remove_unique_keep (m : List (String × response_ptr)) (k : String)
    (p : response_ptr) (h : map_find m k = some p) (hu : p.unique = false) :
    map_find (remove_unique m) k = some p := by
  induction m with
  | nil => cases h
  | cons e t ih =>
    obtain ⟨k0, v0⟩ := e
    unfold map_find at h
    unfold remove_unique at *
    rw [List.filter_cons]
    split_ifs at h with h1
    · cases h
      simp [hu, map_find, h1]
    · split_ifs
      · unfold map_find
        rw [if_neg h1]
        exact ih h
      · exact ih h

theorem map_find_remove_unique_drop (m : List (String × response_ptr)) (k : String)
    (p : response_ptr) (h : map_find m k = some p) (hu : p.unique = true)
    (hkeys : (m.map Prod.fst).Nodup) : map_find (remove_unique m) k = none := by
  induction m with
  | nil => cases h
  | cons e t ih =>
    obtain ⟨k0, v0⟩ := e
    simp only [List.map_cons, List.nodup_cons] at hkeys
    unfold map_find at h
    split_ifs at h with h1
    · cases h
      subst h1
      have ht : map_find t k = none := map_find_none_of_not_mem t k hkeys.1
      have := map_find_remove_unique_none t k ht
      unfold remove_unique at *
      rw [List.filter_cons]
      simp [hu, this]
    · have := ih h hkeys.2
      unfold remove_unique at *
      rw [List.filter_cons]
      split_ifs
      · unfold map_find
        rw [if_neg h1]
        exact this
      · exact this

theorem remove_unique_subset (m : List (String × response_ptr)) :
    ∀ e ∈ remove_unique m, e ∈ m := by
  intro e he
  exact (List.mem_filter.mp he).1

theorem send_messages_nil (s : service_t) : s.send_messages [] = s := rfl

theorem send_messages_cons (s : service_t) (m : message_iface) (ms : List message_iface) :
    s.send_messages (m :: ms) = (s.send_message m).2.send_messages ms := rfl

/-- Submissions for a name without a handle leave the handle map alone and
append to the unhandled queue of that name, in order. -/
theorem send_messages_absent (name : String) (messages : List message_iface)
    (hfor : ∀ m ∈ messages, m.path.handle_name = name) :
    ∀ s : service_t, map_find s.m_handles name = none →
      (s.send_messages messages).m_handles = s.m_handles ∧
      (s.send_messages messages).unhandled_queue name = s.unhandled_queue name ++ messages ∧
      ∀ other : String, other ≠ name →
        map_find (s.send_messages messages).m_unhandled_messages other =
          map_find s.m_unhandled_messages other := by
  induction messages with
  | nil => intro s _; simp [send_messages_nil]
  | cons m ms ih =>
    intro s hs
    have hm : m.path.handle_name = name := hfor m (List.mem_cons_self _ _)
    have hms : ∀ x ∈ ms, x.path.handle_name = name :=
      fun x hx => hfor x (List.mem_cons_of_mem _ hx)
    have habs : map_find s.m_handles m.path.handle_name = none := by rw [hm]; exact hs
    have hstep := send_message_absent s m habs
    have hh : (s.send_message m).2.m_handles = s.m_handles := by
      rw [hstep]; exact enque_to_unhandled_handles _ m
    have hq : (s.send_message m).2.unhandled_queue name = s.unhandled_queue name ++ [m] := by
      rw [hstep]
      unfold service_t.unhandled_queue
      rw [← hm, enque_to_unhandled_find_same]
      rfl
    have ho : ∀ other : String, other ≠ name →
        map_find (s.send_message m).2.m_unhandled_messages other =
          map_find s.m_unhandled_messages other := by
      intro other hne
      rw [hstep]
      exact enque_to_unhandled_find_other _ m other (by rw [hm]; exact hne)
    obtain ⟨i1, i2, i3⟩ := ih hms (s.send_message m).2 (by rw [hh]; exact hs)
    rw [send_messages_cons]
    refine ⟨by rw [i1, hh], by rw [i2, hq]; simp, ?_⟩
    intro other hne
    rw [i3 other hne, ho other hne]

/-- The unhandled queue of a destroyed handle's name. -/
theorem destroy_handle_unhandled_queue (s : service_t) (info : handle_info_t)
    (handle : handle_t) (hfind : map_find s.m_handles info.name = some handle) :
    (s.destroy_handle info).unhandled_queue info.name =
      (if handle.m_message_cache.m_messages = [] then s.unhandled_queue info.name
       else (s.unhandled_queue info.name ++ handle.m_message_cache.m_messages).map
         clear_metadata) := by
  rw [destroy_handle_present s info handle hfind]
  unfold service_t.unhandled_queue
  simp only []
  split_ifs with he
  · rw [he]
    simp [append_to_unhandled_empty]
  · have hne : handle.m_message_cache.m_messages.map clear_metadata ≠ [] := by
      simpa using he
    rw [append_to_unhandled_find_same s info.name _ hne]
    unfold service_t.unhandled_queue
    simp [List.map_append, List.map_map, Function.comp_def, clear_metadata_idem]

/-- The registry after `enqueue_responce`, by the lookup in the pruned
registry. -/
theorem enqueue_responce_responses (ext : externals) (s : service_t)
    (response : response_chunk_t) (now : Nat) :
    (s.enqueue_responce ext response now).m_responses =
      (match map_find (s.pruned_responses now) response.uuid with
        | none => s.pruned_responses now
        | some p =>
          if p.unique = true then s.pruned_responses now
          else map_modify (s.pruned_responses now) response.uuid
            (fun q => { q with obj := response_t.add_chunk ext q.obj response })) := by
  unfold service_t.enqueue_responce service_t.pruned_responses
  by_cases hc : now - s.m_responces_cleanup_timer > 1000
  · simp only [hc, if_true]
    cases map_find (remove_unique s.m_responses) response.uuid with
    | none => rfl
    | some p => simp only []; split_ifs <;> rfl
  · simp only [hc, if_false]
    cases map_find s.m_responses response.uuid with
    | none => rfl
    | some p => simp only []; split_ifs <;> rfl

theorem pruned_responses_sorted (s : service_t) (now : Nat) (h : keys_sorted s.m_responses) :
    keys_sorted (s.pruned_responses now) := by
  unfold service_t.pruned_responses
  split_ifs
  · exact keys_sorted_filter _ _ h
  · exact h

theorem enqueue_responce_responses_sorted (ext : externals) (s : service_t)
    (response : response_chunk_t) (now : Nat) (h : keys_sorted s.m_responses) :
    keys_sorted (s.enqueue_responce ext response now).m_responses := by
  have hp := pruned_responses_sorted s now h
  rw [enqueue_responce_responses]
  cases map_find (s.pruned_responses now) response.uuid with
  | none => exact hp
  | some p =>
    simp only []
    split_ifs
    · exact hp
    · exact keys_sorted_map_modify _ _ _ hp

theorem foldl_enqueue_responce_unhandled (ext : externals) (now : Nat)
    (expired : cached_messages_deque_t) :
    ∀ s : service_t,
      (expired.foldl (fun acc m => acc.enqueue_responce ext (deadline_chunk ext m) now)
        s).m_unhandled_messages = s.m_unhandled_messages := by
  induction expired with
  | nil => intro s; rfl
  | cons m t ih => intro s; rw [List.foldl_cons, ih, enqueue_responce_unhandled]

theorem foldl_enqueue_responce_responses_sorted (ext : externals) (now : Nat)
    (expired : cached_messages_deque_t) :
    ∀ s : service_t, keys_sorted s.m_responses →
      keys_sorted (expired.foldl
        (fun acc m => acc.enqueue_responce ext (deadline_chunk ext m) now) s).m_responses := by
  induction expired with
  | nil => intro s h; exact h
  | cons m t ih =>
    intro s h
    rw [List.foldl_cons]
    exact ih _ (enqueue_responce_responses_sorted ext s _ now h)

theorem sweep_queues_keys (ext : externals) (now : Nat)
    (queues : List (String × cached_messages_deque_t)) :
    ∀ s : service_t, (sweep_queues ext now queues s).1.map Prod.fst = queues.map Prod.fst := by
  induction queues with
  | nil => intro s; rfl
  | cons e t ih =>
    intro s
    obtain ⟨name, queue⟩ := e
    unfold sweep_queues
    simp only []
    split_ifs
    · simp [ih]
    · simp [ih]

theorem sweep_queues_responses_sorted (ext : externals) (now : Nat)
    (queues : List (String × cached_messages_deque_t)) :
    ∀ s : service_t, keys_sorted s.m_responses →
      keys_sorted (sweep_queues ext now queues s).2.m_responses := by
  induction queues with
  | nil => intro s h; exact h
  | cons e t ih =>
    intro s h
    obtain ⟨name, queue⟩ := e
    unfold sweep_queues
    simp only []
    split_ifs
    · exact ih s h
    · exact ih _ (foldl_enqueue_responce_responses_sorted ext now _ s h)

theorem maps_sorted_send_message (s : service_t) (message : message_iface)
    (h : s.maps_sorted) : (s.send_message message).2.maps_sorted := by
  obtain ⟨h1, h2, h3⟩ := h
  have hr := keys_sorted_map_assign s.m_responses message.uuid
    { obj := response_impl_t.new message.uuid message.path, use_count := 2 } h3
  cases hf : map_find s.m_handles message.path.handle_name with
  | none =>
    rw [send_message_absent s message hf]
    refine ⟨?_, ?_, ?_⟩
    · rw [enque_to_unhandled_handles]; exact h1
    · unfold service_t.enque_to_unhandled
      simp only []
      split
      · exact keys_sorted_map_assign _ _ _ h2
      · exact keys_sorted_map_modify _ _ _ h2
    · rw [enque_to_unhandled_responses]; exact hr
  | some handle =>
    rw [send_message_present s message handle hf]
    exact ⟨keys_sorted_map_modify _ _ _ h1, h2, hr⟩

theorem maps_sorted_enqueue_responce (ext : externals) (s : service_t)
    (response : response_chunk_t) (now : Nat) (h : s.maps_sorted) :
    (s.enqueue_responce ext response now).maps_sorted := by
  obtain ⟨h1, h2, h3⟩ := h
  refine ⟨?_, ?_, enqueue_responce_responses_sorted ext s response now h3⟩
  · rw [enqueue_responce_handles]; exact h1
  · rw [enqueue_responce_unhandled]; exact h2

theorem get_and_remove_unhandled_queue_responses (s : service_t) (name : String) :
    (s.get_and_remove_unhandled_queue name).2.m_responses = s.m_responses := by
  unfold service_t.get_and_remove_unhandled_queue
  cases map_find s.m_unhandled_messages name <;> rfl

theorem maps_sorted_create_handle (s : service_t) (info : handle_info_t)
    (endpoints : List cocaine_endpoint_t) (h : s.maps_sorted) :
    (s.create_handle info endpoints).maps_sorted := by
  obtain ⟨h1, h2, h3⟩ := h
  refine ⟨?_, ?_, ?_⟩
  · unfold service_t.create_handle
    simp only []
    apply keys_sorted_map_assign
    rw [get_and_remove_unhandled_queue_handles]
    exact h1
  · rw [create_handle_unhandled]
    unfold service_t.get_and_remove_unhandled_queue
    cases map_find s.m_unhandled_messages info.name with
    | none => exact h2
    | some q => exact keys_sorted_filter _ _ h2
  · unfold service_t.create_handle
    simp only []
    rw [get_and_remove_unhandled_queue_responses]
    exact h3

theorem maps_sorted_update_handle (s : service_t) (info : handle_info_t)
    (endpoints : List cocaine_endpoint_t) (h : s.maps_sorted) :
    (s.update_handle info endpoints).maps_sorted := by
  obtain ⟨h1, h2, h3⟩ := h
  unfold service_t.update_handle
  cases map_find s.m_handles info.name with
  | none => exact ⟨h1, h2, h3⟩
  | some handle => exact ⟨keys_sorted_map_modify _ _ _ h1, h2, h3⟩

theorem append_to_unhandled_sorted (s : service_t) (name : String)
    (handle_queue : cached_messages_deque_t) (h : keys_sorted s.m_unhandled_messages) :
    keys_sorted (s.append_to_unhandled name handle_queue).m_unhandled_messages := by
  unfold service_t.append_to_unhandled
  split_ifs
  · exact h
  · simp only []
    apply keys_sorted_map_modify
    cases map_find s.m_unhandled_messages name with
    | none => exact keys_sorted_map_assign _ _ _ h
    | some q => exact h

theorem maps_sorted_destroy_handle (s : service_t) (info : handle_info_t)
    (h : s.maps_sorted) : (s.destroy_handle info).maps_sorted := by
  obtain ⟨h1, h2, h3⟩ := h
  cases hf : map_find s.m_handles info.name with
  | none => rw [destroy_handle_absent s info hf]; exact ⟨h1, h2, h3⟩
  | some handle =>
    rw [destroy_handle_present s info handle hf]
    refine ⟨keys_sorted_filter _ _ h1, append_to_unhandled_sorted s _ _ h2, ?_⟩
    simp only []
    rw [append_to_unhandled_responses]
    exact h3

theorem maps_sorted_check_for_deadlined_messages (ext : externals) (s : service_t)
    (now : Nat) (h : s.maps_sorted) : (s.check_for_deadlined_messages ext now).maps_sorted := by
  obtain ⟨h1, h2, h3⟩ := h
  unfold service_t.check_for_deadlined_messages
  refine ⟨?_, ?_, ?_⟩
  · simp only []
    rw [sweep_queues_handles]
    exact h1
  · simp only []
    unfold keys_sorted at h2 ⊢
    rw [sweep_queues_keys]
    exact h2
  · simp only []
    exact sweep_queues_responses_sorted ext now _ s h3

/-- In every reachable state the three maps have their keys in strictly
increasing order, hence without repetition. -/
theorem reachable_maps_sorted (ext : externals) (s : service_t)
    (h : service_t.Reachable ext s) : s.maps_sorted := by
  induction h with
  | init info now =>
    exact ⟨List.Pairwise.nil, List.Pairwise.nil, List.Pairwise.nil⟩
  | send_message message _ ih => exact maps_sorted_send_message _ message ih
  | enqueue_responce response now _ ih => exact maps_sorted_enqueue_responce ext _ response now ih
  | create_handle info endpoints _ ih => exact maps_sorted_create_handle _ info endpoints ih
  | update_handle info endpoints _ ih => exact maps_sorted_update_handle _ info endpoints ih
  | destroy_handle info _ ih => exact maps_sorted_destroy_handle _ info ih
  | check_for_deadlined_messages now _ ih =>
    exact maps_sorted_check_for_deadlined_messages ext _ now ih
  | consumer_get uuid timeout arrivals _ ih =>
    exact ⟨ih.1, ih.2.1, keys_sorted_map_modify _ _ _ ih.2.2⟩
  | consumer_release uuid _ ih =>
    exact ⟨ih.1, ih.2.1, keys_sorted_map_modify _ _ _ ih.2.2⟩
  | transport_step handle_name messages _ ih =>
    exact ⟨keys_sorted_map_modify _ _ _ ih.1, ih.2.1, ih.2.2⟩

theorem reachable_responses_nodup (ext : externals) (s : service_t)
    (h : service_t.Reachable ext s) : (s.m_responses.map Prod.fst).Nodup :=
  keys_sorted_nodup _ (reachable_maps_sorted ext s h).2.2

/-! ## Lemmas on the receiver -/

theorem double.lt_zero_of_ge_zero (x : double) (h : x.ge_zero = true) : x.lt_zero = false := by
  cases x with
  | finite mantissa exponent =>
    simp only [double.ge_zero, decide_eq_true_eq] at h
    simp only [double.lt_zero, decide_eq_false_iff_not, not_lt]
    exact h
  | pos_inf => rfl
  | neg_inf => simp [double.ge_zero] at h
  | nan => rfl

theorem double.ge_zero_of_lt_zero (x : double) (h : x.lt_zero = true) : x.ge_zero = false := by
  cases hg : x.ge_zero with
  | false => rfl
  | true => rw [double.lt_zero_of_ge_zero x hg] at h; cases h

theorem double.gt_zero_of_lt_zero (x : double) (h : x.lt_zero = true) : x.gt_zero = false := by
  cases x with
  | finite mantissa exponent =>
    simp only [double.lt_zero, decide_eq_true_eq] at h
    simp only [double.gt_zero, decide_eq_false_iff_not, not_lt]
    exact le_of_lt h
  | pos_inf => simp [double.lt_zero] at h
  | neg_inf => rfl
  | nan => rfl

theorem add_chunk_finished (rc : response_code) (r : response_impl_t)
    (data : chunk_data) (info : chunk_info) (h : r.m_message_finished = true) :
    r.add_chunk rc data info = r := by
  simp [response_impl_t.add_chunk, h]

theorem add_chunk_chunk (rc : response_code) (r : response_impl_t)
    (data : chunk_data) (info : chunk_info) (h : r.m_message_finished = false)
    (hne : rc.message_chunk ≠ rc.message_choke) (hc : info.code = rc.message_chunk) :
    r.add_chunk rc data info =
      { r with m_chunks := r.m_chunks ++ [data], m_response_finished := true } := by
  simp [response_impl_t.add_chunk, h, hc, hne]

theorem add_chunk_choke (rc : response_code) (r : response_impl_t)
    (data : chunk_data) (info : chunk_info) (h : r.m_message_finished = false)
    (hc : info.code = rc.message_choke) :
    r.add_chunk rc data info =
      { r with m_message_finished := true, m_response_finished := true } := by
  simp [response_impl_t.add_chunk, h, hc]

theorem add_chunk_error (rc : response_code) (r : response_impl_t)
    (data : chunk_data) (info : chunk_info) (h : r.m_message_finished = false)
    (h1 : info.code ≠ rc.message_choke) (h2 : info.code ≠ rc.message_chunk) :
    r.add_chunk rc data info =
      { r with m_caught_error := true, m_resp_info := info, m_message_finished := true,
               m_response_finished := true } := by
  simp [response_impl_t.add_chunk, h, h1, h2]

theorem deliver_nil (rc : response_code) (r : response_impl_t) : r.deliver rc [] = r := rfl

theorem deliver_cons (rc : response_code) (r : response_impl_t)
    (a : chunk_data × chunk_info) (as : List (chunk_data × chunk_info)) :
    r.deliver rc (a :: as) = (r.add_chunk rc a.1 a.2).deliver rc as := rfl

/-- Delivering payload chunks to a live receiver appends them in order and
keeps the receiver live. -/
theorem deliver_chunks (rc : response_code) (hne : rc.message_chunk ≠ rc.message_choke)
    (chunks : List (chunk_data × chunk_info))
    (hk : ∀ c ∈ chunks, c.2.code = rc.message_chunk) :
    ∀ r : response_impl_t, r.m_message_finished = false →
      r.deliver rc chunks =
        { r with m_chunks := r.m_chunks ++ chunks.map Prod.fst,
                 m_response_finished := r.m_response_finished || !chunks.isEmpty } := by
  induction chunks with
  | nil => intro r _; simp [deliver_nil]
  | cons a as ih =>
    intro r hr
    have ha : a.2.code = rc.message_chunk := hk a (List.mem_cons_self _ _)
    have has : ∀ c ∈ as, c.2.code = rc.message_chunk :=
      fun c hc => hk c (List.mem_cons_of_mem _ hc)
    rw [deliver_cons, add_chunk_chunk rc r a.1 a.2 hr hne ha]
    rw [ih has { r with m_chunks := r.m_chunks ++ [a.1], m_response_finished := true } hr]
    simp

theorem get_when_finished_clean (rc : response_code) (r : response_impl_t) (timeout : double)
    (arrivals : List (chunk_data × chunk_info)) (h : r.m_message_finished = true)
    (hq : r.m_chunks = []) (he : r.m_caught_error = false) :
    r.get rc timeout arrivals = (get_result.returned_false, r) := by
  simp [response_impl_t.get, h, hq, he]

theorem get_finished_chunk (rc : response_code) (r : response_impl_t) (timeout : double)
    (arrivals : List (chunk_data × chunk_info)) (d : chunk_data) (rest : List chunk_data)
    (h : r.m_message_finished = true) (hq : r.m_chunks = d :: rest) :
    r.get rc timeout arrivals = (get_result.returned_true d, { r with m_chunks := rest }) := by
  cases r
  simp_all [response_impl_t.get, response_impl_t.get_finished]

theorem get_finished_error (rc : response_code) (r : response_impl_t) (timeout : double)
    (arrivals : List (chunk_data × chunk_info)) (h : r.m_message_finished = true)
    (hq : r.m_chunks = []) (he : r.m_caught_error = true) :
    r.get rc timeout arrivals =
      (get_result.threw r.m_resp_info.code r.m_resp_info.error_msg,
        { r with m_caught_error := false }) := by
  cases r
  simp_all [response_impl_t.get, response_impl_t.get_finished]

theorem get_seq_nil (rc : response_code) (r : response_impl_t) :
    r.get_seq rc [] = ([], r) := rfl

theorem get_seq_cons (rc : response_code) (r : response_impl_t)
    (c : double × List (chunk_data × chunk_info)) (cs : List (double × List (chunk_data × chunk_info))) :
    r.get_seq rc (c :: cs) =
      ((r.get rc c.1 c.2).1 :: ((r.get rc c.1 c.2).2.get_seq rc cs).1,
        ((r.get rc c.1 c.2).2.get_seq rc cs).2) := rfl

theorem get_seq_append (rc : response_code)
    (cs ds : List (double × List (chunk_data × chunk_info))) :
    ∀ r : response_impl_t, r.get_seq rc (cs ++ ds) =
      ((r.get_seq rc cs).1 ++ ((r.get_seq rc cs).2.get_seq rc ds).1,
        ((r.get_seq rc cs).2.get_seq rc ds).2) := by
  induction cs with
  | nil => intro r; simp [get_seq_nil]
  | cons c cs ih => intro r; simp [get_seq_cons, ih]

/-- Once a receiver is terminated, drained and error-free, every `get`
returns false and changes nothing. -/
theorem get_seq_finished_clean (rc : response_code)
    (cs : List (double × List (chunk_data × chunk_info))) (r : response_impl_t)
    (h : r.m_message_finished = true) (hq : r.m_chunks = []) (he : r.m_caught_error = false) :
    r.get_seq rc cs = (List.replicate cs.length get_result.returned_false, r) := by
  induction cs with
  | nil => simp [get_seq_nil]
  | cons c cs ih =>
    rw [get_seq_cons, get_when_finished_clean rc r c.1 c.2 h hq he]
    simp [ih, List.replicate_succ]

/-- A terminated receiver hands out its buffered chunks, oldest first, one
per `get`. -/
theorem get_seq_drain (rc : response_code) :
    ∀ (ps : List chunk_data) (r : response_impl_t) (cs : List (double × List (chunk_data × chunk_info))),
      r.m_message_finished = true → r.m_chunks = ps → cs.length = ps.length →
      r.get_seq rc cs = (ps.map get_result.returned_true, { r with m_chunks := [] }) := by
  intro ps
  induction ps with
  | nil =>
    intro r cs _ hq hl
    have : cs = [] := List.length_eq_zero.mp hl
    subst this
    cases r
    simp_all [get_seq_nil]
  | cons d rest ih =>
    intro r cs h hq hl
    cases cs with
    | nil => simp at hl
    | cons c cs =>
      have hl2 : cs.length = rest.length := by simpa using hl
      rw [get_seq_cons, get_finished_chunk rc r c.1 c.2 d rest h hq]
      rw [ih { r with m_chunks := rest } cs h rfl hl2]
      simp

/-- A live receiver whose `m_response_finished` flag is set does not wait:
it hands out the oldest chunk and clears the flag. -/
theorem get_live_signalled (rc : response_code) (r : response_impl_t) (timeout : double)
    (arrivals : List (chunk_data × chunk_info)) (d : chunk_data) (rest : List chunk_data)
    (h : r.m_message_finished = false) (hs : r.m_response_finished = true)
    (hq : r.m_chunks = d :: rest) :
    r.get rc timeout arrivals =
      (get_result.returned_true d, { r with m_chunks := rest, m_response_finished := false }) := by
  cases r
  simp_all [response_impl_t.get, response_impl_t.wait, response_impl_t.get_tail]

/-- A live receiver whose `m_response_finished` flag is unset waits for a
delivery when the time-out is negative, whatever its queue holds. -/
theorem get_live_unsignalled (rc : response_code) (r : response_impl_t) (timeout : double)
    (h : r.m_message_finished = false) (hs : r.m_response_finished = false)
    (ht : timeout.lt_zero = true) :
    r.get rc timeout [] = (get_result.blocked, r) := by
  simp [response_impl_t.get, response_impl_t.wait, deliver_nil, h, hs, ht]

/-- A live receiver whose `m_response_finished` flag is unset waits for a
delivery without end when the time-out is `+infinity`. -/
theorem get_live_unsignalled_pos_inf (rc : response_code) (r : response_impl_t)
    (h : r.m_message_finished = false) (hs : r.m_response_finished = false) :
    r.get rc double.pos_inf [] = (get_result.blocked, r) := by
  simp [response_impl_t.get, response_impl_t.wait, deliver_nil, h, hs]

theorem map_find_some_mem {V : Type} (m : List (String × V)) (k : String) (v : V)
    (h : map_find m k = some v) : (k, v) ∈ m := by
  induction m with
  | nil => cases h
  | cons e t ih =>
    obtain ⟨k0, v0⟩ := e
    unfold map_find at h
    split_ifs at h with h1
    · cases h
      subst h1
      exact List.mem_cons_self _ _
    · exact List.mem_cons_of_mem _ (ih h)

theorem map_find_remove_unique_not_unique (m : List (String × response_ptr)) (k : String)
    (p : response_ptr) (h : map_find (remove_unique m) k = some p) : p.unique = false := by
  have hm := map_find_some_mem _ _ _ h
  have := (List.mem_filter.mp hm).2
  simpa using this

/-- With unique keys, the lookup in the cleaned registry is the lookup in the
registry, without the entries held by the registry alone. -/
theorem map_find_remove_unique (m : List (String × response_ptr)) (k : String)
    (hkeys : (m.map Prod.fst).Nodup) :
    map_find (remove_unique m) k = (map_find m k).filter (fun p => !p.unique) := by
  cases h : map_find m k with
  | none => rw [map_find_remove_unique_none m k h]; rfl
  | some p =>
    cases hu : p.unique with
    | true =>
      rw [map_find_remove_unique_drop m k p h hu hkeys]
      simp [Option.filter, hu]
    | false =>
      rw [map_find_remove_unique_keep m k p h hu]
      simp [Option.filter, hu]

/-- When the cleanup runs, the registry after `enqueue_responce` is the
cleaned registry with the chunk delivered through the entry of its uuid. -/
theorem enqueue_responce_responses_pruning (ext : externals) (s : service_t)
    (response : response_chunk_t) (now : Nat)
    (hprune : now - s.m_responces_cleanup_timer > 1000) :
    (s.enqueue_responce ext response now).m_responses =
      map_modify (remove_unique s.m_responses) response.uuid
        (fun q => { q with obj := response_t.add_chunk ext q.obj response }) := by
  have hp : s.pruned_responses now = remove_unique s.m_responses := by
    unfold service_t.pruned_responses
    rw [if_pos hprune]
  rw [enqueue_responce_responses, hp]
  cases h : map_find (remove_unique s.m_responses) response.uuid with
  | none => simp only []; rw [map_modify_absent _ _ _ h]
  | some p =>
    have hu := map_find_remove_unique_not_unique _ _ _ h
    simp [hu]

theorem map_modify_keys_counts (m : List (String × response_ptr)) (k : String)
    (g : response_ptr → response_ptr) (hg : ∀ q, (g q).use_count = q.use_count) :
    (map_modify m k g).map (fun e => (e.1, e.2.use_count)) =
      m.map (fun e => (e.1, e.2.use_count)) := by
  induction m with
  | nil => rfl
  | cons e t ih =>
    obtain ⟨k0, v0⟩ := e
    unfold map_modify
    split_ifs
    · simp [hg]
    · simp [ih]

theorem map_find_map_values {V : Type} (m : List (String × V)) (f : V → V) (k : String) :
    map_find (m.map (fun e => (e.1, f e.2))) k = (map_find m k).map f := by
  induction m with
  | nil => rfl
  | cons e t ih =>
    obtain ⟨k0, v0⟩ := e
    simp only [List.map_cons, map_find]
    split_ifs
    · rfl
    · exact ih

theorem filter_not_of_filter_nil (queue : cached_messages_deque_t) (p : message_iface → Bool)
    (h : queue.filter p = []) : queue.filter (fun m => !p m) = queue := by
  rw [List.filter_eq_self]
  intro m hm
  have := List.filter_eq_nil_iff.mp h m hm
  simpa using this

theorem dispatch_nil (ext : externals) (s : service_t) (now : Nat) :
    s.dispatch ext now [] = s := rfl

theorem dispatch_cons (ext : externals) (s : service_t) (now : Nat) (c : response_chunk_t)
    (cs : List response_chunk_t) :
    s.dispatch ext now (c :: cs) = (s.enqueue_responce ext c now).dispatch ext now cs := rfl

theorem dispatch_append (ext : externals) (s : service_t) (now : Nat)
    (cs ds : List response_chunk_t) :
    s.dispatch ext now (cs ++ ds) = (s.dispatch ext now cs).dispatch ext now ds := by
  unfold service_t.dispatch
  rw [List.foldl_append]

theorem dispatch_handles (ext : externals) (now : Nat) (cs : List response_chunk_t) :
    ∀ s : service_t, (s.dispatch ext now cs).m_handles = s.m_handles := by
  induction cs with
  | nil => intro s; rfl
  | cons c t ih => intro s; rw [dispatch_cons, ih, enqueue_responce_handles]

theorem dispatch_unhandled (ext : externals) (now : Nat) (cs : List response_chunk_t) :
    ∀ s : service_t, (s.dispatch ext now cs).m_unhandled_messages = s.m_unhandled_messages := by
  induction cs with
  | nil => intro s; rfl
  | cons c t ih => intro s; rw [dispatch_cons, ih, enqueue_responce_unhandled]

theorem foldl_enqueue_responce_eq_dispatch (ext : externals) (now : Nat)
    (expired : cached_messages_deque_t) (s : service_t) :
    expired.foldl (fun acc m => acc.enqueue_responce ext (deadline_chunk ext m) now) s =
      s.dispatch ext now (expired.map (deadline_chunk ext)) := by
  unfold service_t.dispatch
  rw [List.foldl_map]

/-- The queues as the sweep leaves them: every queue without its expired and
deadlined messages. -/
theorem sweep_queues_fst (ext : externals) (now : Nat)
    (queues : List (String × cached_messages_deque_t)) :
    ∀ s : service_t, (sweep_queues ext now queues s).1 =
      queues.map (fun e => (e.1, e.2.filter (fun m => !(m.is_expired now && m.is_deadlined)))) := by
  induction queues with
  | nil => intro s; rfl
  | cons e t ih =>
    intro s
    obtain ⟨name, queue⟩ := e
    unfold sweep_queues
    simp only []
    split_ifs with h
    · have hnil : queue.filter (fun m => m.is_expired now && m.is_deadlined) = [] :=
        List.isEmpty_iff.mp h
      simp only [List.map_cons]
      rw [ih s, filter_not_of_filter_nil queue _ hnil]
    · simp only [List.map_cons]
      rw [ih]

/-- The service as the sweep leaves it: one `enqueue_responce` call per
expired and deadlined message, in the order of the queues. -/
theorem sweep_queues_snd (ext : externals) (now : Nat)
    (queues : List (String × cached_messages_deque_t)) :
    ∀ s : service_t, (sweep_queues ext now queues s).2 =
      s.dispatch ext now ((expired_messages now queues).map (deadline_chunk ext)) := by
  induction queues with
  | nil => intro s; rfl
  | cons e t ih =>
    intro s
    obtain ⟨name, queue⟩ := e
    have hcons : expired_messages now ((name, queue) :: t) =
        queue.filter (fun m => m.is_expired now && m.is_deadlined) ++ expired_messages now t := by
      simp [expired_messages]
    unfold sweep_queues
    simp only []
    split_ifs with h
    · have hnil : queue.filter (fun m => m.is_expired now && m.is_deadlined) = [] :=
        List.isEmpty_iff.mp h
      rw [ih s, hcons, hnil]
      rfl
    · rw [ih, hcons, List.map_append, dispatch_append, foldl_enqueue_responce_eq_dispatch]

theorem check_for_deadlined_messages_eq (ext : externals) (s : service_t) (now : Nat) :
    s.check_for_deadlined_messages ext now =
      { s.dispatch ext now
          ((expired_messages now s.m_unhandled_messages).map (deadline_chunk ext)) with
        m_unhandled_messages := s.m_unhandled_messages.map
          (fun e => (e.1, e.2.filter (fun m => !(m.is_expired now && m.is_deadlined)))) } := by
  unfold service_t.check_for_deadlined_messages
  simp only []
  rw [sweep_queues_fst, sweep_queues_snd]

theorem check_for_deadlined_messages_none_left (ext : externals) (s : service_t) (now : Nat) :
    ∀ e ∈ (s.check_for_deadlined_messages ext now).m_unhandled_messages,
      ∀ m ∈ e.2, (m.is_expired now && m.is_deadlined) = false := by
  intro e he m hm
  rw [check_for_deadlined_messages_eq] at he
  simp only [] at he
  obtain ⟨e0, _, rfl⟩ := List.mem_map.mp he
  have h2 := (List.mem_filter.mp hm).2
  cases hb : (m.is_expired now && m.is_deadlined) with
  | false => rfl
  | true => rw [hb] at h2; cases h2

theorem expired_messages_nil (now : Nat) (queues : List (String × cached_messages_deque_t))
    (h : ∀ e ∈ queues, ∀ m ∈ e.2, (m.is_expired now && m.is_deadlined) = false) :
    expired_messages now queues = [] := by
  unfold expired_messages
  rw [List.flatMap_eq_nil_iff]
  intro e he
  rw [List.filter_eq_nil_iff]
  intro m hm
  rw [h e he m hm]
  simp

theorem check_for_deadlined_messages_nothing_expired (ext : externals) (s : service_t)
    (now : Nat)
    (h : ∀ e ∈ s.m_unhandled_messages, ∀ m ∈ e.2, (m.is_expired now && m.is_deadlined) = false) :
    s.check_for_deadlined_messages ext now = s := by
  rw [check_for_deadlined_messages_eq, expired_messages_nil now _ h]
  have hmap : s.m_unhandled_messages.map
      (fun e => (e.1, e.2.filter (fun m => !(m.is_expired now && m.is_deadlined)))) =
      s.m_unhandled_messages := by
    conv_rhs => rw [← List.map_id s.m_unhandled_messages]
    apply List.map_congr_left
    intro e he
    have : e.2.filter (fun m => !(m.is_expired now && m.is_deadlined)) = e.2 := by
      rw [List.filter_eq_self]
      intro m hm
      rw [h e he m hm]
      rfl
    rw [this]
    rfl
  rw [hmap]
  rfl

theorem pruned_responses_find_held (s : service_t) (now : Nat) (u : String) (p : response_ptr)
    (h : map_find s.m_responses u = some p) (hu : p.unique = false) :
    map_find (s.pruned_responses now) u = some p := by
  unfold service_t.pruned_responses
  split_ifs
  · exact map_find_remove_unique_keep _ _ p h hu
  · exact h

/-- A receiver some consumer holds stays in the registry through
`enqueue_responce`; it gets the chunk when the chunk carries its uuid and is
unchanged otherwise. -/
theorem enqueue_responce_find_held (ext : externals) (s : service_t) (c : response_chunk_t)
    (now : Nat) (u : String) (p : response_ptr)
    (h : map_find s.m_responses u = some p) (hu : p.unique = false) :
    map_find (s.enqueue_responce ext c now).m_responses u =
      some (if c.uuid = u then { p with obj := response_t.add_chunk ext p.obj c } else p) := by
  have hp := pruned_responses_find_held s now u p h hu
  rw [enqueue_responce_responses]
  by_cases hc : c.uuid = u
  · rw [hc, hp]
    simp only [hu, Bool.false_eq_true, if_false, if_true]
    rw [map_find_modify_same, hp]
    simp [hc]
  · have hne : u ≠ c.uuid := fun hh => hc hh.symm
    rw [if_neg hc]
    cases hq : map_find (s.pruned_responses now) c.uuid with
    | none => exact hp
    | some q =>
      simp only []
      split_ifs
      · exact hp
      · rw [map_find_modify_other _ _ _ _ hne]
        exact hp

/-- Through a series of `enqueue_responce` calls a receiver some consumer
holds gets exactly the chunks that carry its uuid, in order. -/
theorem dispatch_find_held (ext : externals) (now : Nat) (u : String)
    (cs : List response_chunk_t) :
    ∀ (s : service_t) (p : response_ptr), map_find s.m_responses u = some p →
      p.unique = false →
      map_find (s.dispatch ext now cs).m_responses u =
        some { p with obj :=
          (cs.filter (fun c => decide (c.uuid = u))).foldl (response_t.add_chunk ext) p.obj } := by
  induction cs with
  | nil => intro s p h _; exact h
  | cons c t ih =>
    intro s p h hu
    rw [dispatch_cons]
    have h1 := enqueue_responce_find_held ext s c now u p h hu
    by_cases hc : c.uuid = u
    · rw [if_pos hc] at h1
      rw [ih _ _ h1 hu]
      simp [List.filter_cons, hc]
    · rw [if_neg hc] at h1
      rw [ih _ _ h1 hu]
      simp [List.filter_cons, hc]

theorem add_chunk_deadline (ext : externals) (hext : ext.forwards_errors) (r : response_t)
    (m : message_iface) (hlive : r.m_message_finished = false) :
    response_t.add_chunk ext r (deadline_chunk ext m) =
      { r with m_caught_error := true,
               m_resp_info := { code := ext.deadline_error,
                                error_msg := "unhandled message expired" },
               m_message_finished := true, m_response_finished := true } := by
  obtain ⟨h1, h2, h3⟩ := hext
  have hinfo : (ext.to_impl (deadline_chunk ext m)).2 =
      { code := ext.deadline_error, error_msg := "unhandled message expired" } :=
    h1 (deadline_chunk ext m) rfl
  unfold response_t.add_chunk
  rw [add_chunk_error ext.codes r _ _ hlive (by rw [hinfo]; exact h2) (by rw [hinfo]; exact h3),
    hinfo]

theorem foldl_add_chunk_finished (ext : externals) (cs : List response_chunk_t) :
    ∀ r : response_t, r.m_message_finished = true →
      cs.foldl (response_t.add_chunk ext) r = r := by
  induction cs with
  | nil => intro r _; rfl
  | cons c t ih =>
    intro r h
    rw [List.foldl_cons]
    have : response_t.add_chunk ext r c = r := add_chunk_finished ext.codes r _ _ h
    rw [this]
    exact ih r h

/-- Deadline chunks, at least one, delivered to a live receiver leave it
terminated with the deadline error captured. -/
theorem foldl_add_chunk_deadline (ext : externals) (hext : ext.forwards_errors)
    (cs : List response_chunk_t) (r : response_t)
    (hall : ∀ c ∈ cs, ∃ m : message_iface, c = deadline_chunk ext m) (hne : cs ≠ [])
    (hlive : r.m_message_finished = false) :
    cs.foldl (response_t.add_chunk ext) r =
      { r with m_caught_error := true,
               m_resp_info := { code := ext.deadline_error,
                                error_msg := "unhandled message expired" },
               m_message_finished := true, m_response_finished := true } := by
  cases cs with
  | nil => exact absurd rfl hne
  | cons c t =>
    obtain ⟨m, rfl⟩ := hall c (List.mem_cons_self _ _)
    rw [List.foldl_cons, add_chunk_deadline ext hext r m hlive]
    exact foldl_add_chunk_finished ext t _ rfl

theorem mem_expired_messages (now : Nat) (queues : List (String × cached_messages_deque_t))
    (name : String) (queue : cached_messages_deque_t) (m : message_iface)
    (hq : (name, queue) ∈ queues) (hm : m ∈ queue)
    (he : (m.is_expired now && m.is_deadlined) = true) :
    m ∈ expired_messages now queues := by
  unfold expired_messages
  rw [List.mem_flatMap]
  exact ⟨(name, queue), hq, List.mem_filter.mpr ⟨hm, he⟩⟩

/-- The receiver of a message that waits in the unhandled store, expired and
deadlined, while a consumer holds the receiver live: after the sweep it is
terminated with the deadline error captured. -/
theorem check_for_deadlined_messages_find_held (ext : externals) (hext : ext.forwards_errors)
    (s : service_t) (now : Nat) (name : String) (queue : cached_messages_deque_t)
    (m : message_iface) (p : response_ptr)
    (hq : map_find s.m_unhandled_messages name = some queue) (hm : m ∈ queue)
    (he : (m.is_expired now && m.is_deadlined) = true)
    (hp : map_find s.m_responses m.uuid = some p) (hu : p.unique = false)
    (hlive : p.obj.m_message_finished = false) :
    map_find (s.check_for_deadlined_messages ext now).m_responses m.uuid =
      some { p with obj :=
        { p.obj with m_caught_error := true,
                     m_resp_info := { code := ext.deadline_error,
                                      error_msg := "unhandled message expired" },
                     m_message_finished := true, m_response_finished := true } } := by
  rw [check_for_deadlined_messages_eq]
  simp only []
  rw [dispatch_find_held ext now m.uuid _ s p hp hu]
  have hmem : m ∈ expired_messages now s.m_unhandled_messages :=
    mem_expired_messages now _ name queue m (map_find_some_mem _ _ _ hq) hm he
  rw [foldl_add_chunk_deadline ext hext _ p.obj ?_ ?_ hlive]
  · intro c hc
    obtain ⟨m0, _, rfl⟩ := List.mem_map.mp (List.mem_filter.mp hc).1
    exact ⟨m0, rfl⟩
  · intro hnil
    have : deadline_chunk ext m ∈ ((expired_messages now s.m_unhandled_messages).map
        (deadline_chunk ext)).filter (fun c => decide (c.uuid = m.uuid)) :=
      List.mem_filter.mpr ⟨List.mem_map.mpr ⟨m, hmem, rfl⟩, by simp [deadline_chunk]⟩
    rw [hnil] at this
    cases this

theorem map_find_isSome_iff_mem_keys {V : Type} (m : List (String × V)) (k : String) :
    (map_find m k).isSome = true ↔ k ∈ m.map Prod.fst := by
  induction m with
  | nil => simp [map_find]
  | cons e t ih =>
    obtain ⟨k0, v0⟩ := e
    unfold map_find
    split_ifs with h
    · simp [h]
    · simp only [List.map_cons, List.mem_cons]
      rw [ih]
      constructor
      · intro hm; exact Or.inr hm
      · intro hm
        rcases hm with hm | hm
        · exact absurd hm h
        · exact hm

theorem map_find_eq_none_iff {V : Type} (m : List (String × V)) (k : String) :
    map_find m k = none ↔ k ∉ m.map Prod.fst := by
  rw [← map_find_isSome_iff_mem_keys]
  cases map_find m k <;> simp

theorem map_find_of_mem_nodup {V : Type} (m : List (String × V)) (k : String) (v : V)
    (hkeys : (m.map Prod.fst).Nodup) (h : (k, v) ∈ m) : map_find m k = some v := by
  induction m with
  | nil => cases h
  | cons e t ih =>
    obtain ⟨k0, v0⟩ := e
    simp only [List.map_cons, List.nodup_cons] at hkeys
    unfold map_find
    rcases List.mem_cons.mp h with h1 | h1
    · cases h1
      simp
    · have hne : k ≠ k0 := by
        intro hk
        apply hkeys.1
        rw [← hk]
        exact List.mem_map.mpr ⟨(k, v), h1, rfl⟩
      rw [if_neg hne]
      exact ih hkeys.2 h1

theorem map_assign_mem {V : Type} (m : List (String × V)) (k : String) (v : V) :
    ∀ e ∈ map_assign m k v, e = (k, v) ∨ e ∈ m := by
  induction m with
  | nil => intro e he; simp [map_assign] at he; exact Or.inl he
  | cons e0 t ih =>
    obtain ⟨k0, v0⟩ := e0
    intro e he
    unfold map_assign at he
    split_ifs at he with h1 h2
    · rcases List.mem_cons.mp he with h | h
      · exact Or.inl h
      · exact Or.inr (List.mem_cons_of_mem _ h)
    · rcases List.mem_cons.mp he with h | h
      · exact Or.inl h
      · exact Or.inr h
    · rcases List.mem_cons.mp he with h | h
      · exact Or.inr (by rw [h]; exact List.mem_cons_self _ _)
      · rcases ih e h with h' | h'
        · exact Or.inl h'
        · exact Or.inr (List.mem_cons_of_mem _ h')

theorem map_modify_mem {V : Type} (m : List (String × V)) (k : String) (f : V → V) :
    ∀ e ∈ map_modify m k f, e ∈ m ∨ ∃ v : V, (e.1, v) ∈ m ∧ e.2 = f v := by
  induction m with
  | nil => intro e he; cases he
  | cons e0 t ih =>
    obtain ⟨k0, v0⟩ := e0
    intro e he
    unfold map_modify at he
    split_ifs at he with h1
    · rcases List.mem_cons.mp he with h | h
      · exact Or.inr ⟨v0, by rw [h]; exact List.mem_cons_self _ _, by rw [h]⟩
      · exact Or.inl (List.mem_cons_of_mem _ h)
    · rcases List.mem_cons.mp he with h | h
      · exact Or.inl (by rw [h]; exact List.mem_cons_self _ _)
      · rcases ih e h with h' | ⟨v, hv, hf⟩
        · exact Or.inl (List.mem_cons_of_mem _ h')
        · exact Or.inr ⟨v, List.mem_cons_of_mem _ hv, hf⟩

/-- A change of the handles that keeps their info keeps them under their names. -/
theorem handles_named_modify (m : List (String × handle_t)) (k : String)
    (f : handle_t → handle_t) (hf : ∀ h : handle_t, (f h).m_info = h.m_info)
    (hm : ∀ e ∈ m, e.2.m_info.name = e.1) :
    ∀ e ∈ map_modify m k f, e.2.m_info.name = e.1 := by
  intro e he
  rcases map_modify_mem m k f e he with h | ⟨v, hv, hfe⟩
  · exact hm e h
  · rw [hfe, hf]
    exact hm (e.1, v) hv

theorem handles_named_send_message (s : service_t) (message : message_iface)
    (h : s.handles_named) : (s.send_message message).2.handles_named := by
  unfold service_t.handles_named at *
  cases hf : map_find s.m_handles message.path.handle_name with
  | none =>
    rw [send_message_absent s message hf, enque_to_unhandled_handles]
    exact h
  | some handle =>
    rw [send_message_present s message handle hf]
    exact handles_named_modify _ _ _ (fun _ => rfl) h

theorem handles_named_create_handle (s : service_t) (info : handle_info_t)
    (endpoints : List cocaine_endpoint_t) (h : s.handles_named) :
    (s.create_handle info endpoints).handles_named := by
  unfold service_t.handles_named at *
  intro e he
  unfold service_t.create_handle at he
  simp only [] at he
  rcases map_assign_mem _ _ _ e he with h1 | h1
  · rw [h1]
    simp only []
    split_ifs <;> rfl
  · rw [get_and_remove_unhandled_queue_handles] at h1
    exact h e h1

theorem handles_named_update_handle (s : service_t) (info : handle_info_t)
    (endpoints : List cocaine_endpoint_t) (h : s.handles_named) :
    (s.update_handle info endpoints).handles_named := by
  unfold service_t.handles_named at *
  unfold service_t.update_handle
  cases map_find s.m_handles info.name with
  | none => exact h
  | some handle => exact handles_named_modify _ _ _ (fun _ => rfl) h

theorem handles_named_destroy_handle (s : service_t) (info : handle_info_t)
    (h : s.handles_named) : (s.destroy_handle info).handles_named := by
  unfold service_t.handles_named at *
  cases hf : map_find s.m_handles info.name with
  | none => rw [destroy_handle_absent s info hf]; exact h
  | some handle =>
    rw [destroy_handle_present s info handle hf]
    intro e he
    exact h e (List.mem_filter.mp he).1

theorem check_for_deadlined_messages_handles (ext : externals) (s : service_t) (now : Nat) :
    (s.check_for_deadlined_messages ext now).m_handles = s.m_handles := by
  rw [check_for_deadlined_messages_eq]
  exact dispatch_handles ext now _ s

/-- In every reachable state each handle is stored under the name of its
info. -/
theorem reachable_handles_named (ext : externals) (s : service_t)
    (h : service_t.Reachable ext s) : s.handles_named := by
  induction h with
  | init info now => intro e he; cases he
  | send_message message _ ih => exact handles_named_send_message _ message ih
  | enqueue_responce response now _ ih =>
    unfold service_t.handles_named at *
    rw [enqueue_responce_handles]
    exact ih
  | create_handle info endpoints _ ih => exact handles_named_create_handle _ info endpoints ih
  | update_handle info endpoints _ ih => exact handles_named_update_handle _ info endpoints ih
  | destroy_handle info _ ih => exact handles_named_destroy_handle _ info ih
  | check_for_deadlined_messages now _ ih =>
    unfold service_t.handles_named at *
    rw [check_for_deadlined_messages_handles]
    exact ih
  | consumer_get uuid timeout arrivals _ ih => exact ih
  | consumer_release uuid _ ih => exact ih
  | transport_step handle_name messages _ ih =>
    unfold service_t.handles_named at *
    exact handles_named_modify _ _ _ (fun _ => rfl) ih

theorem get_outstanding_handles_eq (s : service_t)
    (handles_endpoints : List (String × List cocaine_endpoint_t))
    (outstanding_handles : List handle_info_t) :
    s.get_outstanding_handles handles_endpoints outstanding_handles =
      outstanding_handles ++
        (s.m_handles.filter (fun e => (map_find handles_endpoints e.1).isNone)).map
          (fun e => e.2.info) := by
  unfold service_t.get_outstanding_handles
  generalize s.m_handles = l
  induction l generalizing outstanding_handles with
  | nil => simp
  | cons e t ih =>
    rw [List.foldl_cons, ih]
    cases h : map_find handles_endpoints e.1 with
    | none => simp [List.filter_cons, h]
    | some v => simp [List.filter_cons, h]

theorem get_new_handles_eq (s : service_t)
    (handles_endpoints : List (String × List cocaine_endpoint_t))
    (new_handles : List handle_info_t) :
    s.get_new_handles handles_endpoints new_handles =
      new_handles ++
        (handles_endpoints.filter (fun e => (map_find s.m_handles e.1).isNone)).map
          (fun e => { name := e.1, app_name := s.m_info.app, service_name := s.m_info.name }) := by
  unfold service_t.get_new_handles
  induction handles_endpoints generalizing new_handles with
  | nil => simp
  | cons e t ih =>
    rw [List.foldl_cons, ih]
    cases h : map_find s.m_handles e.1 with
    | none => simp [List.filter_cons, h]
    | some v => simp [List.filter_cons, h]

theorem destroy_handle_find (s : service_t) (info : handle_info_t) (name : String) :
    map_find (s.destroy_handle info).m_handles name =
      if name = info.name then none else map_find s.m_handles name := by
  cases hf : map_find s.m_handles info.name with
  | none =>
    rw [destroy_handle_absent s info hf]
    split_ifs with h
    · rw [h]; exact hf
    · rfl
  | some handle =>
    rw [destroy_handle_present s info handle hf]
    simp only []
    split_ifs with h
    · rw [h]; exact map_find_erase_same _ _
    · exact map_find_erase_other _ _ _ h

theorem destroy_handles_nil (s : service_t) : s.destroy_handles [] = s := rfl

theorem destroy_handles_cons (s : service_t) (info : handle_info_t) (infos : List handle_info_t) :
    s.destroy_handles (info :: infos) = (s.destroy_handle info).destroy_handles infos := rfl

theorem destroy_handles_find (infos : List handle_info_t) (name : String) :
    ∀ s : service_t, map_find (s.destroy_handles infos).m_handles name =
      if name ∈ infos.map (fun info => info.name) then none else map_find s.m_handles name := by
  induction infos with
  | nil => intro s; simp [destroy_handles_nil]
  | cons info t ih =>
    intro s
    rw [destroy_handles_cons, ih, destroy_handle_find]
    by_cases h1 : name ∈ t.map (fun info => info.name)
    · simp [h1]
    · by_cases h2 : name = info.name
      · simp [h2]
      · simp [h1, h2]

theorem create_handles_nil (s : service_t)
    (handles_endpoints : List (String × List cocaine_endpoint_t)) :
    s.create_handles handles_endpoints [] = s := rfl

theorem create_handles_cons (s : service_t)
    (handles_endpoints : List (String × List cocaine_endpoint_t)) (info : handle_info_t)
    (infos : List handle_info_t) :
    s.create_handles handles_endpoints (info :: infos) =
      (s.create_handle info ((map_find handles_endpoints info.name).getD [])).create_handles
        handles_endpoints infos := rfl

theorem create_handles_find_other
    (handles_endpoints : List (String × List cocaine_endpoint_t)) (infos : List handle_info_t)
    (name : String) (hn : name ∉ infos.map (fun info => info.name)) :
    ∀ s : service_t, map_find (s.create_handles handles_endpoints infos).m_handles name =
      map_find s.m_handles name := by
  induction infos with
  | nil => intro s; rfl
  | cons info t ih =>
    intro s
    simp only [List.map_cons, List.mem_cons, not_or] at hn
    rw [create_handles_cons, ih hn.2, create_handle_find_other _ _ _ _ hn.1]

theorem create_handles_find_isSome
    (handles_endpoints : List (String × List cocaine_endpoint_t)) (infos : List handle_info_t)
    (name : String) (hn : name ∈ infos.map (fun info => info.name)) :
    ∀ s : service_t,
      (map_find (s.create_handles handles_endpoints infos).m_handles name).isSome = true := by
  induction infos with
  | nil => cases hn
  | cons info t ih =>
    intro s
    rw [create_handles_cons]
    by_cases ht : name ∈ t.map (fun info => info.name)
    · exact ih ht _
    · simp only [List.map_cons, List.mem_cons] at hn
      rcases hn with hn | hn
      · rw [create_handles_find_other _ _ _ ht, hn, create_handle_find_same]
        rfl
      · exact absurd hn ht

/-- The names `get_outstanding_handles` reports: the keys of the handle map
that the snapshot lacks. -/
theorem mem_outstanding_names (s : service_t)
    (handles_endpoints : List (String × List cocaine_endpoint_t)) (hnamed : s.handles_named)
    (name : String) :
    name ∈ (s.get_outstanding_handles handles_endpoints []).map (fun info => info.name) ↔
      (map_find s.m_handles name).isSome = true ∧ map_find handles_endpoints name = none := by
  rw [get_outstanding_handles_eq, map_find_isSome_iff_mem_keys]
  simp only [List.nil_append, List.map_map, List.mem_map, List.mem_filter, Function.comp]
  constructor
  · rintro ⟨e, ⟨he, hf⟩, hname⟩
    have hk : e.1 = name := by rw [← hnamed e he]; exact hname
    refine ⟨⟨e, he, hk⟩, ?_⟩
    rw [← hk]
    cases h : map_find handles_endpoints e.1 with
    | none => rfl
    | some v => rw [h] at hf; cases hf
  · rintro ⟨⟨e, he, hk⟩, hf⟩
    refine ⟨e, ⟨he, ?_⟩, ?_⟩
    · rw [hk, hf]; rfl
    · show e.2.m_info.name = name
      rw [hnamed e he]; exact hk

/-- The names `get_new_handles` reports: the keys of the snapshot that the
handle map lacks. -/
theorem mem_new_names (s : service_t)
    (handles_endpoints : List (String × List cocaine_endpoint_t)) (name : String) :
    name ∈ (s.get_new_handles handles_endpoints []).map (fun info => info.name) ↔
      (map_find handles_endpoints name).isSome = true ∧ map_find s.m_handles name = none := by
  rw [get_new_handles_eq, map_find_isSome_iff_mem_keys]
  simp only [List.nil_append, List.map_map, List.mem_map, List.mem_filter, Function.comp]
  constructor
  · rintro ⟨e, ⟨he, hf⟩, hname⟩
    refine ⟨⟨e, he, hname⟩, ?_⟩
    rw [← hname]
    cases h : map_find s.m_handles e.1 with
    | none => rfl
    | some v => rw [h] at hf; cases hf
  · rintro ⟨⟨e, he, hk⟩, hf⟩
    refine ⟨e, ⟨he, ?_⟩, hk⟩
    rw [hk, hf]; rfl

theorem update_handle_absent (s : service_t) (info : handle_info_t)
    (endpoints : List cocaine_endpoint_t) (h : map_find s.m_handles info.name = none) :
    s.update_handle info endpoints = s := by
  simp [service_t.update_handle, h]

/-- One `enqueue_responce` keeps the lock order whenever it starts without
the registry lock, and gives the locks back as it found them. -/
theorem lock_order_ok_enqueue_responce (s : service_t) (response : response_chunk_t)
    (now : Nat) (held : List router_lock) (rest : List lock_event)
    (h : held.contains router_lock.responses = false) :
    lock_order_ok held (s.enqueue_responce_events response now ++ rest) =
      lock_order_ok held rest := by
  unfold service_t.enqueue_responce_events
  cases map_find (s.pruned_responses now) response.uuid with
  | none => simp [lock_order_ok]
  | some p =>
    simp only []
    split_ifs
    · simp [lock_order_ok]
    · have h1 : router_lock.responses ∉ held := by simpa using h
      simp [lock_order_ok, h1]

theorem lock_order_ok_dispatch (ext : externals) (now : Nat) (held : List router_lock)
    (rest : List lock_event) (h : held.contains router_lock.responses = false)
    (cs : List response_chunk_t) :
    ∀ s : service_t, lock_order_ok held (dispatch_events ext now cs s ++ rest) =
      lock_order_ok held rest := by
  induction cs with
  | nil => intro s; rfl
  | cons c t ih =>
    intro s
    unfold dispatch_events
    rw [List.append_assoc, lock_order_ok_enqueue_responce s c now held _ h, ih]

/-- The check is not vacuous: each of the four forbidden patterns is rejected. -/
theorem lock_order_ok_rejects :
    lock_order_ok [] [lock_event.acquire router_lock.unhandled,
        lock_event.acquire router_lock.handles] = false ∧
      lock_order_ok [] [lock_event.acquire router_lock.responses,
        lock_event.acquire router_lock.handles] = false ∧
      lock_order_ok [] [lock_event.acquire router_lock.responses,
        lock_event.acquire router_lock.unhandled] = false ∧
      lock_order_ok [] [lock_event.acquire router_lock.responses,
        lock_event.add_chunk ""] = false := by
  decide

theorem init_transport_literals_start :
    init_transport_literals transport_tables.start = transport_tables.filled := by
  decide

theorem init_transport_literals_filled :
    init_transport_literals transport_tables.filled = transport_tables.filled := by
  rfl

/-- The static data is either untouched or holds the six pairs. -/
theorem reachable_tables {st : transport_tables} (h : transport_tables.Reachable st) :
    st = transport_tables.start ∨ st = transport_tables.filled := by
  induction h with
  | start => exact Or.inl rfl
  | init _ ih =>
    rcases ih with ih | ih
    · rw [ih]; exact Or.inr init_transport_literals_start
    · rw [ih]; exact Or.inr init_transport_literals_filled

theorem reachable_tables_init {st : transport_tables} (h : transport_tables.Reachable st) :
    init_transport_literals st = transport_tables.filled := by
  rcases reachable_tables h with h1 | h1
  · rw [h1]; exact init_transport_literals_start
  · rw [h1]; exact init_transport_literals_filled

theorem transport_from_string_filled (st : transport_tables)
    (h : init_transport_literals st = transport_tables.filled) (s : String) :
    transport_from_string st s =
      ((map_find transport_tables.filled.transport_back_literals s).getD
        transport_type.TRANSPORT_UNDEFINED, transport_tables.filled) := by
  unfold transport_from_string
  simp only [h]
  cases map_find transport_tables.filled.transport_back_literals s <;> rfl

theorem string_from_transport_filled (st : transport_tables)
    (h : init_transport_literals st = transport_tables.filled) (t : transport_type) :
    string_from_transport st t =
      ((enum_map_find transport_tables.filled.transport_literals t).getD "",
        transport_tables.filled) := by
  unfold string_from_transport
  simp only [h]
  cases enum_map_find transport_tables.filled.transport_literals t <;> rfl

theorem init_transport_literals_reachable {st : transport_tables}
    (h : transport_tables.Reachable st) :
    transport_tables.Reachable (init_transport_literals st) :=
  transport_tables.Reachable.init h

theorem line_transport_rest (st : transport_tables) (line : List Char) :
    (line_transport st line).2.1 = line_rest line := by
  unfold line_transport line_rest
  cases string_find "://".toList line <;> rfl

theorem line_transport_ne_undefined (st : transport_tables) (line : List Char) :
    (line_transport st line).1 ≠ transport_type.TRANSPORT_UNDEFINED := by
  unfold line_transport
  cases string_find "://".toList line with
  | none => simp
  | some pos =>
    simp only []
    split_ifs with h
    · simp
    · exact h

theorem line_transport_reachable {st : transport_tables} (h : transport_tables.Reachable st)
    (line : List Char) : transport_tables.Reachable (line_transport st line).2.2 := by
  unfold line_transport
  cases string_find "://".toList line with
  | none => exact h
  | some pos =>
    have h1 : (transport_from_string st (String.mk (line.take pos))).2 =
        init_transport_literals st := by
      unfold transport_from_string
      simp only []
      cases map_find (init_transport_literals st).transport_back_literals
        (String.mk (line.take pos)) <;> rfl
    simp only [h1]
    exact transport_tables.Reachable.init h

/-- The transport of a line is the same in every state of the tables that
calls can leave. -/
theorem line_transport_fst {st st' : transport_tables} (h : transport_tables.Reachable st)
    (h' : transport_tables.Reachable st') (line : List Char) :
    (line_transport st line).1 = (line_transport st' line).1 := by
  unfold line_transport
  cases string_find "://".toList line with
  | none => rfl
  | some pos =>
    simp only [transport_from_string_filled st (reachable_tables_init h),
      transport_from_string_filled st' (reachable_tables_init h')]

theorem new_ip_port_fst (env : host_externals) (st st' : transport_tables) (ip_ port_ : Nat)
    (transport_ : transport_type) :
    (inetv4_endpoint_t.new_ip_port env st ip_ port_ transport_).1 =
      (inetv4_endpoint_t.new_ip_port env st' ip_ port_ transport_).1 := by
  unfold inetv4_endpoint_t.new_ip_port
  cases env.inetv4_host_t_new ip_ <;> rfl

theorem new_ip_port_string_fst (env : host_externals) (st st' : transport_tables) (ip_ : Nat)
    (port_ : String) (transport_ : transport_type) :
    (inetv4_endpoint_t.new_ip_port_string env st ip_ port_ transport_).1 =
      (inetv4_endpoint_t.new_ip_port_string env st' ip_ port_ transport_).1 := by
  unfold inetv4_endpoint_t.new_ip_port_string
  cases env.inetv4_host_t_new ip_ with
  | none => rfl
  | some host => cases env.lexical_cast_unsigned_short port_ <;> rfl

theorem new_ip_port_reachable (env : host_externals) {st : transport_tables}
    (h : transport_tables.Reachable st) (ip_ port_ : Nat) (transport_ : transport_type) :
    transport_tables.Reachable (inetv4_endpoint_t.new_ip_port env st ip_ port_ transport_).2 := by
  unfold inetv4_endpoint_t.new_ip_port
  cases env.inetv4_host_t_new ip_ with
  | none => exact h
  | some host => exact transport_tables.Reachable.init h

theorem new_ip_port_string_reachable (env : host_externals) {st : transport_tables}
    (h : transport_tables.Reachable st) (ip_ : Nat) (port_ : String)
    (transport_ : transport_type) :
    transport_tables.Reachable
      (inetv4_endpoint_t.new_ip_port_string env st ip_ port_ transport_).2 := by
  unfold inetv4_endpoint_t.new_ip_port_string
  cases env.inetv4_host_t_new ip_ with
  | none => exact h
  | some host =>
    cases env.lexical_cast_unsigned_short port_ with
    | none => exact transport_tables.Reachable.init h
    | some port => exact transport_tables.Reachable.init h

theorem push_back_result_fst (r r' : Option inetv4_endpoint_t × transport_tables)
    (h : r.1 = r'.1) : (push_back_result r).1 = (push_back_result r').1 := by
  unfold push_back_result
  rw [h]
  cases r'.1 <;> rfl

theorem push_back_result_reachable {r : Option inetv4_endpoint_t × transport_tables}
    (h : transport_tables.Reachable r.2) :
    transport_tables.Reachable (push_back_result r).2 := by
  unfold push_back_result
  cases r.1 with
  | none => exact h
  | some e => exact transport_tables.Reachable.init h

/-- One token leaves the static tables in a state that calls can leave. -/
theorem parse_line_reachable (env : host_externals) {st : transport_tables}
    (h : transport_tables.Reachable st) (tok : List Char) :
    transport_tables.Reachable (parse_line env st tok).2 := by
  have ht := line_transport_reachable h (trim tok)
  unfold parse_line
  simp only []
  split_ifs
  · exact h
  · cases find_last_of ':' (line_transport st (trim tok)).2.1 with
    | none =>
      simp only []
      cases env.ipv4_from_hint (String.mk (line_transport st (trim tok)).2.1) with
      | none => exact ht
      | some ip =>
        simp only []
        split_ifs
        · exact ht
        · exact push_back_result_reachable (new_ip_port_reachable env ht _ _ _)
    | some pos =>
      simp only []
      cases env.ipv4_from_hint
        (String.mk ((line_transport st (trim tok)).2.1.take pos)) with
      | none => exact ht
      | some ip =>
        simp only []
        split_ifs
        · exact ht
        · exact push_back_result_reachable (new_ip_port_string_reachable env ht _ _ _)

/-- The outcome of one token is the same in every state of the tables that
calls can leave. -/
theorem parse_line_fst (env : host_externals) {st st' : transport_tables}
    (h : transport_tables.Reachable st) (h' : transport_tables.Reachable st')
    (tok : List Char) : (parse_line env st tok).1 = (parse_line env st' tok).1 := by
  have h1 := line_transport_fst h h' (trim tok)
  have h2 : (line_transport st (trim tok)).2.1 = (line_transport st' (trim tok)).2.1 := by
    rw [line_transport_rest, line_transport_rest]
  unfold parse_line
  simp only []
  split_ifs
  · rfl
  · rw [h1, h2]
    cases find_last_of ':' (line_transport st' (trim tok)).2.1 with
    | none =>
      simp only []
      cases env.ipv4_from_hint (String.mk (line_transport st' (trim tok)).2.1) with
      | none => rfl
      | some ip =>
        simp only []
        split_ifs
        · rfl
        · exact push_back_result_fst _ _ (new_ip_port_fst env _ _ _ _ _)
    | some pos =>
      simp only []
      cases env.ipv4_from_hint
        (String.mk ((line_transport st' (trim tok)).2.1.take pos)) with
      | none => rfl
      | some ip =>
        simp only []
        split_ifs
        · rfl
        · exact push_back_result_fst _ _ (new_ip_port_string_fst env _ _ _ _ _)

/-- The loop appends, token by token, the endpoint each token gives. -/
theorem parse_lines_fst (env : host_externals) (toks : List (List Char)) :
    ∀ (st : transport_tables) (endpoints : List inetv4_endpoint_t),
      transport_tables.Reachable st →
      (parse_lines env st toks endpoints).1 =
        endpoints ++ toks.filterMap
          (fun tok => (parse_line env transport_tables.filled tok).1.endpoint) := by
  have hf : transport_tables.Reachable transport_tables.filled := by
    have h := transport_tables.Reachable.init transport_tables.Reachable.start
    rw [init_transport_literals_start] at h
    exact h
  induction toks with
  | nil => intro st endpoints _; simp [parse_lines]
  | cons tok toks ih =>
    intro st endpoints h
    have h1 := parse_line_fst env h hf tok
    have h2 := parse_line_reachable env h tok
    unfold parse_lines
    rw [List.filterMap_cons, ← h1]
    cases hr : (parse_line env st tok).1 with
    | pushed e =>
      simp only [line_result.endpoint]
      rw [ih _ _ h2, List.append_assoc]
      rfl
    | skipped =>
      simp only [line_result.endpoint]
      exact ih _ _ h2
    | caught =>
      simp only [line_result.endpoint]
      exact ih _ _ h2

theorem parse_line_comment (env : host_externals) (st : transport_tables) (tok : List Char)
    (h : trim tok = [] ∨ (trim tok).head? = some '#') :
    parse_line env st tok = (line_result.skipped, st) := by
  unfold parse_line
  simp only []
  rw [if_pos]
  rcases h with h | h
  · simp [h]
  · simp [h]

theorem push_back_result_pushed {r : Option inetv4_endpoint_t × transport_tables}
    {e : inetv4_endpoint_t} (h : (push_back_result r).1 = line_result.pushed e) :
    r.1 = some e := by
  unfold push_back_result at h
  cases hr : r.1 with
  | none => rw [hr] at h; simp at h
  | some e' =>
    rw [hr] at h
    simp only [line_result.pushed.injEq] at h
    rw [h]

theorem new_ip_port_some {env : host_externals} {st : transport_tables} {ip_ port_ : Nat}
    {transport_ : transport_type} {e : inetv4_endpoint_t}
    (h : (inetv4_endpoint_t.new_ip_port env st ip_ port_ transport_).1 = some e) :
    e.transport = transport_ ∧ e.port = port_ := by
  unfold inetv4_endpoint_t.new_ip_port at h
  cases hh : env.inetv4_host_t_new ip_ with
  | none => rw [hh] at h; simp at h
  | some host =>
    rw [hh] at h
    simp only [Option.some.injEq] at h
    rw [← h]
    exact ⟨rfl, rfl⟩

theorem new_ip_port_string_some {env : host_externals} {st : transport_tables} {ip_ : Nat}
    {port_ : String} {transport_ : transport_type} {e : inetv4_endpoint_t}
    (h : (inetv4_endpoint_t.new_ip_port_string env st ip_ port_ transport_).1 = some e) :
    e.transport = transport_ ∧ env.lexical_cast_unsigned_short port_ = some e.port := by
  unfold inetv4_endpoint_t.new_ip_port_string at h
  cases hh : env.inetv4_host_t_new ip_ with
  | none => rw [hh] at h; simp at h
  | some host =>
    rw [hh] at h
    cases hp : env.lexical_cast_unsigned_short port_ with
    | none => rw [hp] at h; simp at h
    | some port =>
      rw [hp] at h
      simp only [Option.some.injEq] at h
      rw [← h]
      exact ⟨rfl, rfl⟩

/-- A token whose host text resolves to 0 ends at a `continue`. -/
theorem parse_line_ip_zero (env : host_externals) (st : transport_tables) (tok : List Char)
    (h : env.ipv4_from_hint (String.mk (host_text (line_rest (trim tok)))) = some 0) :
    (parse_line env st tok).1 = line_result.skipped := by
  unfold host_text at h
  unfold parse_line
  simp only []
  split_ifs
  · rfl
  · rw [line_transport_rest]
    cases hf : find_last_of ':' (line_rest (trim tok)) with
    | none =>
      rw [hf] at h
      simp only [] at h
      simp only [h]
      rfl
    | some pos =>
      rw [hf] at h
      simp only [] at h
      simp only [h]
      rfl

/-- A token whose port text is not converted adds no endpoint. -/
theorem parse_line_bad_port (env : host_externals) (st : transport_tables) (tok p : List Char)
    (hp : port_text (line_rest (trim tok)) = some p)
    (hc : env.lexical_cast_unsigned_short (String.mk p) = none) :
    (parse_line env st tok).1.endpoint = none := by
  cases hr : (parse_line env st tok).1 with
  | skipped => rfl
  | caught => rfl
  | pushed e =>
    exfalso
    unfold port_text at hp
    unfold parse_line at hr
    simp only [] at hr
    split_ifs at hr
    rw [line_transport_rest] at hr
    cases hf : find_last_of ':' (line_rest (trim tok)) with
    | none => rw [hf] at hp; simp at hp
    | some pos =>
      rw [hf] at hp hr
      simp only [Option.map_some', Option.some.injEq] at hp
      simp only [] at hr
      cases hi : env.ipv4_from_hint (String.mk ((line_rest (trim tok)).take pos)) with
      | none => rw [hi] at hr; simp at hr
      | some ip =>
        rw [hi] at hr
        simp only [] at hr
        split_ifs at hr
        have h1 := (new_ip_port_string_some (push_back_result_pushed hr)).2
        rw [hp, hc] at h1
        simp at h1

/-- An endpoint that a token adds has the transport of lines 64-79, and port
0 when the line has no ':' after its prefix. -/
theorem parse_line_pushed (env : host_externals) (st : transport_tables) (tok : List Char)
    (e : inetv4_endpoint_t) (hr : (parse_line env st tok).1 = line_result.pushed e) :
    e.transport = (line_transport st (trim tok)).1 ∧
      (port_text (line_rest (trim tok)) = none → e.port = 0) := by
  unfold port_text
  unfold parse_line at hr
  simp only [] at hr
  split_ifs at hr
  rw [line_transport_rest] at hr
  cases hf : find_last_of ':' (line_rest (trim tok)) with
  | none =>
    rw [hf] at hr
    simp only [] at hr
    cases hi : env.ipv4_from_hint (String.mk (line_rest (trim tok))) with
    | none => rw [hi] at hr; simp at hr
    | some ip =>
      rw [hi] at hr
      simp only [] at hr
      split_ifs at hr
      have h1 := new_ip_port_some (push_back_result_pushed hr)
      exact ⟨h1.1, fun _ => h1.2⟩
  | some pos =>
    rw [hf] at hr
    simp only [] at hr
    cases hi : env.ipv4_from_hint (String.mk ((line_rest (trim tok)).take pos)) with
    | none => rw [hi] at hr; simp at hr
    | some ip =>
      rw [hi] at hr
      simp only [] at hr
      split_ifs at hr
      have h1 := new_ip_port_string_some (push_back_result_pushed hr)
      refine ⟨h1.1, fun h => ?_⟩
      simp at h

theorem line_transport_no_prefix (st : transport_tables) (line : List Char)
    (h : line_transport_str line = none) :
    (line_transport st line).1 = transport_type.TRANSPORT_TCP := by
  unfold line_transport_str at h
  unfold line_transport
  cases hf : string_find "://".toList line with
  | none => rfl
  | some pos => rw [hf] at h; simp at h

theorem line_transport_unrecognised (st : transport_tables) (line p : List Char)
    (h : line_transport_str line = some p)
    (hu : (transport_from_string st (String.mk p)).1 = transport_type.TRANSPORT_UNDEFINED) :
    (line_transport st line).1 = transport_type.TRANSPORT_TCP := by
  unfold line_transport_str at h
  unfold line_transport
  cases hf : string_find "://".toList line with
  | none => rfl
  | some pos =>
    rw [hf] at h
    simp only [Option.map_some', Option.some.injEq] at h
    simp only [h, hu, if_true]

theorem line_transport_recognised (st : transport_tables) (line p : List Char)
    (h : line_transport_str line = some p)
    (hu : (transport_from_string st (String.mk p)).1 ≠ transport_type.TRANSPORT_UNDEFINED) :
    (line_transport st line).1 = (transport_from_string st (String.mk p)).1 := by
  unfold line_transport_str at h
  unfold line_transport
  cases hf : string_find "://".toList line with
  | none => rw [hf] at h; simp at h
  | some pos =>
    rw [hf] at h
    simp only [Option.map_some', Option.some.injEq] at h
    simp only [h, hu, if_false]

/-- The sample text gives three endpoints: tcp with port 0, tcp for the
unrecognised prefix, and epgm. -/
theorem parse_hosts_data_sample :
    (parse_hosts_data sample_host_externals transport_tables.start sample_hosts_data []).1 =
      [{ transport := transport_type.TRANSPORT_TCP,
          host := { ip := 167772161, hostname := "" }, port := 0 },
        { transport := transport_type.TRANSPORT_TCP,
          host := { ip := 167772161, hostname := "" }, port := 80 },
        { transport := transport_type.TRANSPORT_EPGM,
          host := { ip := 167772161, hostname := "" }, port := 80 }] := by
  decide

/-! ## Claims on the receiver -/

/-- C1. Error surfaces exactly once: on a live receiver with an empty queue,
after `k` payload chunks and then one error chunk `einfo` have been delivered,
the next `k` calls of `get` return the `k` payloads in delivery order, the
call after them throws exactly `einfo.code` and `einfo.error_msg`, and every
later call returns false without throwing; time-outs are arbitrary. -/
theorem error_surfaces_exactly_once (rc : response_code) (r0 : response_impl_t)
    (chunks : List (chunk_data × chunk_info)) (edata : chunk_data) (einfo : chunk_info)
    (calls : List (double × List (chunk_data × chunk_info)))
    (c : double × List (chunk_data × chunk_info))
    (later : List (double × List (chunk_data × chunk_info)))
    (hne : rc.message_chunk ≠ rc.message_choke)
    (hlive : r0.m_message_finished = false) (hempty : r0.m_chunks = [])
    (hk : ∀ x ∈ chunks, x.2.code = rc.message_chunk)
    (he1 : einfo.code ≠ rc.message_choke) (he2 : einfo.code ≠ rc.message_chunk)
    (hlen : calls.length = chunks.length) :
    (((r0.deliver rc chunks).add_chunk rc edata einfo).get_seq rc (calls ++ c :: later)).1 =
      chunks.map (fun x => get_result.returned_true x.1) ++
        get_result.threw einfo.code einfo.error_msg ::
          List.replicate later.length get_result.returned_false := by
  have hd := deliver_chunks rc hne chunks hk r0 hlive
  have hlive2 : (r0.deliver rc chunks).m_message_finished = false := by rw [hd]; exact hlive
  have hq2 : (r0.deliver rc chunks).m_chunks = chunks.map Prod.fst := by rw [hd]; simp [hempty]
  rw [add_chunk_error rc _ edata einfo hlive2 he1 he2]
  generalize r0.deliver rc chunks = r1 at hq2
  rw [get_seq_append]
  rw [get_seq_drain rc (chunks.map Prod.fst)
    { r1 with m_caught_error := true, m_resp_info := einfo, m_message_finished := true,
              m_response_finished := true } calls rfl hq2 (by simpa using hlen)]
  simp only [get_seq_cons]
  rw [get_finished_error rc _ c.1 c.2 rfl rfl rfl]
  simp only []
  rw [get_seq_finished_clean rc later _ rfl rfl rfl]
  simp [List.map_map, Function.comp_def]

/-- C1 at scenario S2: chunk "r1", then error 7 "boom". -/
theorem error_surfaces_exactly_once_witness :
    ((((response_impl_t.new "u" ⟨"s", "h"⟩).deliver ⟨1, 2⟩ [("r1", ⟨1, ""⟩)]).add_chunk ⟨1, 2⟩
        "" ⟨7, "boom"⟩).get_seq ⟨1, 2⟩
          ([(double.finite (-1) 0, [])] ++
            (double.finite (-1) 0, []) :: [(double.finite (-1) 0, [])])).1 =
      [("r1", (⟨1, ""⟩ : chunk_info))].map (fun x => get_result.returned_true x.1) ++
        get_result.threw 7 "boom" :: List.replicate 1 get_result.returned_false :=
  error_surfaces_exactly_once ⟨1, 2⟩ (response_impl_t.new "u" ⟨"s", "h"⟩) [("r1", ⟨1, ""⟩)]
    "" ⟨7, "boom"⟩ [(double.finite (-1) 0, [])] (double.finite (-1) 0, [])
    [(double.finite (-1) 0, [])] (by decide) rfl rfl (by decide) (by decide) (by decide) rfl

/-- C2. At most one terminal transition: on a receiver whose
`m_message_finished` flag is set, `add_chunk` with any chunk (payload, choke
or error) returns the receiver unchanged in every field. -/
theorem add_chunk_after_terminal_is_noop (rc : response_code) (r : response_impl_t)
    (data : chunk_data) (info : chunk_info) (h : r.m_message_finished = true) :
    r.add_chunk rc data info = r :=
  add_chunk_finished rc r data info h

/-- C2 on a receiver ended by a choke: a late error chunk changes nothing. -/
theorem add_chunk_after_terminal_is_noop_witness :
    ((response_impl_t.new "u" ⟨"s", "h"⟩).add_chunk ⟨1, 2⟩ "" ⟨2, ""⟩).add_chunk ⟨1, 2⟩
        "late" ⟨7, "boom"⟩ =
      (response_impl_t.new "u" ⟨"s", "h"⟩).add_chunk ⟨1, 2⟩ "" ⟨2, ""⟩ :=
  add_chunk_after_terminal_is_noop ⟨1, 2⟩
    ((response_impl_t.new "u" ⟨"s", "h"⟩).add_chunk ⟨1, 2⟩ "" ⟨2, ""⟩) "late" ⟨7, "boom"⟩
    (by decide)

/-- C3, the code at the failing input: after two payload chunks `a`, `b`
were delivered to a fresh receiver, the first `get` with a negative time-out
returns `a` and leaves `b` buffered in a live receiver; the second `get` with a
negative time-out and no further delivery does not return `b`: it stays in the
condition-variable wait. -/
theorem get_waits_although_chunk_buffered (rc : response_code) (uuid : String)
    (path : message_path_t) (a b : chunk_data) (ia ib : chunk_info)
    (hne : rc.message_chunk ≠ rc.message_choke)
    (ha : ia.code = rc.message_chunk) (hb : ib.code = rc.message_chunk) :
    ((((response_impl_t.new uuid path).add_chunk rc a ia).add_chunk rc b ib).get rc
        (double.finite (-1) 0) []).1 = get_result.returned_true a ∧
      ((((response_impl_t.new uuid path).add_chunk rc a ia).add_chunk rc b ib).get rc
        (double.finite (-1) 0) []).2.m_chunks = [b] ∧
      ((((response_impl_t.new uuid path).add_chunk rc a ia).add_chunk rc b ib).get rc
        (double.finite (-1) 0) []).2.m_message_finished = false ∧
      (((((response_impl_t.new uuid path).add_chunk rc a ia).add_chunk rc b ib).get rc
        (double.finite (-1) 0) []).2.get rc (double.finite (-1) 0) []).1 =
          get_result.blocked := by
  rw [add_chunk_chunk rc _ a ia rfl hne ha, add_chunk_chunk rc _ b ib rfl hne hb]
  rw [get_live_signalled rc _ (double.finite (-1) 0) [] a [b] rfl rfl rfl]
  refine ⟨rfl, rfl, rfl, ?_⟩
  rw [get_live_unsignalled rc _ (double.finite (-1) 0) rfl rfl (by decide)]

/-- C3 at payloads "r1" and "r2". -/
theorem get_waits_although_chunk_buffered_witness :
    (((((response_impl_t.new "u" ⟨"s", "h"⟩).add_chunk ⟨1, 2⟩ "r1" ⟨1, ""⟩).add_chunk ⟨1, 2⟩
        "r2" ⟨1, ""⟩).get ⟨1, 2⟩ (double.finite (-1) 0) []).2.get ⟨1, 2⟩
          (double.finite (-1) 0) []).1 = get_result.blocked :=
  (get_waits_although_chunk_buffered ⟨1, 2⟩ "u" ⟨"s", "h"⟩ "r1" "r2" ⟨1, ""⟩ ⟨1, ""⟩
    (by decide) rfl rfl).2.2.2

/-- C4. Clean streaming: after `n` payload chunks and then a choke have been
delivered to a fresh receiver, the next `n` calls of `get` return true with
exactly those payloads in delivery order, and the call after them and every
later call return false; no call throws.  Time-outs are arbitrary. -/
theorem clean_streaming (rc : response_code) (uuid : String) (path : message_path_t)
    (chunks : List (chunk_data × chunk_info)) (cdata : chunk_data) (cinfo : chunk_info)
    (calls later : List (double × List (chunk_data × chunk_info)))
    (hne : rc.message_chunk ≠ rc.message_choke)
    (hk : ∀ x ∈ chunks, x.2.code = rc.message_chunk)
    (hc : cinfo.code = rc.message_choke)
    (hlen : calls.length = chunks.length) :
    ((((response_impl_t.new uuid path).deliver rc chunks).add_chunk rc cdata cinfo).get_seq rc
        (calls ++ later)).1 =
      chunks.map (fun x => get_result.returned_true x.1) ++
        List.replicate later.length get_result.returned_false := by
  have hd := deliver_chunks rc hne chunks hk (response_impl_t.new uuid path) rfl
  have hlive2 : ((response_impl_t.new uuid path).deliver rc chunks).m_message_finished = false := by
    rw [hd]; rfl
  have hq2 : ((response_impl_t.new uuid path).deliver rc chunks).m_chunks = chunks.map Prod.fst := by
    rw [hd]; simp [response_impl_t.new]
  have he2 : ((response_impl_t.new uuid path).deliver rc chunks).m_caught_error = false := by
    rw [hd]; rfl
  rw [add_chunk_choke rc _ cdata cinfo hlive2 hc]
  generalize (response_impl_t.new uuid path).deliver rc chunks = r1 at hq2 he2
  rw [get_seq_append]
  rw [get_seq_drain rc (chunks.map Prod.fst)
    { r1 with m_message_finished := true, m_response_finished := true } calls rfl hq2
    (by simpa using hlen)]
  simp only []
  rw [get_seq_finished_clean rc later
    { r1 with m_chunks := [], m_message_finished := true, m_response_finished := true }
    rfl rfl he2]
  simp [List.map_map, Function.comp_def]

/-- C4 at scenario S1: chunk "r1", then choke. -/
theorem clean_streaming_witness :
    ((((response_impl_t.new "u" ⟨"s", "h"⟩).deliver ⟨1, 2⟩ [("r1", ⟨1, ""⟩)]).add_chunk ⟨1, 2⟩
        "" ⟨2, ""⟩).get_seq ⟨1, 2⟩
          ([(double.finite (-1) 0, [])] ++
            [(double.finite (-1) 0, []), (double.finite (-1) 0, [])])).1 =
      [("r1", (⟨1, ""⟩ : chunk_info))].map (fun x => get_result.returned_true x.1) ++
        List.replicate 2 get_result.returned_false :=
  clean_streaming ⟨1, 2⟩ "u" ⟨"s", "h"⟩ [("r1", ⟨1, ""⟩)] "" ⟨2, ""⟩ [(double.finite (-1) 0, [])]
    [(double.finite (-1) 0, []), (double.finite (-1) 0, [])] (by decide) (by decide) rfl rfl

/-- C6. Submission routing: `send_message` returns a receiver with the
message's uuid and path, and the registry holds that receiver under the
message's uuid.  If the handle map has the message's handle name, the message
is appended to that handle's cache, no other handle changes and the unhandled
store is unchanged; otherwise the handle map is unchanged, the message is
pushed to the back of the unhandled queue of that name (a queue is created if
there was none) and the queues of other names are unchanged. -/
theorem send_message_routing (s : service_t) (message : message_iface) :
    (s.send_message message).1.m_uuid = message.uuid ∧
      (s.send_message message).1.m_path = message.path ∧
      map_find (s.send_message message).2.m_responses message.uuid =
        some { obj := (s.send_message message).1, use_count := 2 } ∧
      (match map_find s.m_handles message.path.handle_name with
        | some handle =>
          map_find (s.send_message message).2.m_handles message.path.handle_name =
              some (handle.enqueue_message message) ∧
            (handle.enqueue_message message).m_message_cache.m_messages =
              handle.m_message_cache.m_messages ++ [message] ∧
            (∀ name : String, name ≠ message.path.handle_name →
              map_find (s.send_message message).2.m_handles name = map_find s.m_handles name) ∧
            (s.send_message message).2.m_unhandled_messages = s.m_unhandled_messages
        | none =>
          (s.send_message message).2.m_handles = s.m_handles ∧
            map_find (s.send_message message).2.m_unhandled_messages message.path.handle_name =
              some (s.unhandled_queue message.path.handle_name ++ [message]) ∧
            (∀ name : String, name ≠ message.path.handle_name →
              map_find (s.send_message message).2.m_unhandled_messages name =
                map_find s.m_unhandled_messages name)) := by
  refine ⟨?_, ?_, ?_, ?_⟩
  · cases h : map_find s.m_handles message.path.handle_name with
    | none => rw [send_message_absent s message h]; rfl
    | some handle => rw [send_message_present s message handle h]; rfl
  · cases h : map_find s.m_handles message.path.handle_name with
    | none => rw [send_message_absent s message h]; rfl
    | some handle => rw [send_message_present s message handle h]; rfl
  · rw [send_message_responses, map_find_assign_same]
    cases h : map_find s.m_handles message.path.handle_name with
    | none => rw [send_message_absent s message h]
    | some handle => rw [send_message_present s message handle h]
  · cases h : map_find s.m_handles message.path.handle_name with
    | none =>
      simp only []
      rw [send_message_absent s message h]
      refine ⟨?_, ?_, ?_⟩
      · rw [enque_to_unhandled_handles]
      · rw [enque_to_unhandled_find_same]; rfl
      · intro name hn
        rw [enque_to_unhandled_find_other _ _ _ hn]
    | some handle =>
      simp only []
      rw [send_message_present s message handle h]
      refine ⟨?_, rfl, ?_, rfl⟩
      · simp only []
        rw [map_find_modify_same, h]; rfl
      · intro name hn
        simp only []
        rw [map_find_modify_other _ _ _ _ hn]

/-- C6 on a fresh service and a message for handle "k": the registry holds
the returned receiver under "u1". -/
theorem send_message_routing_witness :
    map_find ((service_t.new ⟨"s", "app"⟩ 0).send_message
        ⟨"u1", ⟨"s", "k"⟩, "p", false, false, none⟩).2.m_responses "u1" =
      some { obj := ((service_t.new ⟨"s", "app"⟩ 0).send_message
        ⟨"u1", ⟨"s", "k"⟩, "p", false, false, none⟩).1, use_count := 2 } :=
  (send_message_routing (service_t.new ⟨"s", "app"⟩ 0)
    ⟨"u1", ⟨"s", "k"⟩, "p", false, false, none⟩).2.2.1

/-- C7. FIFO across handle creation: after messages `M1..Mn`, all for a
handle name absent from the handle map, were submitted with `send_message`,
`create_handle` for that name stores a new handle whose message queue is the
unhandled queue the name had before the submissions followed by `M1..Mn` in
submission order, hence exactly `M1..Mn` when no message was waiting before.
Afterwards the unhandled store has no queue for the name, a second
`get_and_remove_unhandled_queue` returns an empty queue, and the queues of
the other names are unchanged. -/
theorem fifo_across_handle_creation (s : service_t) (info : handle_info_t)
    (endpoints : List cocaine_endpoint_t) (messages : List message_iface)
    (habsent : map_find s.m_handles info.name = none)
    (hfor : ∀ m ∈ messages, m.path.handle_name = info.name) :
    map_find ((s.send_messages messages).create_handle info endpoints).m_handles info.name =
        some { m_info := info, m_endpoints := endpoints, m_is_running := true,
               m_message_cache := { m_messages := s.unhandled_queue info.name ++ messages } } ∧
      (s.unhandled_queue info.name = [] →
        (map_find ((s.send_messages messages).create_handle info endpoints).m_handles
          info.name).map (fun handle => handle.m_message_cache.m_messages) = some messages) ∧
      map_find ((s.send_messages messages).create_handle info endpoints).m_unhandled_messages
        info.name = none ∧
      (((s.send_messages messages).create_handle info endpoints).get_and_remove_unhandled_queue
        info.name).1 = [] ∧
      ∀ other : String, other ≠ info.name →
        map_find ((s.send_messages messages).create_handle info endpoints).m_unhandled_messages
          other = map_find (s.send_messages messages).m_unhandled_messages other := by
  obtain ⟨_, hq, _⟩ := send_messages_absent info.name messages hfor s habsent
  have hsame := create_handle_find_same (s.send_messages messages) info endpoints
  rw [hq] at hsame
  have hnone : map_find
      ((s.send_messages messages).create_handle info endpoints).m_unhandled_messages
      info.name = none := by
    rw [create_handle_unhandled]
    exact get_and_remove_unhandled_queue_find_same _ _
  refine ⟨hsame, ?_, hnone, ?_, ?_⟩
  · intro hempty
    rw [hsame, hempty]
    rfl
  · rw [get_and_remove_unhandled_queue_fst]
    unfold service_t.unhandled_queue
    rw [hnone]
    rfl
  · intro other hne
    rw [create_handle_unhandled]
    exact get_and_remove_unhandled_queue_find_other _ _ _ hne

/-- C7 at scenario S3: M1, M2, M3 for the unknown handle "h" on a fresh
service, then the handle is created. -/
theorem fifo_across_handle_creation_witness :
    (map_find (((service_t.new ⟨"s", "app"⟩ 0).send_messages
        [⟨"u1", ⟨"s", "h"⟩, "p1", false, false, none⟩,
         ⟨"u2", ⟨"s", "h"⟩, "p2", false, false, none⟩,
         ⟨"u3", ⟨"s", "h"⟩, "p3", false, false, none⟩]).create_handle
        ⟨"h", "app", "s"⟩ ["tcp://10.0.0.1:4000"]).m_handles
      (handle_info_t.mk "h" "app" "s").name).map
        (fun handle => handle.m_message_cache.m_messages) =
      some [⟨"u1", ⟨"s", "h"⟩, "p1", false, false, none⟩,
            ⟨"u2", ⟨"s", "h"⟩, "p2", false, false, none⟩,
            ⟨"u3", ⟨"s", "h"⟩, "p3", false, false, none⟩] :=
  (fifo_across_handle_creation (service_t.new ⟨"s", "app"⟩ 0) ⟨"h", "app", "s"⟩
    ["tcp://10.0.0.1:4000"]
    [⟨"u1", ⟨"s", "h"⟩, "p1", false, false, none⟩,
     ⟨"u2", ⟨"s", "h"⟩, "p2", false, false, none⟩,
     ⟨"u3", ⟨"s", "h"⟩, "p3", false, false, none⟩] rfl (by decide)).2.1 rfl

/-- C8. Drain-on-destroy completeness: for a handle present in the handle
map, `destroy_handle` removes the name from the handle map.  With an empty
cache the unhandled queue of the name is left as it was; otherwise it becomes
its previous content followed by the cached messages in cache order, each
once, with `sent` and `ack_received` cleared on every message of the queue.
So when the previous content is unsent and unacknowledged (as it is whenever
it is empty) the queue is the previous content followed by the cached
messages with both flags cleared, and the other queues are unchanged. -/
theorem drain_on_destroy (s : service_t) (info : handle_info_t) (handle : handle_t)
    (hfind : map_find s.m_handles info.name = some handle) :
    map_find (s.destroy_handle info).m_handles info.name = none ∧
      (s.destroy_handle info).unhandled_queue info.name =
        (if handle.m_message_cache.m_messages = [] then s.unhandled_queue info.name
         else (s.unhandled_queue info.name ++ handle.m_message_cache.m_messages).map
           clear_metadata) ∧
      ((∀ m ∈ s.unhandled_queue info.name, m.m_is_sent = false ∧ m.m_ack_received = false) →
        (s.destroy_handle info).unhandled_queue info.name =
          s.unhandled_queue info.name ++
            handle.m_message_cache.m_messages.map clear_metadata) ∧
      (∀ m ∈ ((s.destroy_handle info).unhandled_queue info.name).drop
          (s.unhandled_queue info.name).length,
        m.m_is_sent = false ∧ m.m_ack_received = false) ∧
      ((s.destroy_handle info).unhandled_queue info.name).length =
        (s.unhandled_queue info.name).length + handle.m_message_cache.m_messages.length ∧
      ∀ other : String, other ≠ info.name →
        map_find (s.destroy_handle info).m_unhandled_messages other =
          map_find s.m_unhandled_messages other := by
  have hd := destroy_handle_present s info handle hfind
  have hq := destroy_handle_unhandled_queue s info handle hfind
  refine ⟨?_, hq, ?_, ?_, ?_, ?_⟩
  · rw [hd]
    exact map_find_erase_same _ _
  · intro hclear
    rw [hq]
    split_ifs with he
    · rw [he]; simp
    · rw [List.map_append, map_clear_metadata_of_clear _ hclear]
  · rw [hq]
    split_ifs with he
    · simp
    · intro m hm
      rw [List.map_append, List.drop_append_eq_append_drop] at hm
      have hdrop : List.drop (s.unhandled_queue info.name).length
          ((s.unhandled_queue info.name).map clear_metadata) = [] := by simp
      rw [hdrop] at hm
      simp only [List.length_map, Nat.sub_self, List.drop_zero, List.nil_append] at hm
      obtain ⟨m0, _, rfl⟩ := List.mem_map.mp hm
      exact clear_metadata_flags m0
  · rw [hq]
    split_ifs with he
    · rw [he]; simp
    · simp
  · intro other hne
    rw [hd]
    exact append_to_unhandled_find_other _ _ _ _ hne

/-- C8 at the first half of scenario S5: M is submitted to the live handle
"h" and marked sent by the transport, then the handle is destroyed. -/
theorem drain_on_destroy_witness :
    (((((service_t.new ⟨"s", "app"⟩ 0).create_handle ⟨"h", "app", "s"⟩ ["e"]).send_message
        ⟨"u1", ⟨"s", "h"⟩, "p", false, false, none⟩).2.transport_step "h"
        [⟨"u1", ⟨"s", "h"⟩, "p", true, false, none⟩]).destroy_handle
        ⟨"h", "app", "s"⟩).unhandled_queue (handle_info_t.mk "h" "app" "s").name =
      service_t.unhandled_queue
        ((((service_t.new ⟨"s", "app"⟩ 0).create_handle ⟨"h", "app", "s"⟩ ["e"]).send_message
          ⟨"u1", ⟨"s", "h"⟩, "p", false, false, none⟩).2.transport_step "h"
          [⟨"u1", ⟨"s", "h"⟩, "p", true, false, none⟩])
        (handle_info_t.mk "h" "app" "s").name ++
      (handle_t.mk ⟨"h", "app", "s"⟩ ["e"] true
        ⟨[⟨"u1", ⟨"s", "h"⟩, "p", true, false, none⟩]⟩).m_message_cache.m_messages.map
          clear_metadata :=
  (drain_on_destroy
    ((((service_t.new ⟨"s", "app"⟩ 0).create_handle ⟨"h", "app", "s"⟩ ["e"]).send_message
      ⟨"u1", ⟨"s", "h"⟩, "p", false, false, none⟩).2.transport_step "h"
      [⟨"u1", ⟨"s", "h"⟩, "p", true, false, none⟩])
    ⟨"h", "app", "s"⟩
    (handle_t.mk ⟨"h", "app", "s"⟩ ["e"] true ⟨[⟨"u1", ⟨"s", "h"⟩, "p", true, false, none⟩]⟩)
    (by decide)).2.2.1 (by decide)

/-- C9. Destroy-then-create round trip: in a reachable state with a handle
`h` whose cache holds the messages `Q`, `destroy_handle(h)` followed by
`create_handle(h)` yields a handle map that contains `h` again; the new
handle's queue is `Q` in the same order with `sent` and `ack_received`
cleared on every message, and the unhandled store has no queue for `h`. -/
theorem destroy_then_create_round_trip (ext : externals) (s : service_t)
    (info : handle_info_t) (endpoints : List cocaine_endpoint_t) (handle : handle_t)
    (hreach : service_t.Reachable ext s)
    (hfind : map_find s.m_handles info.name = some handle) :
    map_find ((s.destroy_handle info).create_handle info endpoints).m_handles info.name =
        some { m_info := info, m_endpoints := endpoints, m_is_running := true,
               m_message_cache :=
                 { m_messages := handle.m_message_cache.m_messages.map clear_metadata } } ∧
      (∀ m ∈ handle.m_message_cache.m_messages.map clear_metadata,
        m.m_is_sent = false ∧ m.m_ack_received = false) ∧
      map_find ((s.destroy_handle info).create_handle info endpoints).m_unhandled_messages
        info.name = none := by
  have hno : map_find s.m_unhandled_messages info.name = none :=
    reachable_no_overlap ext s hreach info.name (by rw [hfind]; rfl)
  have hprev : s.unhandled_queue info.name = [] := by
    unfold service_t.unhandled_queue
    rw [hno]
    rfl
  have hq := destroy_handle_unhandled_queue s info handle hfind
  rw [hprev] at hq
  have hq2 : (s.destroy_handle info).unhandled_queue info.name =
      handle.m_message_cache.m_messages.map clear_metadata := by
    rw [hq]
    split_ifs with he
    · rw [he]; rfl
    · rfl
  refine ⟨?_, ?_, ?_⟩
  · rw [create_handle_find_same, hq2]
  · intro m hm
    obtain ⟨m0, _, rfl⟩ := List.mem_map.mp hm
    exact clear_metadata_flags m0
  · rw [create_handle_unhandled]
    exact get_and_remove_unhandled_queue_find_same _ _

/-- C9 at scenario S5: M is submitted to the live handle "h" and marked sent,
the handle is removed and introduced again. -/
theorem destroy_then_create_round_trip_witness :
    map_find (((((((service_t.new ⟨"s", "app"⟩ 0).create_handle ⟨"h", "app", "s"⟩
        ["e"]).send_message ⟨"u1", ⟨"s", "h"⟩, "p", false, false, none⟩).2.transport_step "h"
        [⟨"u1", ⟨"s", "h"⟩, "p", true, false, none⟩]).destroy_handle
        ⟨"h", "app", "s"⟩).create_handle ⟨"h", "app", "s"⟩ ["e2"]).m_handles)
      (handle_info_t.mk "h" "app" "s").name =
    some (handle_t.mk ⟨"h", "app", "s"⟩ ["e2"] true
      ⟨(handle_t.mk ⟨"h", "app", "s"⟩ ["e"] true
        ⟨[⟨"u1", ⟨"s", "h"⟩, "p", true, false, none⟩]⟩).m_message_cache.m_messages.map
          clear_metadata⟩) :=
  (destroy_then_create_round_trip ⟨⟨1, 2⟩, 3, 4, fun c => (c.data, ⟨c.error_code, c.error_message⟩)⟩
    ((((service_t.new ⟨"s", "app"⟩ 0).create_handle ⟨"h", "app", "s"⟩ ["e"]).send_message
      ⟨"u1", ⟨"s", "h"⟩, "p", false, false, none⟩).2.transport_step "h"
      [⟨"u1", ⟨"s", "h"⟩, "p", true, false, none⟩])
    ⟨"h", "app", "s"⟩ ["e2"]
    (handle_t.mk ⟨"h", "app", "s"⟩ ["e"] true ⟨[⟨"u1", ⟨"s", "h"⟩, "p", true, false, none⟩]⟩)
    (service_t.Reachable.transport_step _ _
      (service_t.Reachable.send_message _
        (service_t.Reachable.create_handle _ _ (service_t.Reachable.init _ _))))
    (by decide)).1

/-- C10. Chunk dispatch: let the pruned registry be the registry itself, or
the registry without the entries held by the registry alone when the cleanup
runs.  If `response.uuid` has no entry, or its entry is held by the registry
alone, the registry after `enqueue_responce` is the pruned registry: no
receiver is changed.  Otherwise the registry is the pruned registry with
`add_chunk(response)` applied to the receiver registered under
`response.uuid`, and every other entry is unchanged.  Handles and unhandled
store are untouched. -/
theorem chunk_dispatch (ext : externals) (s : service_t) (response : response_chunk_t)
    (now : Nat) (hkeys : (s.m_responses.map Prod.fst).Nodup) :
    (∀ e ∈ s.pruned_responses now, e ∈ s.m_responses) ∧
      (s.enqueue_responce ext response now).m_handles = s.m_handles ∧
      (s.enqueue_responce ext response now).m_unhandled_messages = s.m_unhandled_messages ∧
      (match map_find s.m_responses response.uuid with
        | none => (s.enqueue_responce ext response now).m_responses = s.pruned_responses now
        | some p =>
          if p.unique = true then
            (s.enqueue_responce ext response now).m_responses = s.pruned_responses now
          else
            (s.enqueue_responce ext response now).m_responses =
                map_modify (s.pruned_responses now) response.uuid
                  (fun q => { q with obj := response_t.add_chunk ext q.obj response }) ∧
              map_find (s.enqueue_responce ext response now).m_responses response.uuid =
                some { p with obj := response_t.add_chunk ext p.obj response } ∧
              ∀ other : String, other ≠ response.uuid →
                map_find (s.enqueue_responce ext response now).m_responses other =
                  map_find (s.pruned_responses now) other) := by
  have hpr : ∀ r : Option response_ptr, map_find (s.pruned_responses now) response.uuid = r →
      (s.enqueue_responce ext response now).m_responses =
        (match r with
          | none => s.pruned_responses now
          | some p =>
            if p.unique = true then s.pruned_responses now
            else map_modify (s.pruned_responses now) response.uuid
              (fun q => { q with obj := response_t.add_chunk ext q.obj response })) := by
    intro r hr
    rw [enqueue_responce_responses, hr]
  refine ⟨?_, enqueue_responce_handles ext s response now,
    enqueue_responce_unhandled ext s response now, ?_⟩
  · intro e he
    unfold service_t.pruned_responses at he
    split_ifs at he
    · exact remove_unique_subset _ e he
    · exact he
  · cases hf : map_find s.m_responses response.uuid with
    | none =>
      simp only []
      have : map_find (s.pruned_responses now) response.uuid = none := by
        unfold service_t.pruned_responses
        split_ifs
        · exact map_find_remove_unique_none _ _ hf
        · exact hf
      rw [hpr none this]
    | some p =>
      simp only []
      split_ifs with hu
      · by_cases hc : now - s.m_responces_cleanup_timer > 1000
        · have : map_find (s.pruned_responses now) response.uuid = none := by
            unfold service_t.pruned_responses
            rw [if_pos hc]
            exact map_find_remove_unique_drop _ _ p hf hu hkeys
          rw [hpr none this]
        · have : map_find (s.pruned_responses now) response.uuid = some p := by
            unfold service_t.pruned_responses
            rw [if_neg hc]
            exact hf
          rw [hpr (some p) this]
          simp [hu]
      · have hu' : p.unique = false := by simpa using hu
        have : map_find (s.pruned_responses now) response.uuid = some p := by
          unfold service_t.pruned_responses
          split_ifs
          · exact map_find_remove_unique_keep _ _ p hf hu'
          · exact hf
        rw [hpr (some p) this]
        simp only [hu', Bool.false_eq_true, if_false]
        refine ⟨trivial, ?_, ?_⟩
        · rw [map_find_modify_same, this]; rfl
        · intro other hne
          rw [map_find_modify_other _ _ _ _ hne]

/-- C10 on the registry after one submission "u1" whose receiver the
consumer holds: a chunk for "u1" is added to that receiver. -/
theorem chunk_dispatch_witness :
    map_find (service_t.enqueue_responce
        ⟨⟨1, 2⟩, 3, 4, fun c => (c.data, ⟨c.rpc_code, c.error_message⟩)⟩
        ((service_t.new ⟨"s", "app"⟩ 0).send_message
          ⟨"u1", ⟨"s", "h"⟩, "p", false, false, none⟩).2
        ⟨"u1", 1, 0, "", "r1"⟩ 5).m_responses "u1" =
      some { obj := { response_impl_t.new "u1" ⟨"s", "h"⟩ with
                      m_chunks := ["r1"], m_response_finished := true },
             use_count := 2 } := by
  have h := (chunk_dispatch ⟨⟨1, 2⟩, 3, 4, fun c => (c.data, ⟨c.rpc_code, c.error_message⟩)⟩
    ((service_t.new ⟨"s", "app"⟩ 0).send_message
      ⟨"u1", ⟨"s", "h"⟩, "p", false, false, none⟩).2
    ⟨"u1", 1, 0, "", "r1"⟩ 5 (by decide)).2.2.2
  exact h.2.1

/-- C11. Registry pruning: on an `enqueue_responce` call whose cleanup runs
(more than one second on the cleanup clock), the registry afterwards holds
exactly the previous entries that some consumer still references, in the same
order and with the same reference counts, and no entry held by the registry
alone.  The receivers are unchanged, apart from the delivery of the chunk to
the receiver registered under its uuid.  In particular, when the entry of the
chunk's uuid is held by the registry alone, the chunk is discarded and the
entry is evicted in this call. -/
theorem registry_pruning (ext : externals) (s : service_t) (response : response_chunk_t)
    (now : Nat) (hprune : now - s.m_responces_cleanup_timer > 1000)
    (hkeys : (s.m_responses.map Prod.fst).Nodup) :
    (s.enqueue_responce ext response now).m_responses.map (fun e => (e.1, e.2.use_count)) =
        (s.m_responses.filter (fun e => !e.2.unique)).map (fun e => (e.1, e.2.use_count)) ∧
      (∀ e ∈ (s.enqueue_responce ext response now).m_responses, e.2.unique = false) ∧
      (s.enqueue_responce ext response now).m_responses =
        map_modify (s.m_responses.filter (fun e => !e.2.unique)) response.uuid
          (fun q => { q with obj := response_t.add_chunk ext q.obj response }) ∧
      (∀ uuid : String, uuid ≠ response.uuid →
        map_find (s.enqueue_responce ext response now).m_responses uuid =
          (map_find s.m_responses uuid).filter (fun p => !p.unique)) ∧
      (∀ p : response_ptr, map_find s.m_responses response.uuid = some p → p.unique = true →
        (s.enqueue_responce ext response now).m_responses =
            s.m_responses.filter (fun e => !e.2.unique) ∧
          map_find (s.enqueue_responce ext response now).m_responses response.uuid = none) := by
  have hR := enqueue_responce_responses_pruning ext s response now hprune
  have hf : s.m_responses.filter (fun e => !e.2.unique) = remove_unique s.m_responses := rfl
  rw [hf]
  refine ⟨?_, ?_, hR, ?_, ?_⟩
  · rw [hR]
    exact map_modify_keys_counts _ _ _ (fun _ => rfl)
  · intro e he
    have h1 : (e.1, e.2.use_count) ∈
        (s.enqueue_responce ext response now).m_responses.map (fun e => (e.1, e.2.use_count)) :=
      List.mem_map.mpr ⟨e, he, rfl⟩
    rw [hR, map_modify_keys_counts (remove_unique s.m_responses) response.uuid
      (fun q => { q with obj := response_t.add_chunk ext q.obj response }) (fun _ => rfl)] at h1
    obtain ⟨e0, he0, heq⟩ := List.mem_map.mp h1
    have hu := (List.mem_filter.mp he0).2
    simp only [Prod.mk.injEq] at heq
    unfold response_ptr.unique at hu ⊢
    rw [← heq.2]
    simpa using hu
  · intro uuid hne
    rw [hR, map_find_modify_other _ _ _ _ hne, map_find_remove_unique _ _ hkeys]
  · intro p hp hu
    have hnone := map_find_remove_unique_drop _ _ p hp hu hkeys
    rw [hR, map_modify_absent _ _ _ hnone]
    exact ⟨rfl, hnone⟩
/-- C11 at scenario S6: M is submitted, the consumer drops its receiver, and a
chunk for M arrives two seconds later. -/
theorem registry_pruning_witness :
    map_find (service_t.enqueue_responce
        ⟨⟨1, 2⟩, 3, 4, fun c => (c.data, ⟨c.rpc_code, c.error_message⟩)⟩
        (((service_t.new ⟨"s", "app"⟩ 0).send_message
          ⟨"u1", ⟨"s", "h"⟩, "p", false, false, none⟩).2.consumer_release "u1")
        ⟨"u1", 1, 0, "", "r1"⟩ 2000).m_responses
      (response_chunk_t.mk "u1" 1 0 "" "r1").uuid = none :=
  ((registry_pruning ⟨⟨1, 2⟩, 3, 4, fun c => (c.data, ⟨c.rpc_code, c.error_message⟩)⟩
    (((service_t.new ⟨"s", "app"⟩ 0).send_message
      ⟨"u1", ⟨"s", "h"⟩, "p", false, false, none⟩).2.consumer_release "u1")
    ⟨"u1", 1, 0, "", "r1"⟩ 2000 (by decide) (by decide)).2.2.2.2
    ⟨response_impl_t.new "u1" ⟨"s", "h"⟩, 1⟩ (by decide) (by decide)).2

/-- C12. Deadline sweep partition: `check_for_deadlined_messages` at time
`now` leaves every queue of the unhandled store under its name, equal to its
previous content without the messages that are both expired and deadlined
(order kept), and it calls `enqueue_responce` once per removed message, in the
order of the queues, with a chunk that carries the message's uuid, the rpc
code `SERVER_RPC_MESSAGE_ERROR`, the error code `deadline_error` and the
error message "unhandled message expired".  Afterwards no queue holds a
message that is expired and deadlined; the handle map is unchanged. -/
theorem deadline_sweep_partition (ext : externals) (s : service_t) (now : Nat) :
    s.check_for_deadlined_messages ext now =
        { s.dispatch ext now
            ((expired_messages now s.m_unhandled_messages).map (deadline_chunk ext)) with
          m_unhandled_messages := s.m_unhandled_messages.map
            (fun e => (e.1, e.2.filter (fun m => !(m.is_expired now && m.is_deadlined)))) } ∧
      (∀ name : String,
        map_find (s.check_for_deadlined_messages ext now).m_unhandled_messages name =
          (map_find s.m_unhandled_messages name).map
            (fun queue => queue.filter (fun m => !(m.is_expired now && m.is_deadlined)))) ∧
      expired_messages now s.m_unhandled_messages =
        s.m_unhandled_messages.flatMap
          (fun e => e.2.filter (fun m => m.is_expired now && m.is_deadlined)) ∧
      (∀ m : message_iface,
        deadline_chunk ext m =
          { uuid := m.uuid, rpc_code := ext.SERVER_RPC_MESSAGE_ERROR,
            error_code := ext.deadline_error, error_message := "unhandled message expired",
            data := "" }) ∧
      (∀ e ∈ (s.check_for_deadlined_messages ext now).m_unhandled_messages,
        ∀ m ∈ e.2, (m.is_expired now && m.is_deadlined) = false) ∧
      (s.check_for_deadlined_messages ext now).m_handles = s.m_handles := by
  refine ⟨check_for_deadlined_messages_eq ext s now, ?_, rfl, fun _ => rfl,
    check_for_deadlined_messages_none_left ext s now, ?_⟩
  · intro name
    rw [check_for_deadlined_messages_eq]
    exact map_find_map_values _ _ name
  · rw [check_for_deadlined_messages_eq]
    exact dispatch_handles ext now _ s

/-- C12 at the store of scenario S4: M with deadline 50 waits for "h"; the
sweep at time 100 empties the queue of "h". -/
theorem deadline_sweep_partition_witness :
    map_find (service_t.check_for_deadlined_messages
        ⟨⟨1, 2⟩, 3, 4, fun c => (c.data, ⟨c.error_code, c.error_message⟩)⟩
        ((service_t.new ⟨"s", "app"⟩ 0).send_message
          ⟨"u1", ⟨"s", "h"⟩, "p", false, false, some 50⟩).2 100).m_unhandled_messages "h" =
      some [] := by
  rw [(deadline_sweep_partition
    ⟨⟨1, 2⟩, 3, 4, fun c => (c.data, ⟨c.error_code, c.error_message⟩)⟩
    ((service_t.new ⟨"s", "app"⟩ 0).send_message
      ⟨"u1", ⟨"s", "h"⟩, "p", false, false, some 50⟩).2 100).2.1 "h"]
  decide

/-- C13. Sweeper idempotence: when no message of the unhandled store is both
expired and deadlined at time `now`, `check_for_deadlined_messages` dispatches
no chunk and returns the service unchanged (unhandled store, registry and
receivers included); hence a second sweep at the same instant after any sweep
changes nothing. -/
theorem sweeper_idempotent (ext : externals) (s : service_t) (now : Nat) :
    ((∀ e ∈ s.m_unhandled_messages, ∀ m ∈ e.2,
        (m.is_expired now && m.is_deadlined) = false) →
      expired_messages now s.m_unhandled_messages = [] ∧
        s.check_for_deadlined_messages ext now = s) ∧
      (s.check_for_deadlined_messages ext now).check_for_deadlined_messages ext now =
        s.check_for_deadlined_messages ext now := by
  refine ⟨fun h => ⟨expired_messages_nil now _ h,
    check_for_deadlined_messages_nothing_expired ext s now h⟩, ?_⟩
  exact check_for_deadlined_messages_nothing_expired ext _ now
    (check_for_deadlined_messages_none_left ext s now)

/-- C13 on a store holding one message without a deadline: the sweep changes
nothing. -/
theorem sweeper_idempotent_witness :
    service_t.check_for_deadlined_messages
        ⟨⟨1, 2⟩, 3, 4, fun c => (c.data, ⟨c.error_code, c.error_message⟩)⟩
        ((service_t.new ⟨"s", "app"⟩ 0).send_message
          ⟨"u1", ⟨"s", "h"⟩, "p", false, false, none⟩).2 100 =
      ((service_t.new ⟨"s", "app"⟩ 0).send_message
        ⟨"u1", ⟨"s", "h"⟩, "p", false, false, none⟩).2 :=
  ((sweeper_idempotent ⟨⟨1, 2⟩, 3, 4, fun c => (c.data, ⟨c.error_code, c.error_message⟩)⟩
    ((service_t.new ⟨"s", "app"⟩ 0).send_message
      ⟨"u1", ⟨"s", "h"⟩, "p", false, false, none⟩).2 100).1 (by decide)).2

/-- C14. Deadline error reaches the consumer: let M have a deadline and be
submitted by `send_message` for a handle name absent from the handle map, the
returned receiver being held by the consumer.  After one
`check_for_deadlined_messages` run later than M's deadline, the registry still
holds that receiver under M's uuid, the next `get` on it (any time-out) throws
`deadline_error` with the message "unhandled message expired", and the `get`
after that returns false. -/
theorem deadline_error_reaches_consumer (ext : externals) (s : service_t)
    (message : message_iface) (deadline now : Nat) (t1 t2 : double)
    (a1 a2 : List (chunk_data × chunk_info))
    (hext : ext.forwards_errors)
    (habsent : map_find s.m_handles message.path.handle_name = none)
    (hd : message.m_deadline = some deadline) (hnow : deadline < now) :
    ∃ p : response_ptr,
      map_find ((s.send_message message).2.check_for_deadlined_messages ext now).m_responses
          message.uuid = some p ∧
        p.use_count = 2 ∧
        p.obj.m_uuid = (s.send_message message).1.m_uuid ∧
        (p.obj.get ext.codes t1 a1).1 =
          get_result.threw ext.deadline_error "unhandled message expired" ∧
        ((p.obj.get ext.codes t1 a1).2.get ext.codes t2 a2).1 = get_result.returned_false := by
  have hs := send_message_absent s message habsent
  have hq : map_find (s.send_message message).2.m_unhandled_messages message.path.handle_name =
      some (s.unhandled_queue message.path.handle_name ++ [message]) := by
    rw [hs]
    exact enque_to_unhandled_find_same _ message
  have hp : map_find (s.send_message message).2.m_responses message.uuid =
      some { obj := response_impl_t.new message.uuid message.path, use_count := 2 } := by
    rw [send_message_responses, map_find_assign_same]
  have he : (message.is_expired now && message.is_deadlined) = true := by
    simp [message_iface.is_expired, message_iface.is_deadlined, hd, hnow]
  have hfind := check_for_deadlined_messages_find_held ext hext (s.send_message message).2 now
    message.path.handle_name _ message _ hq (by simp) he hp rfl rfl
  refine ⟨_, hfind, rfl, ?_, ?_, ?_⟩
  · rw [hs]
  · rw [get_finished_error ext.codes _ t1 a1 rfl rfl rfl]
  · rw [get_finished_error ext.codes _ t1 a1 rfl rfl rfl]
    simp only []
    rw [get_when_finished_clean ext.codes _ t2 a2 rfl rfl rfl]

/-- C14 at scenario S4: M with deadline 50 for the unknown handle "h", swept
at time 100. -/
theorem deadline_error_reaches_consumer_witness :
    ∃ p : response_ptr,
      map_find (((service_t.new ⟨"s", "app"⟩ 0).send_message
          ⟨"u1", ⟨"s", "h"⟩, "p", false, false, some 50⟩).2.check_for_deadlined_messages
          ⟨⟨1, 2⟩, 3, 4, fun c => (c.data, ⟨c.error_code, c.error_message⟩)⟩ 100).m_responses
          (message_iface.mk "u1" ⟨"s", "h"⟩ "p" false false (some 50)).uuid = some p ∧
        p.use_count = 2 ∧
        p.obj.m_uuid = ((service_t.new ⟨"s", "app"⟩ 0).send_message
          ⟨"u1", ⟨"s", "h"⟩, "p", false, false, some 50⟩).1.m_uuid ∧
        (p.obj.get (response_code.mk 1 2) (double.finite (-1) 0) []).1 =
          get_result.threw 4 "unhandled message expired" ∧
        ((p.obj.get (response_code.mk 1 2) (double.finite (-1) 0) []).2.get (response_code.mk 1 2) (double.finite (-1) 0) []).1 =
          get_result.returned_false :=
  deadline_error_reaches_consumer
    ⟨⟨1, 2⟩, 3, 4, fun c => (c.data, ⟨c.error_code, c.error_message⟩)⟩
    (service_t.new ⟨"s", "app"⟩ 0) ⟨"u1", ⟨"s", "h"⟩, "p", false, false, some 50⟩ 50 100 (double.finite (-1) 0) (double.finite (-1) 0)
    [] [] ⟨fun _ _ => rfl, by decide, by decide⟩ rfl rfl (by decide)

/-- C15. Discovery delta sets: in a reachable state and for a snapshot (a map,
so with distinct names), `get_outstanding_handles` appends to its output list
exactly the infos of the handles whose name is in the handle map and not in
the snapshot, and `get_new_handles` appends exactly one `handle_info_t`, made
of the name and the service's app and name, per name that is in the snapshot
and not in the handle map, each name once.  No reported outstanding name is a
reported new name.  Both calls only read the handle map: their result is the
output list. -/
theorem discovery_delta_sets (ext : externals) (s : service_t)
    (handles_endpoints : List (String × List cocaine_endpoint_t))
    (outstanding_handles new_handles : List handle_info_t)
    (hreach : service_t.Reachable ext s)
    (hsnap : (handles_endpoints.map Prod.fst).Nodup) :
    s.get_outstanding_handles handles_endpoints outstanding_handles =
        outstanding_handles ++
          (s.m_handles.filter (fun e => (map_find handles_endpoints e.1).isNone)).map
            (fun e => e.2.info) ∧
      (∀ (name : String) (handle : handle_t),
        (name, handle) ∈ s.m_handles.filter (fun e => (map_find handles_endpoints e.1).isNone) ↔
          map_find s.m_handles name = some handle ∧ map_find handles_endpoints name = none) ∧
      s.get_new_handles handles_endpoints new_handles =
        new_handles ++
          (handles_endpoints.filter (fun e => (map_find s.m_handles e.1).isNone)).map
            (fun e => { name := e.1, app_name := s.m_info.app,
                        service_name := s.m_info.name }) ∧
      (∀ name : String,
        name ∈ (s.get_new_handles handles_endpoints []).map (fun info => info.name) ↔
          (map_find handles_endpoints name).isSome = true ∧ map_find s.m_handles name = none) ∧
      ((s.get_new_handles handles_endpoints []).map (fun info => info.name)).Nodup ∧
      (∀ a ∈ s.get_outstanding_handles handles_endpoints [],
        ∀ b ∈ s.get_new_handles handles_endpoints [], a.name ≠ b.name) := by
  have hnamed := reachable_handles_named ext s hreach
  have hkeys : (s.m_handles.map Prod.fst).Nodup :=
    keys_sorted_nodup _ (reachable_maps_sorted ext s hreach).1
  refine ⟨get_outstanding_handles_eq s _ _, ?_, get_new_handles_eq s _ _,
    mem_new_names s handles_endpoints, ?_, ?_⟩
  · intro name handle
    rw [List.mem_filter]
    constructor
    · rintro ⟨hm, hf⟩
      refine ⟨map_find_of_mem_nodup _ _ _ hkeys hm, ?_⟩
      cases h : map_find handles_endpoints name with
      | none => rfl
      | some v => simp only [h] at hf; cases hf
    · rintro ⟨hm, hf⟩
      refine ⟨map_find_some_mem _ _ _ hm, ?_⟩
      simp only [hf]
      rfl
  · rw [get_new_handles_eq]
    simp only [List.nil_append, List.map_map]
    have hsub : List.Sublist
        ((handles_endpoints.filter (fun e => (map_find s.m_handles e.1).isNone)).map Prod.fst)
        (handles_endpoints.map Prod.fst) :=
      List.Sublist.map Prod.fst (List.filter_sublist handles_endpoints)
    exact List.Nodup.sublist hsub hsnap
  · intro a ha b hb hab
    have h1 := (mem_outstanding_names s handles_endpoints hnamed a.name).mp
      (List.mem_map.mpr ⟨a, ha, rfl⟩)
    have h2 := (mem_new_names s handles_endpoints a.name).mp
      (List.mem_map.mpr ⟨b, hb, hab.symm⟩)
    rw [h1.2] at h2
    cases h2.1

/-- C15 on a service with the live handle "h" and a snapshot that names only
"k": "h" is outstanding. -/
theorem discovery_delta_sets_witness :
    service_t.get_outstanding_handles
        ((service_t.new ⟨"s", "app"⟩ 0).create_handle ⟨"h", "app", "s"⟩ ["e"])
        [("k", ["e2"])] [] =
      [] ++ (((service_t.new ⟨"s", "app"⟩ 0).create_handle ⟨"h", "app", "s"⟩
        ["e"]).m_handles.filter
          (fun e => (map_find [("k", ["e2"])] e.1).isNone)).map (fun e => e.2.info) :=
  (discovery_delta_sets ⟨⟨1, 2⟩, 3, 4, fun c => (c.data, ⟨c.error_code, c.error_message⟩)⟩
    ((service_t.new ⟨"s", "app"⟩ 0).create_handle ⟨"h", "app", "s"⟩ ["e"])
    [("k", ["e2"])] [] []
    (service_t.Reachable.create_handle _ _ (service_t.Reachable.init _ _)) (by decide)).1

/-- C16. Snapshot convergence: in a reachable state, after `destroy_handle`
was called on every handle `get_outstanding_handles` reports and
`create_handle` on every handle `get_new_handles` reports, a name is in the
handle map exactly when it is in the snapshot, and every handle whose name
was in both is the handle it was. -/
theorem snapshot_convergence (ext : externals) (s : service_t)
    (handles_endpoints : List (String × List cocaine_endpoint_t))
    (hreach : service_t.Reachable ext s) :
    (∀ name : String,
      (map_find ((s.destroy_handles (s.get_outstanding_handles handles_endpoints
          [])).create_handles handles_endpoints
          (s.get_new_handles handles_endpoints [])).m_handles name).isSome =
        (map_find handles_endpoints name).isSome) ∧
      (∀ (name : String) (handle : handle_t), map_find s.m_handles name = some handle →
        (map_find handles_endpoints name).isSome = true →
        map_find ((s.destroy_handles (s.get_outstanding_handles handles_endpoints
          [])).create_handles handles_endpoints
          (s.get_new_handles handles_endpoints [])).m_handles name = some handle) := by
  have hnamed := reachable_handles_named ext s hreach
  have hkept : ∀ name : String,
      name ∉ (s.get_new_handles handles_endpoints []).map (fun info => info.name) →
      name ∉ (s.get_outstanding_handles handles_endpoints []).map (fun info => info.name) →
      map_find ((s.destroy_handles (s.get_outstanding_handles handles_endpoints
          [])).create_handles handles_endpoints
          (s.get_new_handles handles_endpoints [])).m_handles name =
        map_find s.m_handles name := by
    intro name h1 h2
    rw [create_handles_find_other _ _ _ h1, destroy_handles_find, if_neg h2]
  constructor
  · intro name
    by_cases hnew : name ∈ (s.get_new_handles handles_endpoints []).map (fun info => info.name)
    · rw [create_handles_find_isSome _ _ _ hnew,
        ((mem_new_names s handles_endpoints name).mp hnew).1]
    · by_cases hout :
          name ∈ (s.get_outstanding_handles handles_endpoints []).map (fun info => info.name)
      · rw [create_handles_find_other _ _ _ hnew, destroy_handles_find, if_pos hout,
          ((mem_outstanding_names s handles_endpoints hnamed name).mp hout).2]
        rfl
      · rw [hkept name hnew hout]
        rw [mem_new_names] at hnew
        rw [mem_outstanding_names s handles_endpoints hnamed] at hout
        cases h1 : map_find s.m_handles name with
        | none =>
          cases h2 : map_find handles_endpoints name with
          | none => rfl
          | some v => exact absurd ⟨by rw [h2]; rfl, h1⟩ hnew
        | some handle =>
          cases h2 : map_find handles_endpoints name with
          | none => exact absurd ⟨by rw [h1]; rfl, h2⟩ hout
          | some v => rfl
  · intro name handle hfind hsnap
    rw [← hfind]
    apply hkept
    · rw [mem_new_names]
      intro h
      rw [hfind] at h
      cases h.2
    · rw [mem_outstanding_names s handles_endpoints hnamed]
      intro h
      rw [h.2] at hsnap
      cases hsnap

/-- C16 on a service with the live handle "h" and a snapshot that names only
"k": afterwards "k" is in the handle map. -/
theorem snapshot_convergence_witness :
    (map_find ((service_t.destroy_handles
        ((service_t.new ⟨"s", "app"⟩ 0).create_handle ⟨"h", "app", "s"⟩ ["e"])
        (service_t.get_outstanding_handles
          ((service_t.new ⟨"s", "app"⟩ 0).create_handle ⟨"h", "app", "s"⟩ ["e"])
          [("k", ["e2"])] [])).create_handles [("k", ["e2"])]
        (service_t.get_new_handles
          ((service_t.new ⟨"s", "app"⟩ 0).create_handle ⟨"h", "app", "s"⟩ ["e"])
          [("k", ["e2"])] [])).m_handles "k").isSome =
      (map_find [("k", ["e2"])] "k").isSome :=
  (snapshot_convergence ⟨⟨1, 2⟩, 3, 4, fun c => (c.data, ⟨c.error_code, c.error_message⟩)⟩
    ((service_t.new ⟨"s", "app"⟩ 0).create_handle ⟨"h", "app", "s"⟩ ["e"])
    [("k", ["e2"])]
    (service_t.Reachable.create_handle _ _ (service_t.Reachable.init _ _))).1 "k"

/-- C17, counterexample: "u1" is registered and its receiver has the chunk
"r1" buffered; `send_message` for another message with uuid "u1" returns a
receiver all the same, and the registry then holds the new, empty receiver
under "u1" in place of the old one. -/
theorem duplicate_registration_succeeds :
    (map_find (service_t.enqueue_responce
        ⟨⟨1, 2⟩, 3, 4, fun c => (c.data, ⟨c.rpc_code, c.error_message⟩)⟩
        ((service_t.new ⟨"s", "app"⟩ 0).send_message
          ⟨"u1", ⟨"s", "h"⟩, "p", false, false, none⟩).2
        ⟨"u1", 1, 0, "", "r1"⟩ 5).m_responses "u1").map (fun p => p.obj.m_chunks) =
        some ["r1"] ∧
      ((service_t.enqueue_responce
        ⟨⟨1, 2⟩, 3, 4, fun c => (c.data, ⟨c.rpc_code, c.error_message⟩)⟩
        ((service_t.new ⟨"s", "app"⟩ 0).send_message
          ⟨"u1", ⟨"s", "h"⟩, "p", false, false, none⟩).2
        ⟨"u1", 1, 0, "", "r1"⟩ 5).send_message
          ⟨"u1", ⟨"s", "k"⟩, "q", false, false, none⟩).1 =
        response_impl_t.new "u1" ⟨"s", "k"⟩ ∧
      map_find ((service_t.enqueue_responce
        ⟨⟨1, 2⟩, 3, 4, fun c => (c.data, ⟨c.rpc_code, c.error_message⟩)⟩
        ((service_t.new ⟨"s", "app"⟩ 0).send_message
          ⟨"u1", ⟨"s", "h"⟩, "p", false, false, none⟩).2
        ⟨"u1", 1, 0, "", "r1"⟩ 5).send_message
          ⟨"u1", ⟨"s", "k"⟩, "q", false, false, none⟩).2.m_responses "u1" =
        some { obj := response_impl_t.new "u1" ⟨"s", "k"⟩, use_count := 2 } := by
  decide

/-- C17, amended. Registering under a uuid that is already present does not
fail: `send_message` for a message whose uuid has a registry entry returns a
new receiver with the message's uuid and path, and the registry then holds
that receiver under the uuid in place of the earlier one; the entries of the
other uuids are unchanged. -/
theorem duplicate_registration_replaces (s : service_t) (message : message_iface) :
    (s.send_message message).1 = response_impl_t.new message.uuid message.path ∧
      (∀ old : response_ptr, map_find s.m_responses message.uuid = some old →
        map_find (s.send_message message).2.m_responses message.uuid =
          some { obj := response_impl_t.new message.uuid message.path, use_count := 2 }) ∧
      ∀ uuid : String, uuid ≠ message.uuid →
        map_find (s.send_message message).2.m_responses uuid = map_find s.m_responses uuid := by
  refine ⟨?_, ?_, ?_⟩
  · cases h : map_find s.m_handles message.path.handle_name with
    | none => rw [send_message_absent s message h]
    | some handle => rw [send_message_present s message handle h]
  · intro old _
    rw [send_message_responses, map_find_assign_same]
  · intro uuid hne
    rw [send_message_responses, map_find_assign_other _ _ _ _ hne]

/-- C17 amended, on a registry that holds "u1" already. -/
theorem duplicate_registration_replaces_witness :
    map_find (((service_t.new ⟨"s", "app"⟩ 0).send_message
        ⟨"u1", ⟨"s", "h"⟩, "p", false, false, none⟩).2.send_message
        ⟨"u1", ⟨"s", "k"⟩, "q", false, false, none⟩).2.m_responses
        (message_iface.mk "u1" ⟨"s", "k"⟩ "q" false false none).uuid =
      some { obj := response_impl_t.new
               (message_iface.mk "u1" ⟨"s", "k"⟩ "q" false false none).uuid
               (message_iface.mk "u1" ⟨"s", "k"⟩ "q" false false none).path,
             use_count := 2 } :=
  (duplicate_registration_replaces
    ((service_t.new ⟨"s", "app"⟩ 0).send_message
      ⟨"u1", ⟨"s", "h"⟩, "p", false, false, none⟩).2
    ⟨"u1", ⟨"s", "k"⟩, "q", false, false, none⟩).2.1
    ⟨response_impl_t.new "u1" ⟨"s", "h"⟩, 2⟩ (by decide)

/-- C19, counterexample: on an empty unhandled store `append_to_unhandled`
with an empty deque for "h" creates no queue for "h". -/
theorem append_to_unhandled_empty_creates_no_queue :
    map_find (service_t.append_to_unhandled (service_t.new ⟨"s", "app"⟩ 0) "h"
      []).m_unhandled_messages "h" = none := by
  decide

/-- C19, amended. Bulk append: with a non-empty deque `D`,
`append_to_unhandled(name, D)` leaves the queue of that name (created if none
existed) holding its previous content followed by the messages of `D` in
`D`'s order, with `sent` and `ack_received` cleared on every message of the
queue; with an empty `D` it changes nothing and creates no queue.  In both
cases the queues of all other names are unchanged. -/
theorem bulk_append (s : service_t) (name : String) (handle_queue : cached_messages_deque_t) :
    (handle_queue ≠ [] →
      map_find (s.append_to_unhandled name handle_queue).m_unhandled_messages name =
          some ((s.unhandled_queue name ++ handle_queue).map clear_metadata) ∧
        (∀ m ∈ (s.unhandled_queue name ++ handle_queue).map clear_metadata,
          m.m_is_sent = false ∧ m.m_ack_received = false) ∧
        ((∀ m ∈ s.unhandled_queue name, m.m_is_sent = false ∧ m.m_ack_received = false) →
          map_find (s.append_to_unhandled name handle_queue).m_unhandled_messages name =
            some (s.unhandled_queue name ++ handle_queue.map clear_metadata))) ∧
      (handle_queue = [] → s.append_to_unhandled name handle_queue = s) ∧
      (∀ other : String, other ≠ name →
        map_find (s.append_to_unhandled name handle_queue).m_unhandled_messages other =
          map_find s.m_unhandled_messages other) := by
  refine ⟨?_, ?_, ?_⟩
  · intro hne
    have hfind := append_to_unhandled_find_same s name handle_queue hne
    refine ⟨hfind, ?_, ?_⟩
    · intro m hm
      obtain ⟨m0, _, rfl⟩ := List.mem_map.mp hm
      exact clear_metadata_flags m0
    · intro hclear
      rw [hfind, List.map_append, map_clear_metadata_of_clear _ hclear]
  · intro he
    rw [he]
    exact append_to_unhandled_empty s name
  · intro other hne
    exact append_to_unhandled_find_other s name other handle_queue hne

/-- C19 amended, on an empty store and a deque of one sent message. -/
theorem bulk_append_witness :
    map_find (service_t.append_to_unhandled (service_t.new ⟨"s", "app"⟩ 0) "h"
        [⟨"u1", ⟨"s", "h"⟩, "p", true, true, none⟩]).m_unhandled_messages "h" =
      some ((service_t.unhandled_queue (service_t.new ⟨"s", "app"⟩ 0) "h" ++
        [message_iface.mk "u1" ⟨"s", "h"⟩ "p" true true none]).map clear_metadata) :=
  ((bulk_append (service_t.new ⟨"s", "app"⟩ 0) "h"
    [⟨"u1", ⟨"s", "h"⟩, "p", true, true, none⟩]).1 (by decide)).1

/-- C20. Handle map and unhandled store never overlap: in every reachable
state no handle name is a key of the handle map and of the unhandled store at
the same time, so the unhandled store holds no queue, hence no waiting
message, under the name of a live handle. -/
theorem handle_map_and_unhandled_store_disjoint (ext : externals) (s : service_t)
    (hreach : service_t.Reachable ext s) :
    (∀ name : String,
      ¬ ((map_find s.m_handles name).isSome = true ∧
        (map_find s.m_unhandled_messages name).isSome = true)) ∧
      (∀ (name : String) (handle : handle_t), map_find s.m_handles name = some handle →
        map_find s.m_unhandled_messages name = none ∧ s.unhandled_queue name = []) := by
  have hno := reachable_no_overlap ext s hreach
  constructor
  · intro name h
    obtain ⟨h1, h2⟩ := h
    rw [hno name h1] at h2
    cases h2
  · intro name handle hfind
    have h := hno name (by rw [hfind]; rfl)
    refine ⟨h, ?_⟩
    unfold service_t.unhandled_queue
    rw [h]
    rfl

/-- C20 after two submissions for "h", the creation of "h" and a third
submission: "h" is a handle and has no unhandled queue. -/
theorem handle_map_and_unhandled_store_disjoint_witness :
    ¬ ((map_find ((((service_t.new ⟨"s", "app"⟩ 0).send_message
          ⟨"u1", ⟨"s", "h"⟩, "p", false, false, none⟩).2.create_handle ⟨"h", "app", "s"⟩
          ["e"]).send_message ⟨"u2", ⟨"s", "h"⟩, "p", false, false, none⟩).2.m_handles
          "h").isSome = true ∧
      (map_find ((((service_t.new ⟨"s", "app"⟩ 0).send_message
          ⟨"u1", ⟨"s", "h"⟩, "p", false, false, none⟩).2.create_handle ⟨"h", "app", "s"⟩
          ["e"]).send_message ⟨"u2", ⟨"s", "h"⟩, "p", false, false, none⟩).2.m_unhandled_messages
          "h").isSome = true) :=
  (handle_map_and_unhandled_store_disjoint
    ⟨⟨1, 2⟩, 3, 4, fun c => (c.data, ⟨c.error_code, c.error_message⟩)⟩
    ((((service_t.new ⟨"s", "app"⟩ 0).send_message
      ⟨"u1", ⟨"s", "h"⟩, "p", false, false, none⟩).2.create_handle ⟨"h", "app", "s"⟩
      ["e"]).send_message ⟨"u2", ⟨"s", "h"⟩, "p", false, false, none⟩).2
    (service_t.Reachable.send_message _
      (service_t.Reachable.create_handle _ _
        (service_t.Reachable.send_message _ (service_t.Reachable.init _ _))))).1 "h"

/-! ## Further claims on the receiver and the handle map -/

/-- C22. Missing handle is a no-op: for a handle name absent from the handle
map, `destroy_handle` and `update_handle` return the service unchanged, so
the handle map, the unhandled store and the response registry are as they
were. -/
theorem missing_handle_is_noop (s : service_t) (info : handle_info_t)
    (endpoints : List cocaine_endpoint_t) (habsent : map_find s.m_handles info.name = none) :
    s.destroy_handle info = s ∧ s.update_handle info endpoints = s ∧
      (s.destroy_handle info).m_handles = s.m_handles ∧
      (s.destroy_handle info).m_unhandled_messages = s.m_unhandled_messages ∧
      (s.destroy_handle info).m_responses = s.m_responses ∧
      (s.update_handle info endpoints).m_handles = s.m_handles ∧
      (s.update_handle info endpoints).m_unhandled_messages = s.m_unhandled_messages ∧
      (s.update_handle info endpoints).m_responses = s.m_responses := by
  have h1 := destroy_handle_absent s info habsent
  have h2 := update_handle_absent s info endpoints habsent
  rw [h1, h2]
  exact ⟨rfl, rfl, rfl, rfl, rfl, rfl, rfl, rfl⟩

/-- C22 on a service that has the handle "h" and a waiting message for "k":
destroying and updating the absent "k" change nothing. -/
theorem missing_handle_is_noop_witness :
    service_t.destroy_handle
        (((service_t.new ⟨"s", "app"⟩ 0).create_handle ⟨"h", "app", "s"⟩ ["e"]).send_message
          ⟨"u1", ⟨"s", "k"⟩, "p", false, false, none⟩).2 ⟨"k", "app", "s"⟩ =
      (((service_t.new ⟨"s", "app"⟩ 0).create_handle ⟨"h", "app", "s"⟩ ["e"]).send_message
        ⟨"u1", ⟨"s", "k"⟩, "p", false, false, none⟩).2 :=
  (missing_handle_is_noop
    (((service_t.new ⟨"s", "app"⟩ 0).create_handle ⟨"h", "app", "s"⟩ ["e"]).send_message
      ⟨"u1", ⟨"s", "k"⟩, "p", false, false, none⟩).2 ⟨"k", "app", "s"⟩ ["e2"] (by decide)).1

/-! ## Claims on the lock order -/

/-- C23. Lock order: along the lock operations of `send_message`,
`create_handle`, `update_handle`, `destroy_handle`,
`check_for_deadlined_messages` and `enqueue_responce`, taken from any state
and with no router lock held at the start, the handle-map lock is never
acquired while the unhandled-store or the response-registry lock is held, the
unhandled-store lock is never acquired while the response-registry lock is
held, and `enqueue_responce` calls `add_chunk` only after it has released the
response-registry lock. -/
theorem lock_order (ext : externals) (s : service_t) (message : message_iface)
    (info : handle_info_t) (response : response_chunk_t) (now : Nat) :
    lock_order_ok [] (s.send_message_events message) = true ∧
      lock_order_ok [] create_handle_events = true ∧
      lock_order_ok [] update_handle_events = true ∧
      lock_order_ok [] (s.destroy_handle_events info) = true ∧
      lock_order_ok [] (s.check_for_deadlined_messages_events ext now) = true ∧
      lock_order_ok [] (s.enqueue_responce_events response now) = true := by
  refine ⟨?_, by decide, by decide, ?_, ?_, ?_⟩
  · unfold service_t.send_message_events
    cases map_find s.m_handles message.path.handle_name with
    | none => rfl
    | some handle => rfl
  · unfold service_t.destroy_handle_events
    cases map_find s.m_handles info.name with
    | none => rfl
    | some handle =>
      simp only []
      unfold append_to_unhandled_events
      split_ifs
      · rfl
      · rfl
  · unfold service_t.check_for_deadlined_messages_events
    have h := lock_order_ok_dispatch ext now [router_lock.unhandled]
      [lock_event.release router_lock.unhandled] (by decide)
      ((expired_messages now s.m_unhandled_messages).map (deadline_chunk ext)) s
    change (!([] : List router_lock).contains router_lock.responses &&
      lock_order_ok [router_lock.unhandled]
        (dispatch_events ext now
          ((expired_messages now s.m_unhandled_messages).map (deadline_chunk ext)) s ++
          [lock_event.release router_lock.unhandled])) = true
    rw [h]
    rfl
  · have h := lock_order_ok_enqueue_responce s response now [] [] (by decide)
    rw [List.append_nil] at h
    rw [h]
    rfl

/-! ## Claims on the endpoints and the hosts text -/

/-- C24. Transport name table round trip: in any state of the static tables
that calls can leave, `transport_from_string (string_from_transport t) = t` for
each of the six transport kinds, `string_from_transport (transport_from_string
s) = s` for each of the six strings "", "inproc", "ipc", "tcp", "pgm", "epgm",
and `transport_from_string` maps every other string to `TRANSPORT_UNDEFINED`;
the second call of a round trip runs on the tables the first one left. -/
theorem transport_table_round_trip (st : transport_tables)
    (hst : transport_tables.Reachable st) :
    (∀ t : transport_type,
        (transport_from_string (string_from_transport st t).2
          (string_from_transport st t).1).1 = t) ∧
      (∀ s : String, s ∈ ["", "inproc", "ipc", "tcp", "pgm", "epgm"] →
        (string_from_transport (transport_from_string st s).2
          (transport_from_string st s).1).1 = s) ∧
      (∀ s : String, s ∉ ["", "inproc", "ipc", "tcp", "pgm", "epgm"] →
        (transport_from_string st s).1 = transport_type.TRANSPORT_UNDEFINED) := by
  have h := reachable_tables_init hst
  refine ⟨?_, ?_, ?_⟩
  · intro t
    rw [string_from_transport_filled st h,
      transport_from_string_filled _ init_transport_literals_filled]
    cases t <;> decide
  · intro s hs
    rw [transport_from_string_filled st h,
      string_from_transport_filled _ init_transport_literals_filled]
    simp only [List.mem_cons, List.mem_singleton, List.not_mem_nil, or_false] at hs
    rcases hs with hs | hs | hs | hs | hs | hs <;> subst hs <;> decide
  · intro s hs
    rw [transport_from_string_filled st h]
    simp only [List.mem_cons, List.mem_singleton, List.not_mem_nil, or_false, not_or] at hs
    obtain ⟨h0, h1, h2, h3, h4, h5⟩ := hs
    simp [transport_tables.filled, map_find, h0, h1, h2, h3, h4, h5]

theorem transport_table_round_trip_witness :
    (∀ t : transport_type,
        (transport_from_string (string_from_transport transport_tables.start t).2
          (string_from_transport transport_tables.start t).1).1 = t) ∧
      (∀ s : String, s ∈ ["", "inproc", "ipc", "tcp", "pgm", "epgm"] →
        (string_from_transport (transport_from_string transport_tables.start s).2
          (transport_from_string transport_tables.start s).1).1 = s) ∧
      (∀ s : String, s ∉ ["", "inproc", "ipc", "tcp", "pgm", "epgm"] →
        (transport_from_string transport_tables.start s).1 =
          transport_type.TRANSPORT_UNDEFINED) :=
  transport_table_round_trip transport_tables.start transport_tables.Reachable.start

/-- C25. Hosts parsing defaults and skips: for every input text and every
state of the transport tables that calls can leave, `parse_hosts_data` returns
the given endpoint list followed by what the tokens add, each token on its
own; a token whose trimmed line is empty or starts with '#', whose host text
resolves to ip 0, or whose port text `lexical_cast` does not convert, adds no
endpoint; and every endpoint a token adds has a transport other than
`TRANSPORT_UNDEFINED`, which is `TRANSPORT_TCP` when the line has no "://"
prefix or one that `transport_from_string` does not recognise and the named
transport when it does, and has port 0 when the line has no ':' port part. -/
theorem hosts_parsing_defaults_and_skips (env : host_externals) (st : transport_tables)
    (data : String) (endpoints : List inetv4_endpoint_t)
    (hst : transport_tables.Reachable st) :
    (parse_hosts_data env st data endpoints).1 =
        endpoints ++ (tokenizer data).filterMap
          (fun tok => (parse_line env transport_tables.filled tok).1.endpoint) ∧
      (∀ tok : List Char,
        (parse_line env st tok).1 = (parse_line env transport_tables.filled tok).1 ∧
        (trim tok = [] ∨ (trim tok).head? = some '#' →
          (parse_line env st tok).1 = line_result.skipped) ∧
        (env.ipv4_from_hint (String.mk (host_text (line_rest (trim tok)))) = some 0 →
          (parse_line env st tok).1 = line_result.skipped) ∧
        (∀ p : List Char, port_text (line_rest (trim tok)) = some p →
          env.lexical_cast_unsigned_short (String.mk p) = none →
          (parse_line env st tok).1.endpoint = none) ∧
        (∀ e : inetv4_endpoint_t, (parse_line env st tok).1 = line_result.pushed e →
          e.transport ≠ transport_type.TRANSPORT_UNDEFINED ∧
          (line_transport_str (trim tok) = none → e.transport = transport_type.TRANSPORT_TCP) ∧
          (∀ p : List Char, line_transport_str (trim tok) = some p →
            e.transport =
              if (transport_from_string st (String.mk p)).1 = transport_type.TRANSPORT_UNDEFINED
              then transport_type.TRANSPORT_TCP
              else (transport_from_string st (String.mk p)).1) ∧
          (port_text (line_rest (trim tok)) = none → e.port = 0))) := by
  have hf : transport_tables.Reachable transport_tables.filled := by
    have h := transport_tables.Reachable.init transport_tables.Reachable.start
    rw [init_transport_literals_start] at h
    exact h
  refine ⟨parse_lines_fst env (tokenizer data) st endpoints hst, ?_⟩
  intro tok
  refine ⟨parse_line_fst env hst hf tok, ?_, parse_line_ip_zero env st tok,
    fun p hp hc => parse_line_bad_port env st tok p hp hc, ?_⟩
  · intro h
    rw [parse_line_comment env st tok h]
  · intro e he
    have h1 := parse_line_pushed env st tok e he
    refine ⟨?_, ?_, ?_, h1.2⟩
    · rw [h1.1]
      exact line_transport_ne_undefined st (trim tok)
    · intro h
      rw [h1.1]
      exact line_transport_no_prefix st (trim tok) h
    · intro p hp
      rw [h1.1]
      split_ifs with hu
      · exact line_transport_unrecognised st (trim tok) p hp hu
      · exact line_transport_recognised st (trim tok) p hp hu

theorem hosts_parsing_defaults_and_skips_witness :
    transport_tables.Reachable transport_tables.start ∧
      (parse_hosts_data sample_host_externals transport_tables.start sample_hosts_data []).1 =
        [] ++ (tokenizer sample_hosts_data).filterMap
          (fun tok =>
            (parse_line sample_host_externals transport_tables.filled tok).1.endpoint) :=
  ⟨transport_tables.Reachable.start,
    (hosts_parsing_defaults_and_skips sample_host_externals transport_tables.start
      sample_hosts_data [] transport_tables.Reachable.start).1⟩

end Dealer
